import Mathlib

/-!
# OPC-DA endpoint (`red/opc-da.js`): model and verified properties

The endpoint of `red/opc-da.js` is embedded as pure functions over an explicit
state record.  The record holds the closure variables of `OPCDAEndpoint`
together with what the JavaScript runtime and the protocol driver hold for
it: the running timers, the `process.nextTick` queue, the callbacks handed to
the driver that were not invoked yet, and the log of every externally visible
action.
-/

namespace OpcDa

/-! ## JavaScript values -/

/-- A JavaScript number: `NaN`, an infinity, or a finite value.  Every finite
double is a rational; `+0` and `-0` are one value here because neither `===`
nor `<` tells them apart. -/
inductive JSNum where
  | nan
  | inf (neg : Bool)
  | fin (q : ℚ)
deriving DecidableEq

namespace JSNum

/-- Strict equality `x === y` on numbers: `NaN` is identical to nothing. -/
def strictEq : JSNum → JSNum → Bool
  | nan, _ => false
  | _, nan => false
  | inf a, inf b => a == b
  | fin p, fin q => decide (p = q)
  | inf _, fin _ => false
  | fin _, inf _ => false

/-- The comparison `x < y` on numbers: false as soon as one side is `NaN`. -/
def lt : JSNum → JSNum → Bool
  | nan, _ => false
  | _, nan => false
  | inf true, inf true => false
  | inf true, _ => true
  | inf false, _ => false
  | fin _, inf neg => !neg
  | fin p, fin q => decide (p < q)

/-- The comparison `x <= y` on numbers: false as soon as one side is `NaN`. -/
def le (x y : JSNum) : Bool := x.lt y || x.strictEq y

/-- The global `isNaN` applied to a number. -/
def isNaN : JSNum → Bool
  | nan => true
  | _ => false

/-- Truthiness of a number (`!x` is its negation): `NaN` and zero are falsy. -/
def truthy : JSNum → Bool
  | nan => false
  | inf _ => true
  | fin q => decide (q ≠ 0)

/-- An integer as a JavaScript number. -/
def ofInt (i : Int) : JSNum := fin i

end JSNum

/-- The values that travel through the endpoint: read results, write payloads
and the argument of `updateCycleTime`.  An array carries its object identity
`ref`; `===` on two arrays compares the identities only. -/
inductive Value where
  | undefined
  | null
  | bool (b : Bool)
  | num (x : JSNum)
  | str (s : String)
  | arr (ref : Nat) (elems : List Value)

namespace Value

/-- Strict equality `a === b`. -/
def strictEq : Value → Value → Bool
  | undefined, undefined => true
  | null, null => true
  | bool a, bool b => a == b
  | num x, num y => x.strictEq y
  | str s, str t => s == t
  | arr r _, arr r' _ => r == r'
  | _, _ => false

/-- The test `a == null`: true for `null` and `undefined` only. -/
def isNullish : Value → Bool
  | undefined => true
  | null => true
  | _ => false

/-- An integer-valued number. -/
def int (i : Int) : Value := num (JSNum.ofInt i)

end Value

/-- The `for` loop of `equals`, run on two arrays of equal length: index by
index, the first pair with `a[i] !== b[i]` answers `false`. -/
def equalsLoop : List Value → List Value → Bool
  | x :: xs, y :: ys => if !(x.strictEq y) then false else equalsLoop xs ys
  | _, _ => true

/-- The function `equals(a, b)` of `opc-da.js`. -/
def equals (a b : Value) : Bool :=
  if a.strictEq b then true
  else if a.isNullish || b.isNullish then false
  else
    match a, b with
    | .arr _ xs, .arr _ ys =>
      if xs.length != ys.length then false
      else equalsLoop xs ys
    | _, _ => false

/-! ## The endpoint state -/

/-- The four status strings passed to `manageStatus`. -/
inductive Status where
  | online
  | badvalues
  | offline
  | connecting
deriving DecidableEq, Repr

/-- A write request `{name, val}` as built by the out node. -/
structure WriteObj where
  name : Value
  val : Value

/-- A plain object keyed by variable name (a read result), in key order. -/
abbrev Obj := List (String × Value)

/-- The call `Object.keys(o)`. -/
def objectKeys (o : Obj) : List String := o.map Prod.fst

/-- The property read `o[key]`: `undefined` when the key is missing. -/
def getProp (o : Obj) (key : String) : Value := (o.lookup key).getD .undefined

/-- The continuation `done` given to `closeConnection`: the inner function
`doConnect` of `connect()`, a callback of the host runtime, or nothing. -/
inductive Done where
  | doConnect
  | external
  | absent
deriving DecidableEq, Repr

/-- A task queued with `process.nextTick`. -/
inductive Task where
  | doConnect
  | doCb (done : Done)
deriving DecidableEq, Repr

/-- A callback handed to the driver of connection object `conn` and not invoked
yet. -/
inductive Pending where
  | onConnect (conn : Nat)
  | cycleCallback (conn : Nat)
  | onWritten (conn : Nat)
  | doCb (conn : Nat) (done : Done)
deriving DecidableEq, Repr

/-- A running timer: `setTimeout(connect, delay)` or
`setInterval(doCycle, period)`, with the handle the call returned. -/
inductive Timer where
  | timeout (id : Nat) (delay : Nat)
  | interval (id : Nat) (period : JSNum)

/-- The handle of a timer. -/
def Timer.id : Timer → Nat
  | timeout id _ => id
  | interval id _ => id

/-- The message keys passed to `RED._`. -/
inductive Msg where
  | invalidtimeinterval (interval : Value)
  | cycletimetooshort (min : Nat)
  | badvalues
  | noresponse
  | onconnect (err : String)
  | novars
  | disconnect
  | connect

/-- The argument of an emitted event. -/
inductive Payload where
  | status (status : Status)
  | values (values : Obj)
  | value (value : Value)
  | keyValue (key : String) (value : Value)

/-- An externally visible action of the endpoint. -/
inductive Effect where
  | emit (name : String) (payload : Payload)
  | warn (msg : Msg)
  | error (msg : Msg)
  | log (msg : Msg)
  | writeItems (conn : Nat) (elm : WriteObj)
  | readAllItems (conn : Nat)
  | setTranslationCB (conn : Nat)
  | addItems (conn : Nat) (keys : List String)
  | initiateConnection (conn : Nat)
  | dropConnection (conn : Nat) (done : Done)
  | nextTick (task : Task)
  | done

/-- The endpoint.  The first block are the closure variables and node
properties of `OPCDAEndpoint`; the second block is held by the runtime and the
driver: running timers, the `nextTick` queue, driver callbacks not invoked
yet, the next fresh handle, the log of visible actions, and the number of
listeners that consumers have registered on the endpoint for the event name
`error`. -/
structure Endpoint where
  oldValues : String → Value
  status : Option Status
  readInProgress : Bool
  readDeferred : Nat
  isVerbose : Bool
  connectTimeoutTimer : Option Nat
  connected : Bool
  currentCycleTime : Value
  writeInProgress : Bool
  writeQueue : List WriteObj
  vars : List (String × String)
  td : Option Nat
  conn : Option Nat
  timers : List Timer
  ticks : List Task
  pending : List Pending
  nextId : Nat
  trace : List Effect
  errorListeners : Nat

/-- The closure variables as `OPCDAEndpoint` initialises them, for a variable
table `vars`, the configured cycle time and the verbosity flag. -/
def Endpoint.init (vars : List (String × String)) (cycletime : Value)
    (isVerbose : Bool) : Endpoint where
  oldValues := fun _ => .undefined
  status := none
  readInProgress := false
  readDeferred := 0
  isVerbose := isVerbose
  connectTimeoutTimer := none
  connected := false
  currentCycleTime := cycletime
  writeInProgress := false
  writeQueue := []
  vars := vars
  td := none
  conn := none
  timers := []
  ticks := []
  pending := []
  nextId := 0
  trace := []
  errorListeners := 0

/-- The result of running a function of the endpoint: it returned, or it threw
a `TypeError` (a method call on `node._conn` while that is `null`); either way
the assignments made so far stay. -/
inductive Outcome where
  | ok (s : Endpoint)
  | threw (s : Endpoint)

/-- The endpoint state an outcome leaves behind. -/
def Outcome.state : Outcome → Endpoint
  | ok s => s
  | threw s => s

/-- Sequencing: the rest of a function body runs only if the call returned. -/
def Outcome.andThen (o : Outcome) (f : Endpoint → Outcome) : Outcome :=
  match o with
  | ok s => f s
  | threw s => threw s

/-! ## Runtime primitives -/

/-- Appends a visible action to the log. -/
def Endpoint.effect (e : Effect) (s : Endpoint) : Endpoint :=
  { s with trace := s.trace ++ [e] }

/-- The calls `clearTimeout(h)` and `clearInterval(h)`: the timer with that
handle stops; nothing happens for `undefined` or a handle that is not
running. -/
def clearTimer (h : Option Nat) (s : Endpoint) : Endpoint :=
  match h with
  | none => s
  | some id => { s with timers := s.timers.filter (fun t => t.id != id) }

/-- The call `setTimeout(connect, delay)`, returning the new handle; the only
delay used, 5000 ms, is one the runtime takes as it is. -/
def setTimeout (delay : Nat) (s : Endpoint) : Nat × Endpoint :=
  (s.nextId, { s with timers := s.timers ++ [.timeout s.nextId delay],
                      nextId := s.nextId + 1 })

/-- The largest delay the runtime's timers take, 2^31 - 1 ms. -/
def TIMEOUT_MAX : Nat := 2147483647

/-- The delay the runtime gives a timer asked for `after` ms: a value that is
not within 1 .. `TIMEOUT_MAX` (`NaN` included) is replaced by 1. -/
def timerDelay (after : JSNum) : JSNum :=
  if !((JSNum.ofInt 1).le after && after.le (.ofInt TIMEOUT_MAX)) then .ofInt 1 else after

/-- The call `setInterval(doCycle, period)`, returning the new handle; the
timer runs with the period the runtime gives it. -/
def setInterval (period : JSNum) (s : Endpoint) : Nat × Endpoint :=
  (s.nextId, { s with timers := s.timers ++ [.interval s.nextId (timerDelay period)],
                      nextId := s.nextId + 1 })

/-- The call `process.nextTick(task)`. -/
def nextTick (task : Task) (s : Endpoint) : Endpoint :=
  { s with ticks := s.ticks ++ [task], trace := s.trace ++ [.nextTick task] }

/-- An asynchronous driver call: the call is logged and its callback is held
by the driver until it completes. -/
def driverCall (e : Effect) (cb : Pending) (s : Endpoint) : Endpoint :=
  { s with trace := s.trace ++ [e], pending := s.pending ++ [cb] }

/-! ## The functions of `OPCDAEndpoint` -/

/-- The constant `MIN_CYCLE_TIME`. -/
def MIN_CYCLE_TIME : Nat := 50

/-- The method `getStatus()`. -/
def getStatus (s : Endpoint) : Option Status := s.status

/-- The function `manageStatus(newStatus)`. -/
def manageStatus (newStatus : Status) (s : Endpoint) : Endpoint :=
  if s.status = some newStatus then s
  else
    { s with status := some newStatus,
             trace := s.trace ++ [.emit "__STATUS__" (.status newStatus)] }

/-- The function `closeConnection(done)`. -/
def closeConnection (done : Done) (s : Endpoint) : Endpoint :=
  let s := clearTimer s.connectTimeoutTimer s
  let s := if s.isVerbose then s.effect (.log .disconnect) else s
  let s := manageStatus .offline s
  let s := clearTimer s.td s
  let s := { s with connected := false }
  match s.conn with
  | some c => driverCall (.dropConnection c done) (.doCb c done) s
  | none => nextTick (.doCb done) s

/-- The function `connect()`; its inner `doConnect` runs later, as the `done`
of `closeConnection` or from the `nextTick` queue. -/
def connect (s : Endpoint) : Endpoint :=
  match s.conn with
  | some _ => closeConnection .doConnect s
  | none => nextTick .doConnect s

/-- The inner function `doConnect` of `connect()`.  The new driver object gets
a fresh identity; the options it is given (connection options, request
timeout) play no part in what the endpoint does afterwards and are left out. -/
def doConnect (s : Endpoint) : Endpoint :=
  let s := manageStatus .connecting s
  let s := if s.isVerbose then s.effect (.log .connect) else s
  let s := { s with connected := false }
  let c := s.nextId
  let s := { s with conn := some c, nextId := s.nextId + 1 }
  driverCall (.initiateConnection c) (.onConnect c) s

/-- The inner function `doCb` of `closeConnection(done)`. -/
def doCb (done : Done) (s : Endpoint) : Endpoint :=
  let s := { s with conn := none }
  match done with
  | .doConnect => doConnect s
  | .external => s.effect .done
  | .absent => s

/-- The function `doCycle()`. -/
def doCycle (s : Endpoint) : Outcome :=
  if !s.readInProgress && s.connected then
    match s.conn with
    | none => .threw s
    | some c =>
      let s := driverCall (.readAllItems c) (.cycleCallback c) s
      .ok { s with readInProgress := true }
  else
    let s := { s with readDeferred := s.readDeferred + 1 }
    if s.readDeferred > 10 then
      let s := s.effect (.warn .noresponse)
      .ok (connect s)
    else .ok s

/-- The function `writeNext()`. -/
def writeNext (s : Endpoint) : Outcome :=
  if !s.connected then .ok s
  else
    match s.writeQueue with
    | [] => .ok s
    | nextElm :: rest =>
      let s := { s with writeQueue := rest }
      match s.conn with
      | none => .threw s
      | some c =>
        let s := driverCall (.writeItems c nextElm) (.onWritten c) s
        .ok { s with writeInProgress := true }

/-- The method `writeVar(obj)`. -/
def writeVar (obj : WriteObj) (s : Endpoint) : Outcome :=
  let s := { s with writeQueue := s.writeQueue ++ [obj] }
  if !s.writeInProgress then writeNext s else .ok s

/-- The function `onWritten(err)`; `err` is the truthiness of the argument. -/
def onWritten (err : Bool) (s : Endpoint) : Outcome :=
  let s := { s with writeInProgress := false }
  (writeNext s).andThen fun s =>
    if err then
      let s := manageStatus .badvalues s
      .ok (s.effect (.error .badvalues))
    else .ok (manageStatus .online s)

/-- The call `node.emit(name, payload)` for an event name that is a variable
name.  The call is logged; an `EventEmitter` throws when the name is `error`
and no listener is registered for it.  (The event names the endpoint uses
itself, `__STATUS__`, `__ALL__`, `__CHANGED__` and `__ALL_CHANGED__`, are not
`error`: emitting them returns and is written as a plain log entry.) -/
def emit (name : String) (payload : Payload) (s : Endpoint) : Outcome :=
  if name = "error" ∧ s.errorListeners = 0 then .threw (s.effect (.emit name payload))
  else .ok (s.effect (.emit name payload))

/-- The body of the `forEach` callback in `cycleCallback`, for one key; the
Boolean is the local variable `changed`. -/
def cycleKey (values : Obj) (acc : Endpoint × Bool) (key : String) : Outcome × Bool :=
  if !equals (acc.1.oldValues key) (getProp values key) then
    ((emit key (.value (getProp values key)) acc.1).andThen fun s =>
      let s := s.effect (.emit "__CHANGED__" (.keyValue key (getProp values key)))
      .ok { s with oldValues := Function.update s.oldValues key (getProp values key) },
     true)
  else (.ok acc.1, acc.2)

/-- The loop `Object.keys(values).forEach(...)` of `cycleCallback` over the
keys that are left: a throw in the callback ends the loop. -/
def cycleKeys (values : Obj) : List String → Endpoint × Bool → Outcome × Bool
  | [], acc => (.ok acc.1, acc.2)
  | key :: rest, acc =>
    match cycleKey values acc key with
    | (.ok s, changed) => cycleKeys values rest (s, changed)
    | (.threw s, changed) => (.threw s, changed)

/-- The statements of `cycleCallback(err, values)` from `if (err)` on: the
error report, or the status update, the events and the snapshot update. -/
def cycleReport (err : Bool) (values : Obj) (s : Endpoint) : Outcome :=
  if err then
    let s := manageStatus .badvalues s
    .ok (s.effect (.error .badvalues))
  else
    let s := manageStatus .online s
    let s := s.effect (.emit "__ALL__" (.values values))
    let r := cycleKeys values (objectKeys values) (s, false)
    r.1.andThen fun s =>
      if r.2 then .ok (s.effect (.emit "__ALL_CHANGED__" (.values values)))
      else .ok s

/-- The function `cycleCallback(err, values)`; `err` is the truthiness of the
first argument. -/
def cycleCallback (err : Bool) (values : Obj) (s : Endpoint) : Outcome :=
  let s := { s with readInProgress := false }
  (if s.readDeferred != 0 && s.connected then
      (doCycle s).andThen fun s => .ok { s with readDeferred := 0 }
    else .ok s).andThen fun s => cycleReport err values s

section
variable (parseInt : Value → JSNum)

/-- The method `updateCycleTime(interval)`: the returned error (or nothing)
and the new state.  The builtin `parseInt` is a parameter. -/
def updateCycleTime (interval : Value) (s : Endpoint) : Option Msg × Endpoint :=
  let time := parseInt interval
  if time.isNaN || time.lt (.ofInt 0) then
    (some (.invalidtimeinterval interval), s)
  else
    let s := clearTimer s.td s
    if !time.truthy then (none, s)
    else
      let r : JSNum × Endpoint :=
        if time.lt (.ofInt MIN_CYCLE_TIME) then
          (.ofInt MIN_CYCLE_TIME, s.effect (.warn (.cycletimetooshort MIN_CYCLE_TIME)))
        else (time, s)
      let s := { r.2 with currentCycleTime := .num r.1 }
      let t := setInterval r.1 s
      (none, { t.2 with td := some t.1 })

/-- The function `onConnect(err)`; `err` is `none` for a falsy argument and
otherwise carries `err.toString()`. -/
def onConnect (err : Option String) (s : Endpoint) : Outcome :=
  let varKeys := s.vars.map Prod.fst
  let s := clearTimer s.connectTimeoutTimer s
  match err with
  | some e =>
    let s := manageStatus .offline s
    let s := s.effect (.error (.onconnect e))
    let s := { s with connected := false }
    let t := setTimeout 5000 s
    .ok { t.2 with connectTimeoutTimer := some t.1 }
  | none =>
    let s := { s with readInProgress := false, readDeferred := 0, connected := true }
    let s := manageStatus .online s
    if varKeys.isEmpty then .ok (s.effect (.warn .novars))
    else
      match s.conn with
      | none => .threw s
      | some c =>
        let s := s.effect (.setTranslationCB c)
        let s := s.effect (.addItems c varKeys)
        let s := (updateCycleTime parseInt s.currentCycleTime s).2
        writeNext s

/-! ## Events -/

/-- What can happen to an endpoint: calls by its consumers, timers firing, the
`nextTick` queue advancing, and the driver completing a call. -/
inductive Event where
  /-- An out node calls `writeVar(obj)`. -/
  | writeVar (obj : WriteObj)
  /-- A control node calls `updateCycleTime(interval)`. -/
  | updateCycleTime (interval : Value)
  /-- A control node calls `doCycle()`. -/
  | trigger
  /-- The host runtime emits `close`: `closeConnection(done)` runs. -/
  | close
  /-- The call `connect()` that ends the constructor. -/
  | connect
  /-- The timer with this handle fires: `connect()` for a retry timer (which is
  then spent), `doCycle()` for the poll timer. -/
  | timerFires (id : Nat)
  /-- The oldest task of the `nextTick` queue runs. -/
  | tick
  /-- The driver completes a connect attempt: `onConnect(err)`. -/
  | connectDone (conn : Nat) (err : Option String)
  /-- The driver completes a bulk read: `cycleCallback(err, values)`. -/
  | readDone (conn : Nat) (err : Bool) (values : Obj)
  /-- The driver completes a write: `onWritten(err)`. -/
  | written (conn : Nat) (err : Bool)
  /-- The driver has dropped a connection: `doCb()` runs. -/
  | dropDone (conn : Nat) (done : Done)
  /-- A consumer node calls `endpoint.on(name, listener)`, the short form of
  `addListener`. -/
  | addListener (name : String)
  /-- A consumer node calls `endpoint.removeListener(name, listener)` for a
  listener it registered. -/
  | removeListener (name : String)

/-- Runs `handler` as the completion of the driver call whose callback is
`cb`; the driver invokes only callbacks it holds, once each. -/
def complete (cb : Pending) (handler : Endpoint → Outcome) (s : Endpoint) : Outcome :=
  if cb ∈ s.pending then handler { s with pending := s.pending.erase cb }
  else .ok s

/-- One event. -/
def step (s : Endpoint) : Event → Outcome
  | .writeVar obj => writeVar obj s
  | .updateCycleTime interval => .ok (updateCycleTime parseInt interval s).2
  | .trigger => doCycle s
  | .close => .ok (closeConnection .external s)
  | .connect => .ok (connect s)
  | .timerFires id =>
    match s.timers.find? (fun t => t.id == id) with
    | some (.timeout _ _) =>
      .ok (connect { s with timers := s.timers.filter (fun t => t.id != id) })
    | some (.interval _ _) => doCycle s
    | none => .ok s
  | .tick =>
    match s.ticks with
    | [] => .ok s
    | .doConnect :: rest => .ok (doConnect { s with ticks := rest })
    | .doCb done :: rest => .ok (doCb done { s with ticks := rest })
  | .connectDone c err => complete (.onConnect c) (onConnect parseInt err) s
  | .readDone c err values => complete (.cycleCallback c) (cycleCallback err values) s
  | .written c err => complete (.onWritten c) (onWritten err) s
  | .dropDone c done => complete (.doCb c done) (fun s => .ok (doCb done s)) s
  | .addListener name =>
    .ok (if name = "error" then { s with errorListeners := s.errorListeners + 1 } else s)
  | .removeListener name =>
    .ok (if name = "error" then { s with errorListeners := s.errorListeners - 1 } else s)

/-- A sequence of events; after a throw the endpoint lives on in the state the
throw left. -/
def run (s : Endpoint) : List Event → Endpoint
  | [] => s
  | e :: es => run (step parseInt s e).state es

end

/-- A stand-in for the builtin `parseInt` in the examples, used at
integer-valued numbers (their own parse) and at strings without a digit
(`NaN`). -/
def sampleParseInt : Value → JSNum
  | .num (.fin q) => if q.den = 1 then .fin q else .nan
  | _ => .nan

/-! ## Observations on states and logs -/

/-- The requests handed to the driver's write operation, in call order. -/
def dispatched (t : List Effect) : List WriteObj :=
  t.filterMap fun e => match e with
    | .writeItems _ elm => some elm
    | _ => none

/-- The requests submitted with `writeVar`, in submission order. -/
def submitted (evs : List Event) : List WriteObj :=
  evs.filterMap fun e => match e with
    | .writeVar obj => some obj
    | _ => none

/-- The statuses carried by the emitted `__STATUS__` events, in order. -/
def statusEvents (t : List Effect) : List Status :=
  t.filterMap fun e => match e with
    | .emit name (.status st) => if name = "__STATUS__" then some st else none
    | _ => none

/-- Whether a logged action is the trace of one call of `connect()`: the call
either drops the open connection with `doConnect` as continuation or queues
`doConnect` with `nextTick`. -/
def isConnectCall : Effect → Bool
  | .dropConnection _ .doConnect => true
  | .nextTick .doConnect => true
  | _ => false

/-- The number of calls of `connect()` a log records. -/
def connectCalls (t : List Effect) : Nat := t.countP isConnectCall

/-- Whether a driver callback is the completion of a write. -/
def Pending.isWrite : Pending → Bool
  | .onWritten _ => true
  | _ => false

/-- Whether a driver callback is the completion of a bulk read. -/
def Pending.isRead : Pending → Bool
  | .cycleCallback _ => true
  | _ => false

/-- The writes handed to the driver whose `onWritten` was not invoked yet. -/
def outstandingWrites (s : Endpoint) : Nat := s.pending.countP Pending.isWrite

/-- The bulk reads handed to the driver whose `cycleCallback` was not invoked
yet. -/
def outstandingReads (s : Endpoint) : Nat := s.pending.countP Pending.isRead

/-- Whether a timer is a poll timer (`setInterval(doCycle, _)`). -/
def Timer.isInterval : Timer → Bool
  | .interval _ _ => true
  | .timeout _ _ => false

/-- The running poll timers. -/
def pollTimers (s : Endpoint) : List Timer := s.timers.filter Timer.isInterval

/-- The pending retry timers (`setTimeout(connect, _)`). -/
def retryTimers (s : Endpoint) : List Timer := s.timers.filter fun t => !t.isInterval

/-- The endpoint after `n` consecutive calls of `doCycle()` with nothing in
between. -/
def cycles : Nat → Endpoint → Endpoint
  | 0, s => s
  | n + 1, s => cycles n (doCycle s).state

/-- The write bookkeeping of two states agrees: as many writes outstanding and
the same `writeInProgress`. -/
def SameWrites (s s' : Endpoint) : Prop :=
  outstandingWrites s' = outstandingWrites s ∧ s'.writeInProgress = s.writeInProgress

/-- The read bookkeeping of two states agrees: as many reads outstanding and
the same `readInProgress`. -/
def SameReads (s s' : Endpoint) : Prop :=
  outstandingReads s' = outstandingReads s ∧ s'.readInProgress = s.readInProgress

/-- The write discipline: at most one write is outstanding, and while one is,
`writeInProgress` is set. -/
def WriteInv (s : Endpoint) : Prop :=
  outstandingWrites s ≤ 1 ∧ (outstandingWrites s = 1 → s.writeInProgress = true)

/-- The read discipline: at most one bulk read is outstanding, and while one
is, `readInProgress` is set. -/
def ReadInv (s : Endpoint) : Prop :=
  outstandingReads s ≤ 1 ∧ (outstandingReads s = 1 → s.readInProgress = true)

section
variable (parseInt : Value → JSNum)

/-- Whether, along the run of `evs` from `s`, every successful connect
completion that the driver delivers finds `count` at zero. -/
def settledAtConnects (count : Endpoint → Nat) (s : Endpoint) : List Event → Bool
  | [] => true
  | e :: es =>
    (match e with
      | .connectDone c none => !decide (Pending.onConnect c ∈ s.pending) || decide (count s = 0)
      | _ => true) && settledAtConnects count (step parseInt s e).state es

end

/-- Whether an event is a write submission, a write completion or a connect
completion. -/
def Event.isWriteOrConnect : Event → Bool
  | .writeVar _ => true
  | .written _ _ => true
  | .connectDone _ _ => true
  | _ => false

/-- The write requests seen so far are the same in both states: those handed
to the driver followed by those still queued; and the connection object is
the same. -/
def SameRequests (s s' : Endpoint) : Prop :=
  dispatched s'.trace ++ s'.writeQueue = dispatched s.trace ++ s.writeQueue ∧ s'.conn = s.conn

/-- Whether `key` counts as changed: its new value is not `equals()` to the
snapshot value. -/
def keyChanged (old : String → Value) (values : Obj) (key : String) : Bool :=
  !equals (old key) (getProp values key)

/-- The value events a successful cycle is specified to emit for the snapshot
`old` and the read result `values`: one all-values event; for each changed
key its per-key value event and its `__CHANGED__` event, nothing for the
other keys; one all-changed event if some key changed. -/
def expectedCycleEvents (old : String → Value) (values : Obj) : List Effect :=
  [.emit "__ALL__" (.values values)] ++
  ((objectKeys values).filter (keyChanged old values)).flatMap (fun key =>
    [.emit key (.value (getProp values key)),
     .emit "__CHANGED__" (.keyValue key (getProp values key))]) ++
  (if (objectKeys values).any (keyChanged old values)
   then [.emit "__ALL_CHANGED__" (.values values)] else [])

/-- A connected endpoint with one variable, obtained from a fresh endpoint by
`connect()`, the queued `doConnect` and a successful connect completion. -/
def sampleOnline : Endpoint :=
  run sampleParseInt (Endpoint.init [("A", "DB1,INT0")] (.int 1000) false)
    [.connect, .tick, .connectDone 0 none]

/-- The status bookkeeping of a state: the status variable and the statuses of
the `__STATUS__` events emitted so far. -/
def statusView (s : Endpoint) : Option Status × List Status := (s.status, statusEvents s.trace)

/-- What one call `manageStatus(n)` does to the status bookkeeping. -/
def viewStep (v : Option Status × List Status) (n : Status) : Option Status × List Status :=
  if v.1 = some n then v else (some n, v.2 ++ [n])

/-- The status bookkeeping of `s'` results from that of `s` by a sequence of
`manageStatus` calls. -/
def StatusReach (s s' : Endpoint) : Prop :=
  ∃ ns : List Status, statusView s' = ns.foldl viewStep (statusView s)

/-- The status variable is the status of the last emitted `__STATUS__` event
(or unset when none was emitted), and no two consecutive events carry the same
status. -/
def StatusCoupled (v : Option Status × List Status) : Prop :=
  v.1 = v.2.getLast? ∧ v.2.Chain' (· ≠ ·)

/-- Whether an event happens by itself, without a call by a consumer: a timer
fires, the `nextTick` queue advances, or the driver completes a call. -/
def Event.autonomous : Event → Bool
  | .timerFires _ => true
  | .tick => true
  | .connectDone _ _ => true
  | .readDone _ _ _ => true
  | .written _ _ => true
  | .dropDone _ _ => true
  | _ => false

/-- Whether a driver callback will run `onConnect` or `doConnect`. -/
def Pending.leadsToConnect : Pending → Bool
  | .onConnect _ => true
  | .doCb _ .doConnect => true
  | _ => false

/-- Whether a queued task will run `doConnect`. -/
def Task.leadsToConnect : Task → Bool
  | .doConnect => true
  | .doCb .doConnect => true
  | _ => false

/-- No connect attempt is in flight: the driver holds no `onConnect` and no
`doCb` that continues with `doConnect`, and the `nextTick` queue holds no
`doConnect`. -/
def noConnectInFlight (s : Endpoint) : Bool :=
  s.pending.all (fun p => !p.leadsToConnect) && s.ticks.all (fun t => !t.leadsToConnect)

/-- Every running timer is the one whose handle is stored in
`connectTimeoutTimer` or in `node._td`. -/
def timersTracked (s : Endpoint) : Bool :=
  s.timers.all fun t => some t.id == s.connectTimeoutTimer || some t.id == s.td

/-- A closed endpoint at rest: no timer runs, the endpoint is not connected
and no connect attempt is in flight. -/
def Quiescent (s : Endpoint) : Prop :=
  s.timers = [] ∧ s.connected = false ∧ noConnectInFlight s = true

/-- A fresh endpoint whose first connect attempt is in flight: `connect()` and
the queued `doConnect` have run. -/
def sampleConnecting : Endpoint :=
  run sampleParseInt (Endpoint.init [("A", "DB1,INT0")] (.int 1000) false) [.connect, .tick]

/-- A sample write request for variable `A`. -/
def sampleWrite (n : Int) : WriteObj := ⟨.str "A", .int n⟩

/-- The sample connected endpoint after a first cycle read `{A: 1, B: 2}` and
a second cycle was issued. -/
def sampleSecondCycle : Endpoint :=
  run sampleParseInt sampleOnline
    [.trigger, .readDone 0 false [("A", .int 1), ("B", .int 2)], .trigger]

/-- A device that stops answering: a fresh endpoint connects, three writes are
submitted, the poll timer fires twelve times without any completion, the
forced reconnect drops the connection and `doConnect` opens a new one. -/
def stallEvents : List Event :=
  [.connect, .tick, .connectDone 0 none,
   .writeVar (sampleWrite 1), .writeVar (sampleWrite 2), .writeVar (sampleWrite 3)] ++
  List.replicate 12 (.timerFires 1) ++ [.dropDone 0 .doConnect]

/-- The endpoint after `stallEvents`. -/
def sampleStalled : Endpoint :=
  run sampleParseInt (Endpoint.init [("A", "DB1,INT0")] (.int 1000) false) stallEvents

/-- The timer discipline: every running poll timer is the one whose handle is
in `node._td`, and every pending retry timer is the one whose handle is in
`connectTimeoutTimer`. -/
def TimersOK (s : Endpoint) : Prop :=
  (∀ x ∈ s.timers, x.isInterval = true → s.td = some x.id) ∧
  (∀ x ∈ s.timers, x.isInterval = false → s.connectTimeoutTimer = some x.id)

/-- The timers of `s'` are among those of `s`, and the two stored handles are
the same. -/
def TimersSub (s s' : Endpoint) : Prop :=
  (∀ x ∈ s'.timers, x ∈ s.timers) ∧ s'.td = s.td ∧
    s'.connectTimeoutTimer = s.connectTimeoutTimer

/-- The connect attempt on connection object `c` is in flight and it is the
only one: the driver holds its `onConnect`, and apart from that no connect
attempt is in flight. -/
def onlyConnectInFlight (c : Nat) (s : Endpoint) : Bool :=
  decide (Pending.onConnect c ∈ s.pending) &&
    noConnectInFlight { s with pending := s.pending.erase (.onConnect c) }

/-- A run with a failed connect attempt, a write queued while offline and
handed over by the retry, and two writes queued behind it, the first of which
is released by a failed completion. -/
def sampleWriteRun : List Event :=
  [.connect, .tick, .connectDone 0 (some "ETIMEDOUT"), .writeVar (sampleWrite 1),
   .timerFires 1, .dropDone 0 .doConnect, .connectDone 2 none,
   .writeVar (sampleWrite 2), .written 2 true, .writeVar (sampleWrite 3)]

/-- A run with a deferred cycle, its catch-up read, a failed read, a triggered
cycle and a close. -/
def sampleReadRun : List Event :=
  [.connect, .tick, .connectDone 0 none, .timerFires 1, .timerFires 1,
   .readDone 0 false [("A", .int 1)], .readDone 0 true [], .trigger,
   .readDone 0 false [("A", .int 2)], .close, .dropDone 0 .external]

/-! ## Further observations -/

/-- The test `Array.isArray(a)`. -/
def Value.isArray : Value → Bool
  | .arr _ _ => true
  | _ => false

/-- The element read `a[i]` on the elements of an array: `undefined` past
the last one. -/
def elemAt (xs : List Value) (i : Nat) : Value := xs.getD i .undefined

/-! ## Construction: connection options and TSAP validation -/

/-- The character class `[0-9a-fA-F]`. -/
def isHexDigit (c : Char) : Bool :=
  ('0' ≤ c && c ≤ '9') || ('a' ≤ c && c ≤ 'f') || ('A' ≤ c && c ≤ 'F')

/-- The value of a hexadecimal digit. -/
def hexDigitValue (c : Char) : Nat :=
  if '0' ≤ c && c ≤ '9' then c.toNat - 48
  else if 'a' ≤ c && c ≤ 'f' then c.toNat - 87
  else c.toNat - 55

/-- The property `length` of a string: its number of UTF-16 code units. -/
def jsLength (s : String) : Nat :=
  s.data.foldl (fun n c => n + if c.toNat < 65536 then 1 else 2) 0

/-- The test `/^[0-9a-fA-F]+$/.test(s)`: one or more characters, all of them
hexadecimal digits. -/
def hexRegexTest (s : String) : Bool :=
  !s.data.isEmpty && s.data.all isHexDigit

/-- The builtin `parseInt(s, 16)` on the strings it is applied to in this
program, those made of hexadecimal digits only (`validateTSAP` calls it after
the regular-expression test, the constructor after validation): the digits
read in base 16.  Other strings are answered `NaN` here. -/
def parseInt16 (s : String) : JSNum :=
  if hexRegexTest s then .ofInt (s.data.foldl (fun n c => 16 * n + hexDigitValue c) 0 : Nat)
  else .nan

/-- The function `validateTSAP(num)` on a string, the form in which the
configuration holds the TSAP components (`toString()` is the identity
there). -/
def validateTSAP (num : String) : Bool :=
  if jsLength num != 2 then false
  else if !(hexRegexTest num) then false
  else
    let i := parseInt16 num
    if i.isNaN || i.lt (.ofInt 0) || (JSNum.ofInt 0xff).lt i then false
    else true

/-- The conversion of a number to a signed 32-bit integer that the shift
operators apply: `NaN` and the infinities give 0, a finite value is truncated
and wrapped modulo 2^32. -/
def JSNum.toInt32 : JSNum → Int
  | .fin q =>
    let m := (Int.tdiv q.num q.den) % 2 ^ 32
    if 2 ^ 31 ≤ m then m - 2 ^ 32 else m
  | _ => 0

/-- The operator `x << k`. -/
def JSNum.shl (x : JSNum) (k : Nat) : JSNum :=
  .ofInt (JSNum.toInt32 (.ofInt (x.toInt32 * 2 ^ (k % 32))))

/-- The operator `x + y` on numbers.  The sum of two finite values is exact
here, as it is in double arithmetic for integers below 2^53. -/
def JSNum.add : JSNum → JSNum → JSNum
  | .nan, _ => .nan
  | _, .nan => .nan
  | .inf a, .inf b => if a == b then .inf a else .nan
  | .inf a, .fin _ => .inf a
  | .fin _, .inf b => .inf b
  | .fin p, .fin q => .fin (p + q)

/-- One row of the configured variable table; a missing field is `none`. -/
structure VarEntry where
  name : Option String
  addr : Option String

/-- Truthiness of a field that is a string or missing: the empty string and
`undefined` are falsy. -/
def fieldTruthy : Option String → Bool
  | some s => s != ""
  | none => false

/-- The array index a property name denotes, if it is one (a canonical decimal
numeral below 2^32 - 1): `Object.keys` lists such names first, in ascending
order, and the other names after them in insertion order. -/
def arrayIndex (name : String) : Option Nat :=
  if !name.data.isEmpty && name.data.all Char.isDigit &&
      (name == "0" || name.data.head? != some '0') then
    let n := name.data.foldl (fun n c => 10 * n + (c.toNat - 48)) 0
    if n < 4294967295 then some n else none
  else none

/-- The assignment `res[name] = addr` of a string `addr` on a plain object
whose properties are listed in `Object.keys` order.  Assigning a string to
`__proto__` stores nothing; an existing key keeps its place and takes the new
value; a new key that is an array index goes before the larger indices and the
other names, any other new key goes last. -/
def setProp (res : List (String × String)) (name addr : String) : List (String × String) :=
  if name = "__proto__" then res
  else if res.any (fun p => p.1 == name) then
    res.map (fun p => if p.1 == name then (p.1, addr) else p)
  else
    match arrayIndex name with
    | some n =>
      let smaller := res.takeWhile fun p =>
        match arrayIndex p.1 with
        | some m => m < n
        | none => false
      smaller ++ [(name, addr)] ++ res.drop smaller.length
    | none => res ++ [(name, addr)]

/-- The function `createTranslationTable(vars)`. -/
def createTranslationTable (vars : List VarEntry) : List (String × String) :=
  vars.foldl (fun res elm =>
    if !fieldTruthy elm.name || !fieldTruthy elm.addr then res
    else setProp res (elm.name.getD "") (elm.addr.getD "")) []

/-- The configuration object handed to `OPCDAEndpoint`, with the variable table
in parsed form.  The field `connmode` is `none` when it is `undefined`. -/
structure Config where
  vartable : List VarEntry
  verbose : Option String
  cycletime : Value
  address : Value
  port : Value
  connmode : Option String
  rack : Value
  slot : Value
  localtsaphi : String
  localtsaplo : String
  remotetsaphi : String
  remotetsaplo : String

/-- The object `connOpts`; a property that was never assigned is `none`. -/
structure ConnOpts where
  host : Value
  port : Value
  rack : Option Value
  slot : Option Value
  localTSAP : Option JSNum
  remoteTSAP : Option JSNum

/-- What running the constructor leaves: it returned early after reporting
one of the two configuration errors (no variable map exists then and
`connect()` was not called), or it ran to its end with these connection
options and this endpoint. -/
inductive Construction where
  | invalidtsap
  | invalidconntype
  | built (connOpts : ConnOpts) (s : Endpoint)

/-- The endpoint a construction left, if any. -/
def Construction.endpoint : Construction → Option Endpoint
  | .built _ s => some s
  | _ => none

/-- The connection options a construction left, if any. -/
def Construction.connOpts : Construction → Option ConnOpts
  | .built o _ => some o
  | _ => none

/-- The constructor `OPCDAEndpoint(config)`; `settingsVerbose` is what
`RED.settings.get('verbose')` answers. -/
def OPCDAEndpoint (settingsVerbose : Bool) (config : Config) : Construction :=
  let isVerbose :=
    if config.verbose == some "on" || config.verbose == some "off" then
      config.verbose == some "on"
    else settingsVerbose
  let connOpts : ConnOpts :=
    { host := config.address, port := config.port, rack := none, slot := none,
      localTSAP := none, remoteTSAP := none }
  let connmode := config.connmode.getD "rack-slot"
  let finish (connOpts : ConnOpts) : Construction :=
    .built connOpts
      (connect (Endpoint.init (createTranslationTable config.vartable) config.cycletime isVerbose))
  if connmode == "rack-slot" then
    finish { connOpts with rack := some config.rack, slot := some config.slot }
  else if connmode == "tsap" then
    if !validateTSAP config.localtsaphi || !validateTSAP config.localtsaplo ||
        !validateTSAP config.remotetsaphi || !validateTSAP config.remotetsaplo then
      .invalidtsap
    else
      let connOpts := { connOpts with localTSAP := some ((parseInt16 config.localtsaphi).shl 8) }
      let connOpts :=
        { connOpts with
          localTSAP := connOpts.localTSAP.map (fun (x : JSNum) => x.add (parseInt16 config.localtsaplo)) }
      let connOpts := { connOpts with remoteTSAP := some ((parseInt16 config.remotetsaphi).shl 8) }
      let connOpts :=
        { connOpts with
          remoteTSAP := connOpts.remoteTSAP.map (fun (x : JSNum) => x.add (parseInt16 config.remotetsaplo)) }
      finish connOpts
  else .invalidconntype

/-- The property the specification asks of a TSAP component: the string is
exactly two hexadecimal digits. -/
def twoHexDigits (s : String) : Prop :=
  ∃ c d : Char, s.data = [c, d] ∧ isHexDigit c = true ∧ isHexDigit d = true

/-- The number `hex(s)` that a string of two hexadecimal digits denotes, read
off the two digits directly (the code computes it with `parseInt(s, 16)`). -/
def hexByte (s : String) : Nat :=
  match s.data with
  | [c, d] => 16 * hexDigitValue c + hexDigitValue d
  | _ => 0

/-- A configuration in TSAP mode with local TSAP `01 00` and remote TSAP
`03 0A`. -/
def sampleTsapConfig : Config where
  vartable := [{ name := some "A", addr := some "DB1,INT0" }]
  verbose := none
  cycletime := .int 500
  address := .str "192.168.0.1"
  port := .int 102
  connmode := some "tsap"
  rack := .undefined
  slot := .undefined
  localtsaphi := "01"
  localtsaplo := "00"
  remotetsaphi := "03"
  remotetsaplo := "0A"

/-! ## Further observations on logs -/

/-- The value events of a log: the emitted events that carry read values (the
all-values, per-key, changed and all-changed events), as opposed to the status
events. -/
def valueEvents (t : List Effect) : List Effect :=
  t.filter fun e => match e with
    | .emit _ (.status _) => false
    | .emit _ _ => true
    | _ => false

/-- The bulk reads handed to the driver, by connection object, in call
order. -/
def readsIssued (t : List Effect) : List Nat :=
  t.filterMap fun e => match e with
    | .readAllItems c => some c
    | _ => none

/-- Whether an event is neither a call of `updateCycleTime` nor a successful
connect completion, the two events that assign `currentCycleTime`. -/
def Event.keepsCycleTime : Event → Bool
  | .updateCycleTime _ => false
  | .connectDone _ none => false
  | _ => true

/-- Twelve manual cycles that get no answer, and the completion of the drop
that the forced reconnect requested. -/
def sampleStallAfterDisable : List Event :=
  List.replicate 12 Event.trigger ++ [Event.dropDone 0 .doConnect]

/-- The sample connected endpoint after `updateCycleTime(0)` and a stall that
forced a reconnect: the second connect attempt is in flight. -/
def sampleDisabled : Endpoint :=
  run sampleParseInt (updateCycleTime sampleParseInt (.int 0) sampleOnline).2
    sampleStallAfterDisable

/-- Every entry of a log is an emitted event that carries read values (no
status event, no driver call, no report). -/
def onlyValueEvents (t : List Effect) : Prop :=
  ∀ e ∈ t, ∃ name p, e = .emit name p ∧ ∀ st, p ≠ .status st

/-- The per-key emit of the read result `values` throws in state `s`: no
listener is registered for `error`, and `error` is a key of `values` whose
value is not `equals()` to the snapshot value. -/
def emitThrows (values : Obj) (s : Endpoint) : Prop :=
  s.errorListeners = 0 ∧ "error" ∈ objectKeys values ∧
    keyChanged s.oldValues values "error" = true

/-- A close that races with a forced reconnect: a fresh endpoint starts its
first connect attempt, eleven manual cycles while it is not connected force a
reconnect (the drop of the connection is requested with `doConnect` as
continuation), the attempt fails, and `close` follows before the retry timer
fires. -/
def closeRaceEvents : List Event :=
  [Event.connect, .tick] ++ List.replicate 11 Event.trigger ++
    [.connectDone 0 (some "ECONNREFUSED"), .close]

/-- What happens by itself after `closeRaceEvents`: the drop requested by the
forced reconnect completes, the connect attempt it starts fails, and the retry
timer of that failure fires. -/
def closeRaceAftermath : List Event :=
  [Event.dropDone 0 .doConnect, .connectDone 2 (some "ECONNREFUSED"), .timerFires 3]

/-! ## Basic facts about the primitives -/

theorem JSNum.isNaN_ofInt (i : Int) : (JSNum.ofInt i).isNaN = false := rfl

theorem JSNum.lt_ofInt (i j : Int) : (JSNum.ofInt i).lt (.ofInt j) = decide (i < j) := by
  simp [JSNum.ofInt, JSNum.lt]

theorem JSNum.le_ofInt (i j : Int) : (JSNum.ofInt i).le (.ofInt j) = decide (i ≤ j) := by
  simp only [JSNum.le, JSNum.ofInt, JSNum.lt, JSNum.strictEq, Int.cast_lt, Int.cast_inj]
  by_cases h1 : i < j
  · have h : i ≤ j := by omega
    simp [h, h1]
  · by_cases h2 : i = j
    · simp [h2]
    · have h : ¬ i ≤ j := by omega
      simp [h, h1, h2]

/-- A delay within the range of the runtime's timers is taken as it is. -/
theorem timerDelay_ofInt (n : Nat) (h1 : 1 ≤ n) (h2 : n ≤ TIMEOUT_MAX) :
    timerDelay (.ofInt n) = .ofInt n := by
  have h1' : (1 : Int) ≤ (n : Int) := by omega
  have h2' : (n : Int) ≤ (TIMEOUT_MAX : Int) := by omega
  simp [timerDelay, JSNum.le_ofInt, h1', h2']

/-- A delay above the range of the runtime's timers is replaced by 1 ms. -/
theorem timerDelay_large (n : Nat) (h : TIMEOUT_MAX < n) :
    timerDelay (.ofInt n) = .ofInt 1 := by
  have h' : ¬ (n : Int) ≤ (TIMEOUT_MAX : Int) := by omega
  simp [timerDelay, JSNum.le_ofInt, h']

theorem JSNum.truthy_ofInt (i : Int) : (JSNum.ofInt i).truthy = decide (i ≠ 0) := by
  simp [JSNum.ofInt, JSNum.truthy]

theorem JSNum.strictEq_refl (x : JSNum) (h : x ≠ .nan) : x.strictEq x = true := by
  cases x <;> simp_all [JSNum.strictEq]

theorem Value.strictEq_self (a : Value) (h : a ≠ .num .nan) : a.strictEq a = true := by
  cases a with
  | num x =>
    have hx : x ≠ .nan := fun e => h (by rw [e])
    simpa [Value.strictEq] using JSNum.strictEq_refl x hx
  | _ => simp [Value.strictEq]

/-- `manageStatus` as one record update. -/
theorem manageStatus_eq (n : Status) (s : Endpoint) :
    manageStatus n s =
      { s with status := some n,
               trace := s.trace ++
                 (if s.status = some n then [] else [.emit "__STATUS__" (.status n)]) } := by
  unfold manageStatus
  split
  · next h => cases s; simp_all
  · next h => simp [h]

/-- `clearTimer` as one record update. -/
theorem clearTimer_eq (h : Option Nat) (s : Endpoint) :
    clearTimer h s =
      { s with timers := match h with
                 | none => s.timers
                 | some id => s.timers.filter (fun t => t.id != id) } := by
  unfold clearTimer
  cases h <;> rfl

@[simp] theorem Outcome.state_ok (s : Endpoint) : (Outcome.ok s).state = s := rfl

@[simp] theorem Outcome.state_threw (s : Endpoint) : (Outcome.threw s).state = s := rfl

theorem closeConnection_sameWrites (done : Done) (s : Endpoint) :
    SameWrites s (closeConnection done s) := by
  obtain ⟨oldValues, status, rip, rd, verbose, ctt, connected, cct, wip, wq, vars, td, conn,
    timers, ticks, pending, nextId, trace, lst⟩ := s
  cases conn <;> cases verbose <;>
    simp [SameWrites, outstandingWrites, closeConnection, manageStatus_eq, clearTimer_eq,
      driverCall, nextTick, Endpoint.effect, Pending.isWrite]

theorem closeConnection_sameReads (done : Done) (s : Endpoint) :
    SameReads s (closeConnection done s) := by
  obtain ⟨oldValues, status, rip, rd, verbose, ctt, connected, cct, wip, wq, vars, td, conn,
    timers, ticks, pending, nextId, trace, lst⟩ := s
  cases conn <;> cases verbose <;>
    simp [SameReads, outstandingReads, closeConnection, manageStatus_eq, clearTimer_eq,
      driverCall, nextTick, Endpoint.effect, Pending.isRead]

theorem connect_sameWrites (s : Endpoint) : SameWrites s (connect s) := by
  unfold connect
  split
  · exact closeConnection_sameWrites _ s
  · simp [SameWrites, outstandingWrites, nextTick]

theorem connect_sameReads (s : Endpoint) : SameReads s (connect s) := by
  unfold connect
  split
  · exact closeConnection_sameReads _ s
  · simp [SameReads, outstandingReads, nextTick]

theorem doConnect_sameWrites (s : Endpoint) : SameWrites s (doConnect s) := by
  obtain ⟨oldValues, status, rip, rd, verbose, ctt, connected, cct, wip, wq, vars, td, conn,
    timers, ticks, pending, nextId, trace, lst⟩ := s
  cases verbose <;>
    simp [SameWrites, outstandingWrites, doConnect, manageStatus_eq, driverCall,
      Endpoint.effect, Pending.isWrite]

theorem doConnect_sameReads (s : Endpoint) : SameReads s (doConnect s) := by
  obtain ⟨oldValues, status, rip, rd, verbose, ctt, connected, cct, wip, wq, vars, td, conn,
    timers, ticks, pending, nextId, trace, lst⟩ := s
  cases verbose <;>
    simp [SameReads, outstandingReads, doConnect, manageStatus_eq, driverCall,
      Endpoint.effect, Pending.isRead]

theorem doCb_sameWrites (done : Done) (s : Endpoint) : SameWrites s (doCb done s) := by
  cases done
  · exact doConnect_sameWrites { s with conn := none }
  · simp [SameWrites, outstandingWrites, doCb, Endpoint.effect]
  · simp [SameWrites, outstandingWrites, doCb]

theorem doCb_sameReads (done : Done) (s : Endpoint) : SameReads s (doCb done s) := by
  cases done
  · exact doConnect_sameReads { s with conn := none }
  · simp [SameReads, outstandingReads, doCb, Endpoint.effect]
  · simp [SameReads, outstandingReads, doCb]

theorem updateCycleTime_sameWrites (parseInt : Value → JSNum) (interval : Value) (s : Endpoint) :
    SameWrites s (updateCycleTime parseInt interval s).2 := by
  unfold updateCycleTime
  simp only []
  split
  · simp [SameWrites]
  · split
    · simp [SameWrites, outstandingWrites, clearTimer_eq]
    · split <;> simp [SameWrites, outstandingWrites, clearTimer_eq, setInterval, Endpoint.effect]

theorem updateCycleTime_sameReads (parseInt : Value → JSNum) (interval : Value) (s : Endpoint) :
    SameReads s (updateCycleTime parseInt interval s).2 := by
  unfold updateCycleTime
  simp only []
  split
  · simp [SameReads]
  · split
    · simp [SameReads, outstandingReads, clearTimer_eq]
    · split <;> simp [SameReads, outstandingReads, clearTimer_eq, setInterval, Endpoint.effect]
theorem sameWrites_refl (s : Endpoint) : SameWrites s s := ⟨rfl, rfl⟩

theorem sameReads_refl (s : Endpoint) : SameReads s s := ⟨rfl, rfl⟩

theorem SameWrites.transW {a b c : Endpoint} (h1 : SameWrites a b) (h2 : SameWrites b c) :
    SameWrites a c := ⟨h2.1.trans h1.1, h2.2.trans h1.2⟩

theorem SameReads.transR {a b c : Endpoint} (h1 : SameReads a b) (h2 : SameReads b c) :
    SameReads a c := ⟨h2.1.trans h1.1, h2.2.trans h1.2⟩

theorem SameWrites.invW {a b : Endpoint} (h : SameWrites a b) (ha : WriteInv a) : WriteInv b := by
  unfold WriteInv at *
  rw [h.1, h.2]
  exact ha

theorem SameReads.invR {a b : Endpoint} (h : SameReads a b) (ha : ReadInv a) : ReadInv b := by
  unfold ReadInv at *
  rw [h.1, h.2]
  exact ha

theorem writeNext_sameReads (s : Endpoint) : SameReads s (writeNext s).state := by
  obtain ⟨oldValues, status, rip, rd, verbose, ctt, connected, cct, wip, wq, vars, td, conn,
    timers, ticks, pending, nextId, trace, lst⟩ := s
  cases connected <;> cases wq <;> cases conn <;>
    simp [SameReads, outstandingReads, writeNext, driverCall, Pending.isRead]

/-- `writeNext` either leaves the write bookkeeping alone or hands one more
request to the driver and sets `writeInProgress`. -/
theorem writeNext_writes (s : Endpoint) :
    SameWrites s (writeNext s).state ∨
      (outstandingWrites (writeNext s).state = outstandingWrites s + 1 ∧
        (writeNext s).state.writeInProgress = true) := by
  obtain ⟨oldValues, status, rip, rd, verbose, ctt, connected, cct, wip, wq, vars, td, conn,
    timers, ticks, pending, nextId, trace, lst⟩ := s
  cases connected <;> cases wq <;> cases conn <;>
    simp [SameWrites, outstandingWrites, writeNext, driverCall, Pending.isWrite]

theorem writeNext_inv_of_none_outstanding (s : Endpoint) (h : outstandingWrites s = 0) :
    WriteInv (writeNext s).state := by
  rcases writeNext_writes s with hw | hw
  · exact hw.invW ⟨by omega, by omega⟩
  · exact ⟨by omega, fun _ => hw.2⟩

theorem writeVar_sameReads (obj : WriteObj) (s : Endpoint) :
    SameReads s (writeVar obj s).state := by
  unfold writeVar
  simp only []
  split
  · exact (show SameReads s { s with writeQueue := s.writeQueue ++ [obj] } from ⟨rfl, rfl⟩).transR
      (writeNext_sameReads _)
  · exact ⟨rfl, rfl⟩

theorem writeVar_writeInv (obj : WriteObj) (s : Endpoint) (h : WriteInv s) :
    WriteInv (writeVar obj s).state := by
  unfold writeVar
  simp only []
  split
  · next hw =>
    apply writeNext_inv_of_none_outstanding
    have h1 := h.1
    have h2 := h.2
    simp only [outstandingWrites] at h1 h2 ⊢
    simp at hw
    by_contra hne
    have := h2 (by omega)
    simp [hw] at this
  · exact h

theorem onWritten_sameReads (err : Bool) (s : Endpoint) :
    SameReads s (onWritten err s).state := by
  unfold onWritten
  simp only []
  have h := (show SameReads s { s with writeInProgress := false } from ⟨rfl, rfl⟩).transR
    (writeNext_sameReads { s with writeInProgress := false })
  revert h
  cases writeNext { s with writeInProgress := false } with
  | ok s' =>
    intro h
    cases err <;>
      simpa [Outcome.andThen, SameReads, outstandingReads, manageStatus_eq, Endpoint.effect] using h
  | threw s' => intro h; simpa [Outcome.andThen] using h

theorem onWritten_writeInv (err : Bool) (s : Endpoint) (h : outstandingWrites s = 0) :
    WriteInv (onWritten err s).state := by
  unfold onWritten
  simp only []
  have h := writeNext_inv_of_none_outstanding { s with writeInProgress := false } h
  revert h
  cases writeNext { s with writeInProgress := false } with
  | ok s' =>
    intro h
    cases err <;>
      simpa [Outcome.andThen, WriteInv, outstandingWrites, manageStatus_eq, Endpoint.effect] using h
  | threw s' => intro h; simpa [Outcome.andThen] using h

theorem doCycle_sameWrites (s : Endpoint) : SameWrites s (doCycle s).state := by
  unfold doCycle
  simp only []
  split
  · split
    · exact sameWrites_refl s
    · simp [SameWrites, outstandingWrites, driverCall, Pending.isWrite]
  · split
    · exact (show SameWrites s (Endpoint.effect (.warn .noresponse)
          { s with readDeferred := s.readDeferred + 1 }) from ⟨rfl, rfl⟩).transW
        (connect_sameWrites _)
    · exact ⟨rfl, rfl⟩

theorem doCycle_readInv (s : Endpoint) (h : ReadInv s) : ReadInv (doCycle s).state := by
  unfold doCycle
  simp only []
  split
  · next hc =>
    split
    · exact h
    · have h1 := h.1
      have h2 := h.2
      simp only [outstandingReads] at h1 h2
      simp at hc
      have h0 : List.countP Pending.isRead s.pending = 0 := by
        by_contra hne
        have := h2 (by omega)
        simp [hc.1] at this
      simp [ReadInv, outstandingReads, driverCall, Pending.isRead, h0]
  · split
    · exact ((show SameReads s (Endpoint.effect (.warn .noresponse)
          { s with readDeferred := s.readDeferred + 1 }) from ⟨rfl, rfl⟩).transR
        (connect_sameReads _)).invR h
    · exact h
theorem onlyValueEvents_nil : onlyValueEvents [] := fun _ h => by simp at h

theorem onlyValueEvents_append {a b : List Effect} (ha : onlyValueEvents a)
    (hb : onlyValueEvents b) : onlyValueEvents (a ++ b) := by
  intro e he
  rcases List.mem_append.mp he with h | h
  · exact ha e h
  · exact hb e h

theorem onlyValueEvents_value (name : String) (v : Value) :
    onlyValueEvents [.emit name (.value v)] := by
  intro e he
  simp only [List.mem_singleton] at he
  exact ⟨name, .value v, he, fun st h => by cases h⟩

theorem onlyValueEvents_keyValue (name key : String) (v : Value) :
    onlyValueEvents [.emit name (.keyValue key v)] := by
  intro e he
  simp only [List.mem_singleton] at he
  exact ⟨name, .keyValue key v, he, fun st h => by cases h⟩

theorem onlyValueEvents_values (name : String) (o : Obj) :
    onlyValueEvents [.emit name (.values o)] := by
  intro e he
  simp only [List.mem_singleton] at he
  exact ⟨name, .values o, he, fun st h => by cases h⟩

theorem endpoint_trace_append_nil (s : Endpoint) :
    { s with oldValues := s.oldValues, trace := s.trace ++ [] } = s := by
  cases s
  simp

/-- One round of the `forEach` callback changes nothing but the snapshot and
the log, and what it logs are value events. -/
theorem cycleKey_frame (values : Obj) (acc : Endpoint × Bool) (key : String) :
    ∃ ov extra, (cycleKey values acc key).1.state =
        { acc.1 with oldValues := ov, trace := acc.1.trace ++ extra } ∧
      onlyValueEvents extra := by
  unfold cycleKey
  split
  · unfold emit
    split
    · exact ⟨acc.1.oldValues, [.emit key (.value (getProp values key))],
        by simp [Outcome.andThen, Endpoint.effect], onlyValueEvents_value _ _⟩
    · exact ⟨Function.update acc.1.oldValues key (getProp values key),
        [.emit key (.value (getProp values key))] ++
          [.emit "__CHANGED__" (.keyValue key (getProp values key))],
        by simp [Outcome.andThen, Endpoint.effect],
        onlyValueEvents_append (onlyValueEvents_value _ _) (onlyValueEvents_keyValue _ _ _)⟩
  · exact ⟨acc.1.oldValues, [], by simp [endpoint_trace_append_nil], onlyValueEvents_nil⟩

/-- The `forEach` loop of `cycleCallback` changes nothing but the snapshot and
the log, and what it logs are value events. -/
theorem cycleKeys_frame (values : Obj) (keys : List String) (acc : Endpoint × Bool) :
    ∃ ov extra, (cycleKeys values keys acc).1.state =
        { acc.1 with oldValues := ov, trace := acc.1.trace ++ extra } ∧
      onlyValueEvents extra := by
  induction keys generalizing acc with
  | nil => exact ⟨acc.1.oldValues, [], by simp [cycleKeys, endpoint_trace_append_nil],
      onlyValueEvents_nil⟩
  | cons k ks ih =>
    obtain ⟨ov, extra, h, he⟩ := cycleKey_frame values acc k
    rw [cycleKeys]
    revert h
    cases cycleKey values acc k with
    | mk o ch =>
      cases o with
      | ok s1 =>
        intro h
        simp only [Outcome.state_ok] at h
        obtain ⟨ov', extra', h', he'⟩ := ih (s1, ch)
        refine ⟨ov', extra ++ extra', ?_, onlyValueEvents_append he he'⟩
        simp only [h'] 
        rw [h]
        simp [List.append_assoc]
      | threw s1 =>
        intro h
        exact ⟨ov, extra, h, he⟩

/-- The report part of `cycleCallback` changes nothing but the status, the
snapshot and the log; what it logs after the status event are value events,
or the error report. -/
theorem cycleReport_shape (err : Bool) (values : Obj) (s : Endpoint) :
    ∃ ov extra, (cycleReport err values s).state =
        { manageStatus (if err then .badvalues else .online) s with
          oldValues := ov,
          trace := (manageStatus (if err then .badvalues else .online) s).trace ++ extra } ∧
      (extra = [.error .badvalues] ∨ onlyValueEvents extra) := by
  unfold cycleReport
  simp only []
  split
  · next h =>
    subst h
    exact ⟨s.oldValues, [.error .badvalues],
      by simp [manageStatus_eq, Endpoint.effect], Or.inl rfl⟩
  · next h =>
    have hb : err = false := by simpa using h
    subst hb
    obtain ⟨ov, extra, hfr, he⟩ := cycleKeys_frame values (objectKeys values)
      ((manageStatus .online s).effect (.emit "__ALL__" (.values values)), false)
    revert hfr
    cases cycleKeys values (objectKeys values)
      ((manageStatus .online s).effect (.emit "__ALL__" (.values values)), false) with
    | mk o ch =>
      cases o with
      | ok s1 =>
        intro hfr
        simp only [Outcome.state_ok] at hfr
        subst hfr
        cases ch with
        | true =>
          exact ⟨ov, [.emit "__ALL__" (.values values)] ++ extra ++
              [.emit "__ALL_CHANGED__" (.values values)],
            by simp [Outcome.andThen, Endpoint.effect, manageStatus_eq],
            Or.inr (onlyValueEvents_append
              (onlyValueEvents_append (onlyValueEvents_values _ _) he)
              (onlyValueEvents_values _ _))⟩
        | false =>
          exact ⟨ov, [.emit "__ALL__" (.values values)] ++ extra,
            by simp [Outcome.andThen, Endpoint.effect, manageStatus_eq],
            Or.inr (onlyValueEvents_append (onlyValueEvents_values _ _) he)⟩
      | threw s1 =>
        intro hfr
        simp only [Outcome.state_threw] at hfr
        subst hfr
        exact ⟨ov, [.emit "__ALL__" (.values values)] ++ extra,
          by simp [Outcome.andThen, Endpoint.effect, manageStatus_eq],
          Or.inr (onlyValueEvents_append (onlyValueEvents_values _ _) he)⟩

/-- The report part of `cycleCallback` changes nothing but the status, the
snapshot and the log. -/
theorem cycleReport_frame (err : Bool) (values : Obj) (s : Endpoint) :
    ∃ st ov tr, (cycleReport err values s).state =
      { s with status := st, oldValues := ov, trace := tr } := by
  obtain ⟨ov, extra, h, -⟩ := cycleReport_shape err values s
  rw [h, manageStatus_eq]
  exact ⟨_, _, _, rfl⟩

theorem cycleReport_sameWrites (err : Bool) (values : Obj) (s : Endpoint) :
    SameWrites s (cycleReport err values s).state := by
  obtain ⟨st, ov, tr, h⟩ := cycleReport_frame err values s
  rw [h]; exact ⟨rfl, rfl⟩

theorem cycleReport_sameReads (err : Bool) (values : Obj) (s : Endpoint) :
    SameReads s (cycleReport err values s).state := by
  obtain ⟨st, ov, tr, h⟩ := cycleReport_frame err values s
  rw [h]; exact ⟨rfl, rfl⟩

theorem cycleCallback_sameWrites (err : Bool) (values : Obj) (s : Endpoint) :
    SameWrites s (cycleCallback err values s).state := by
  unfold cycleCallback
  simp only []
  have h0 : SameWrites s { s with readInProgress := false } := ⟨rfl, rfl⟩
  split
  · have h1 := h0.transW (doCycle_sameWrites { s with readInProgress := false })
    revert h1
    cases doCycle { s with readInProgress := false } with
    | ok s' =>
      intro h1
      exact (h1.transW (show SameWrites s' { s' with readDeferred := 0 } from ⟨rfl, rfl⟩)).transW
        (cycleReport_sameWrites _ _ _)
    | threw s' => intro h1; simpa [Outcome.andThen] using h1
  · exact h0.transW (cycleReport_sameWrites _ _ _)

theorem cycleCallback_readInv (err : Bool) (values : Obj) (s : Endpoint)
    (h : outstandingReads s = 0) : ReadInv (cycleCallback err values s).state := by
  unfold cycleCallback
  simp only []
  have h0 : ReadInv { s with readInProgress := false } :=
    ⟨by simp only [outstandingReads] at h ⊢; omega,
     by simp only [outstandingReads] at h ⊢; omega⟩
  split
  · have h1 := doCycle_readInv _ h0
    revert h1
    cases doCycle { s with readInProgress := false } with
    | ok s' =>
      intro h1
      exact (cycleReport_sameReads err values { s' with readDeferred := 0 }).invR h1
    | threw s' => intro h1; simpa [Outcome.andThen] using h1
  · exact (cycleReport_sameReads _ _ _).invR h0
theorem onConnect_outstandingReads (parseInt : Value → JSNum) (err : Option String)
    (s : Endpoint) : outstandingReads (onConnect parseInt err s).state = outstandingReads s := by
  unfold onConnect
  simp only []
  split
  · simp [outstandingReads, setTimeout, manageStatus_eq, clearTimer_eq, Endpoint.effect]
  · split
    · simp [outstandingReads, manageStatus_eq, clearTimer_eq, Endpoint.effect]
    · split
      · simp [outstandingReads, manageStatus_eq, clearTimer_eq]
      · rw [(writeNext_sameReads _).1, (updateCycleTime_sameReads _ _ _).1]
        simp [outstandingReads, manageStatus_eq, clearTimer_eq, Endpoint.effect]

theorem onConnect_failure_sameReads (parseInt : Value → JSNum) (e : String) (s : Endpoint) :
    SameReads s (onConnect parseInt (some e) s).state := by
  simp [onConnect, SameReads, outstandingReads, setTimeout, manageStatus_eq, clearTimer_eq,
    Endpoint.effect]

theorem onConnect_failure_sameWrites (parseInt : Value → JSNum) (e : String) (s : Endpoint) :
    SameWrites s (onConnect parseInt (some e) s).state := by
  simp [onConnect, SameWrites, outstandingWrites, setTimeout, manageStatus_eq, clearTimer_eq,
    Endpoint.effect]

theorem readInv_of_none_outstanding (s : Endpoint) (h : outstandingReads s = 0) : ReadInv s :=
  ⟨by omega, by omega⟩

theorem writeInv_of_none_outstanding (s : Endpoint) (h : outstandingWrites s = 0) : WriteInv s :=
  ⟨by omega, by omega⟩

theorem onConnect_success_writeInv (parseInt : Value → JSNum) (s : Endpoint)
    (h : outstandingWrites s = 0) : WriteInv (onConnect parseInt none s).state := by
  unfold onConnect
  simp only []
  split
  · apply writeInv_of_none_outstanding
    simpa [outstandingWrites, manageStatus_eq, clearTimer_eq, Endpoint.effect] using h
  · split
    · apply writeInv_of_none_outstanding
      simpa [outstandingWrites, manageStatus_eq, clearTimer_eq] using h
    · apply writeNext_inv_of_none_outstanding
      rw [(updateCycleTime_sameWrites _ _ _).1]
      simpa [outstandingWrites, manageStatus_eq, clearTimer_eq, Endpoint.effect] using h

theorem countP_erase_of_mem {p : Pending → Bool} {a : Pending} {l : List Pending} (h : a ∈ l) :
    List.countP p l = List.countP p (l.erase a) + (if p a = true then 1 else 0) := by
  rw [(List.perm_cons_erase h).countP_eq p, List.countP_cons]

theorem step_writeInv (parseInt : Value → JSNum) (s : Endpoint) (e : Event) (h : WriteInv s)
    (hg : ∀ c, e = .connectDone c none → Pending.onConnect c ∈ s.pending →
      outstandingWrites s = 0) :
    WriteInv (step parseInt s e).state := by
  cases e with
  | writeVar obj => exact writeVar_writeInv obj s h
  | updateCycleTime interval => exact (updateCycleTime_sameWrites parseInt interval s).invW h
  | trigger => exact (doCycle_sameWrites s).invW h
  | close => exact (closeConnection_sameWrites .external s).invW h
  | connect => exact (connect_sameWrites s).invW h
  | timerFires id =>
    simp only [step]
    split
    · exact ((show SameWrites s { s with timers := s.timers.filter (fun t => t.id != id) } from
        ⟨rfl, rfl⟩).transW (connect_sameWrites _)).invW h
    · exact (doCycle_sameWrites s).invW h
    · exact h
  | tick =>
    simp only [step]
    split
    · exact h
    · next rest _ =>
      exact ((show SameWrites s { s with ticks := rest } from ⟨rfl, rfl⟩).transW
        (doConnect_sameWrites _)).invW h
    · next done rest _ =>
      exact ((show SameWrites s { s with ticks := rest } from ⟨rfl, rfl⟩).transW
        (doCb_sameWrites _ _)).invW h
  | connectDone c err =>
    simp only [step, complete]
    split
    · next hm =>
      have he := countP_erase_of_mem (p := Pending.isWrite) hm
      simp only [Pending.isWrite] at he
      cases err with
      | some e =>
        refine ((show SameWrites s { s with pending := s.pending.erase (.onConnect c) } from
          ⟨?_, rfl⟩).transW (onConnect_failure_sameWrites parseInt e _)).invW h
        simp [outstandingWrites, he]
      | none =>
        apply onConnect_success_writeInv
        have := hg c rfl hm
        simp only [outstandingWrites] at this ⊢
        simp at he
        omega
    · exact h
  | readDone c err values =>
    simp only [step, complete]
    split
    · next hm =>
      have he := countP_erase_of_mem (p := Pending.isWrite) hm
      simp only [Pending.isWrite] at he
      refine ((show SameWrites s { s with pending := s.pending.erase (.cycleCallback c) } from
        ⟨?_, rfl⟩).transW (cycleCallback_sameWrites err values _)).invW h
      simp [outstandingWrites, he]
    · exact h
  | written c err =>
    simp only [step, complete]
    split
    · next hm =>
      have he := countP_erase_of_mem (p := Pending.isWrite) hm
      simp only [Pending.isWrite] at he
      apply onWritten_writeInv
      have := h.1
      simp only [outstandingWrites] at this ⊢
      simp at he
      omega
    · exact h
  | dropDone c done =>
    simp only [step, complete]
    split
    · next hm =>
      have he := countP_erase_of_mem (p := Pending.isWrite) hm
      simp only [Pending.isWrite] at he
      refine ((show SameWrites s { s with pending := s.pending.erase (.doCb c done) } from
        ⟨?_, rfl⟩).transW (doCb_sameWrites done _)).invW h
      simp [outstandingWrites, he]
    · exact h
  | addListener name =>
    simp only [step, Outcome.state_ok]
    split <;> exact h
  | removeListener name =>
    simp only [step, Outcome.state_ok]
    split <;> exact h
theorem onConnect_success_readInv (parseInt : Value → JSNum) (s : Endpoint)
    (h : outstandingReads s = 0) : ReadInv (onConnect parseInt none s).state :=
  readInv_of_none_outstanding _ (by rw [onConnect_outstandingReads]; exact h)

theorem step_readInv (parseInt : Value → JSNum) (s : Endpoint) (e : Event) (h : ReadInv s)
    (hg : ∀ c, e = .connectDone c none → Pending.onConnect c ∈ s.pending →
      outstandingReads s = 0) :
    ReadInv (step parseInt s e).state := by
  cases e with
  | writeVar obj => exact (writeVar_sameReads obj s).invR h
  | updateCycleTime interval => exact (updateCycleTime_sameReads parseInt interval s).invR h
  | trigger => exact doCycle_readInv s h
  | close => exact (closeConnection_sameReads .external s).invR h
  | connect => exact (connect_sameReads s).invR h
  | timerFires id =>
    simp only [step]
    split
    · exact ((show SameReads s { s with timers := s.timers.filter (fun t => t.id != id) } from
        ⟨rfl, rfl⟩).transR (connect_sameReads _)).invR h
    · exact doCycle_readInv s h
    · exact h
  | tick =>
    simp only [step]
    split
    · exact h
    · next rest _ =>
      exact ((show SameReads s { s with ticks := rest } from ⟨rfl, rfl⟩).transR
        (doConnect_sameReads _)).invR h
    · next done rest _ =>
      exact ((show SameReads s { s with ticks := rest } from ⟨rfl, rfl⟩).transR
        (doCb_sameReads _ _)).invR h
  | connectDone c err =>
    simp only [step, complete]
    split
    · next hm =>
      have he := countP_erase_of_mem (p := Pending.isRead) hm
      simp only [Pending.isRead] at he
      cases err with
      | some e =>
        refine ((show SameReads s { s with pending := s.pending.erase (.onConnect c) } from
          ⟨?_, rfl⟩).transR (onConnect_failure_sameReads parseInt e _)).invR h
        simp [outstandingReads, he]
      | none =>
        apply onConnect_success_readInv
        have := hg c rfl hm
        simp only [outstandingReads] at this ⊢
        simp at he
        omega
    · exact h
  | readDone c err values =>
    simp only [step, complete]
    split
    · next hm =>
      have he := countP_erase_of_mem (p := Pending.isRead) hm
      simp only [Pending.isRead] at he
      apply cycleCallback_readInv
      have := h.1
      simp only [outstandingReads] at this ⊢
      simp at he
      omega
    · exact h
  | written c err =>
    simp only [step, complete]
    split
    · next hm =>
      have he := countP_erase_of_mem (p := Pending.isRead) hm
      simp only [Pending.isRead] at he
      refine ((show SameReads s { s with pending := s.pending.erase (.onWritten c) } from
        ⟨?_, rfl⟩).transR (onWritten_sameReads err _)).invR h
      simp [outstandingReads, he]
    · exact h
  | dropDone c done =>
    simp only [step, complete]
    split
    · next hm =>
      have he := countP_erase_of_mem (p := Pending.isRead) hm
      simp only [Pending.isRead] at he
      refine ((show SameReads s { s with pending := s.pending.erase (.doCb c done) } from
        ⟨?_, rfl⟩).transR (doCb_sameReads done _)).invR h
      simp [outstandingReads, he]
    · exact h
  | addListener name =>
    simp only [step, Outcome.state_ok]
    split <;> exact h
  | removeListener name =>
    simp only [step, Outcome.state_ok]
    split <;> exact h

theorem run_writeInv (parseInt : Value → JSNum) (evs : List Event) (s : Endpoint)
    (h : WriteInv s) (hg : settledAtConnects parseInt outstandingWrites s evs = true) :
    WriteInv (run parseInt s evs) := by
  induction evs generalizing s with
  | nil => exact h
  | cons e es ih =>
    simp only [settledAtConnects, Bool.and_eq_true] at hg
    refine ih _ (step_writeInv parseInt s e h ?_) hg.2
    intro c hc hm
    subst hc
    simpa [hm] using hg.1

theorem run_readInv (parseInt : Value → JSNum) (evs : List Event) (s : Endpoint)
    (h : ReadInv s) (hg : settledAtConnects parseInt outstandingReads s evs = true) :
    ReadInv (run parseInt s evs) := by
  induction evs generalizing s with
  | nil => exact h
  | cons e es ih =>
    simp only [settledAtConnects, Bool.and_eq_true] at hg
    refine ih _ (step_readInv parseInt s e h ?_) hg.2
    intro c hc hm
    subst hc
    simpa [hm] using hg.1

theorem SameRequests.transQ {a b c : Endpoint} (h1 : SameRequests a b) (h2 : SameRequests b c) :
    SameRequests a c := ⟨h2.1.trans h1.1, h2.2.trans h1.2⟩

theorem writeNext_sameRequests (s : Endpoint) (c : Nat) (hconn : s.conn = some c) :
    SameRequests s (writeNext s).state := by
  obtain ⟨oldValues, status, rip, rd, verbose, ctt, connected, cct, wip, wq, vars, td, conn,
    timers, ticks, pending, nextId, trace, lst⟩ := s
  simp only at hconn
  subst hconn
  cases connected <;> cases wq <;>
    simp [SameRequests, writeNext, driverCall, dispatched, List.filterMap_append]

theorem updateCycleTime_sameRequests (parseInt : Value → JSNum) (interval : Value)
    (s : Endpoint) : SameRequests s (updateCycleTime parseInt interval s).2 := by
  unfold updateCycleTime
  simp only []
  split
  · exact ⟨rfl, rfl⟩
  · split
    · simp [SameRequests, clearTimer_eq]
    · split <;>
        simp [SameRequests, clearTimer_eq, setInterval, Endpoint.effect, dispatched,
          List.filterMap_append]

theorem writeVar_requests (obj : WriteObj) (s : Endpoint) (c : Nat) (hconn : s.conn = some c) :
    dispatched (writeVar obj s).state.trace ++ (writeVar obj s).state.writeQueue
      = dispatched s.trace ++ s.writeQueue ++ [obj] ∧ (writeVar obj s).state.conn = s.conn := by
  unfold writeVar
  simp only []
  split
  · have h := writeNext_sameRequests { s with writeQueue := s.writeQueue ++ [obj] } c hconn
    exact ⟨by rw [h.1, List.append_assoc], h.2⟩
  · exact ⟨by simp, rfl⟩

theorem onWritten_sameRequests (err : Bool) (s : Endpoint) (c : Nat) (hconn : s.conn = some c) :
    SameRequests s (onWritten err s).state := by
  unfold onWritten
  simp only []
  have h := (show SameRequests s { s with writeInProgress := false } from ⟨rfl, rfl⟩).transQ
    (writeNext_sameRequests { s with writeInProgress := false } c hconn)
  revert h
  cases writeNext { s with writeInProgress := false } with
  | ok s' =>
    intro h
    cases err <;> by_cases hs : s'.status = some .online <;>
      by_cases hs' : s'.status = some .badvalues <;>
      simpa [Outcome.andThen, SameRequests, manageStatus_eq, Endpoint.effect, dispatched,
        List.filterMap_append, hs, hs'] using h
  | threw s' => intro h; simpa [Outcome.andThen] using h

theorem onConnect_sameRequests (parseInt : Value → JSNum) (err : Option String) (s : Endpoint)
    (c : Nat) (hconn : s.conn = some c) : SameRequests s (onConnect parseInt err s).state := by
  unfold onConnect
  simp only []
  split
  · by_cases hs : s.status = some .offline <;>
      simp [SameRequests, setTimeout, manageStatus_eq, clearTimer_eq, Endpoint.effect, dispatched,
        List.filterMap_append, hs]
  · have h1 : SameRequests s (manageStatus .online
        { clearTimer s.connectTimeoutTimer s with
          readInProgress := false, readDeferred := 0, connected := true }) := by
      by_cases hs : s.status = some .online <;>
        simp [SameRequests, manageStatus_eq, clearTimer_eq, dispatched, List.filterMap_append, hs]
    split
    · exact h1.transQ (by simp [SameRequests, Endpoint.effect, dispatched, List.filterMap_append])
    · split
      · exact h1
      · next c' hc' =>
        refine ((h1.transQ ?_).transQ (updateCycleTime_sameRequests parseInt _ _)).transQ
          (writeNext_sameRequests _ c ?_)
        · simp [SameRequests, Endpoint.effect, dispatched, List.filterMap_append]
        · rw [(updateCycleTime_sameRequests parseInt _ _).2]
          simpa [Endpoint.effect, manageStatus_eq, clearTimer_eq] using hconn

theorem step_requests (parseInt : Value → JSNum) (s : Endpoint) (e : Event) (c : Nat)
    (hconn : s.conn = some c) (he : e.isWriteOrConnect = true) :
    dispatched (step parseInt s e).state.trace ++ (step parseInt s e).state.writeQueue
      = dispatched s.trace ++ s.writeQueue ++ submitted [e] ∧
    (step parseInt s e).state.conn = some c := by
  cases e with
  | writeVar obj =>
    have h := writeVar_requests obj s c hconn
    exact ⟨by simpa [submitted, step] using h.1, by rw [← hconn]; exact h.2⟩
  | written c' err =>
    simp only [step, complete]
    split
    · have h := onWritten_sameRequests err { s with pending := s.pending.erase (.onWritten c') } c
        hconn
      exact ⟨by simpa [submitted] using h.1, by rw [← hconn]; exact h.2⟩
    · exact ⟨by simp [submitted], hconn⟩
  | connectDone c' err =>
    simp only [step, complete]
    split
    · have h := onConnect_sameRequests parseInt err
        { s with pending := s.pending.erase (.onConnect c') } c hconn
      exact ⟨by simpa [submitted] using h.1, by rw [← hconn]; exact h.2⟩
    · exact ⟨by simp [submitted], hconn⟩
  | _ => simp [Event.isWriteOrConnect] at he

theorem submitted_cons (e : Event) (es : List Event) :
    submitted (e :: es) = submitted [e] ++ submitted es := by
  cases e <;> simp [submitted]

theorem run_requests (parseInt : Value → JSNum) (evs : List Event) (s : Endpoint) (c : Nat)
    (hconn : s.conn = some c) (hevs : ∀ e ∈ evs, e.isWriteOrConnect = true) :
    dispatched (run parseInt s evs).trace ++ (run parseInt s evs).writeQueue
      = dispatched s.trace ++ s.writeQueue ++ submitted evs := by
  induction evs generalizing s with
  | nil => simp [run, submitted]
  | cons e es ih =>
    have h := step_requests parseInt s e c hconn (hevs e (List.mem_cons_self _ _))
    have := ih (step parseInt s e).state h.2 (fun x hx => hevs x (List.mem_cons_of_mem _ hx))
    rw [run, this, h.1, submitted_cons e es]
    simp
theorem any_congr_of_mem {f g : String → Bool} {l : List String} (h : ∀ x ∈ l, f x = g x) :
    l.any f = l.any g := by
  induction l with
  | nil => rfl
  | cons a as ih =>
    rw [List.any_cons, List.any_cons, h a (List.mem_cons_self _ _),
      ih (fun x hx => h x (List.mem_cons_of_mem _ hx))]

/-- The loop of `cycleCallback` when no emit throws: it returns, the log gains
the per-key and changed events of the changed keys, the flag `changed` is set
if some key changed, and the snapshot takes the new value at the changed
keys. -/
theorem cycleKeys_trace (values : Obj) (keys : List String) (acc : Endpoint × Bool)
    (hnd : keys.Nodup)
    (hne : acc.1.errorListeners = 0 →
      ∀ k ∈ keys, keyChanged acc.1.oldValues values k = true → k ≠ "error") :
    ∃ s', cycleKeys values keys acc =
        (.ok s', acc.2 || keys.any (keyChanged acc.1.oldValues values)) ∧
      s'.trace = acc.1.trace ++ (keys.filter (keyChanged acc.1.oldValues values)).flatMap
        (fun key => [.emit key (.value (getProp values key)),
          .emit "__CHANGED__" (.keyValue key (getProp values key))]) ∧
      ∀ key, s'.oldValues key =
        if key ∈ keys ∧ keyChanged acc.1.oldValues values key = true then getProp values key
        else acc.1.oldValues key := by
  induction keys generalizing acc with
  | nil => exact ⟨acc.1, by simp [cycleKeys], by simp, by simp⟩
  | cons k ks ih =>
    rw [List.nodup_cons] at hnd
    by_cases hk : keyChanged acc.1.oldValues values k = true
    · have hk' : (!equals (acc.1.oldValues k) (getProp values k)) = true := hk
      have hnot : ¬ (k = "error" ∧ acc.1.errorListeners = 0) := fun h =>
        hne h.2 k (List.mem_cons_self _ _) hk h.1
      have hck : cycleKey values acc k =
          (.ok { (acc.1.effect (.emit k (.value (getProp values k)))).effect
              (.emit "__CHANGED__" (.keyValue k (getProp values k))) with
            oldValues := Function.update acc.1.oldValues k (getProp values k) }, true) := by
        simp [cycleKey, hk', emit, hnot, Outcome.andThen, Endpoint.effect]
      have hf : ∀ x ∈ ks, keyChanged (Function.update acc.1.oldValues k (getProp values k))
          values x = keyChanged acc.1.oldValues values x := by
        intro x hx
        have hxk : x ≠ k := fun e => hnd.1 (e ▸ hx)
        simp [keyChanged, Function.update, hxk]
      obtain ⟨s', h1, h2, h3⟩ := ih
        ({ (acc.1.effect (.emit k (.value (getProp values k)))).effect
              (.emit "__CHANGED__" (.keyValue k (getProp values k))) with
            oldValues := Function.update acc.1.oldValues k (getProp values k) }, true) hnd.2
        (by
          intro h0 x hx hc
          have hc' : keyChanged acc.1.oldValues values x = true := by
            rw [← hf x hx]; exact hc
          exact hne h0 x (List.mem_cons_of_mem _ hx) hc')
      simp only at h1 h2 h3
      refine ⟨s', ?_, ?_, ?_⟩
      · rw [cycleKeys, hck]
        simp only [h1]
        simp [hk]
      · rw [h2, List.filter_congr hf]
        simp [hk, Endpoint.effect, List.filter_cons]
      · intro key
        rw [h3 key]
        by_cases hkey : key = k
        · subst hkey
          simp [hk, hnd.1, Function.update]
        · have hc : keyChanged (Function.update acc.1.oldValues k (getProp values k))
              values key = keyChanged acc.1.oldValues values key := by
            simp [keyChanged, Function.update, hkey]
          rw [hc]
          simp [hkey, Function.update]
    · have hk' : ¬ (!equals (acc.1.oldValues k) (getProp values k)) = true := hk
      have hck : cycleKey values acc k = (.ok acc.1, acc.2) := by
        unfold cycleKey
        rw [if_neg hk']
      obtain ⟨s', h1, h2, h3⟩ := ih (acc.1, acc.2) hnd.2
        (fun h0 x hx hc => hne h0 x (List.mem_cons_of_mem _ hx) hc)
      simp only at h1 h2 h3
      refine ⟨s', ?_, ?_, ?_⟩
      · rw [cycleKeys, hck]
        simp only [h1]
        simp [hk]
      · rw [h2]
        simp [hk, List.filter_cons]
      · intro key
        rw [h3 key]
        by_cases hkey : key = k
        · subst hkey
          simp [hk, hnd.1]
        · simp [hkey]

/-- `writeNext` changes nothing but the queue, `writeInProgress`, the driver's
callbacks and the log. -/
theorem writeNext_frame (s : Endpoint) :
    ∃ q wip pd tr, (writeNext s).state =
      { s with writeQueue := q, writeInProgress := wip, pending := pd, trace := tr } := by
  unfold writeNext
  simp only []
  split
  · exact ⟨_, _, _, _, rfl⟩
  · split
    · exact ⟨s.writeQueue, _, _, _, rfl⟩
    · split
      · exact ⟨_, _, _, _, rfl⟩
      · exact ⟨_, _, _, _, rfl⟩

/-- `updateCycleTime` changes nothing but the timers, `node._td`, the stored
cycle time, the next handle and the log. -/
theorem updateCycleTime_frame (parseInt : Value → JSNum) (interval : Value) (s : Endpoint) :
    ∃ tm td ct nid tr, (updateCycleTime parseInt interval s).2 =
      { s with timers := tm, td := td, currentCycleTime := ct, nextId := nid, trace := tr } := by
  unfold updateCycleTime
  simp only []
  split
  · exact ⟨_, _, _, _, _, rfl⟩
  · split
    · exact ⟨_, s.td, s.currentCycleTime, s.nextId, s.trace, by rw [clearTimer_eq]⟩
    · split
      · exact ⟨_, _, _, _, _, by rw [clearTimer_eq]; rfl⟩
      · exact ⟨_, _, _, _, _, by rw [clearTimer_eq]; rfl⟩

theorem writeNext_readCounters (s : Endpoint) :
    (writeNext s).state.readInProgress = s.readInProgress ∧
      (writeNext s).state.readDeferred = s.readDeferred := by
  obtain ⟨q, wip, pd, tr, h⟩ := writeNext_frame s
  rw [h]
  exact ⟨rfl, rfl⟩

theorem updateCycleTime_readCounters (parseInt : Value → JSNum) (interval : Value)
    (s : Endpoint) :
    (updateCycleTime parseInt interval s).2.readInProgress = s.readInProgress ∧
      (updateCycleTime parseInt interval s).2.readDeferred = s.readDeferred := by
  obtain ⟨tm, td, ct, nid, tr, h⟩ := updateCycleTime_frame parseInt interval s
  rw [h]
  exact ⟨rfl, rfl⟩

/-- A successful connect completion leaves the cycle counters at zero. -/
theorem onConnect_success_resets (parseInt : Value → JSNum) (s : Endpoint) :
    (onConnect parseInt none s).state.readInProgress = false ∧
      (onConnect parseInt none s).state.readDeferred = 0 := by
  unfold onConnect
  simp only []
  split
  · simp [manageStatus_eq, clearTimer_eq, Endpoint.effect]
  · split
    · simp [manageStatus_eq, clearTimer_eq]
    · rw [(writeNext_readCounters _).1, (writeNext_readCounters _).2,
        (updateCycleTime_readCounters _ _ _).1, (updateCycleTime_readCounters _ _ _).2]
      simp [manageStatus_eq, clearTimer_eq, Endpoint.effect]
/-! ## Status bookkeeping of every function -/

theorem statusEvents_append (a b : List Effect) :
    statusEvents (a ++ b) = statusEvents a ++ statusEvents b := by
  simp [statusEvents, List.filterMap_append]

theorem statusReach_refl (s : Endpoint) : StatusReach s s := ⟨[], rfl⟩

theorem statusReach_trans {a b c : Endpoint} (h1 : StatusReach a b) (h2 : StatusReach b c) :
    StatusReach a c := by
  obtain ⟨n1, e1⟩ := h1
  obtain ⟨n2, e2⟩ := h2
  exact ⟨n1 ++ n2, by rw [List.foldl_append, ← e1, e2]⟩

theorem statusReach_of_eq {a b : Endpoint} (h : statusView b = statusView a) :
    StatusReach a b := ⟨[], by simpa using h⟩

theorem statusReach_of_step {a b : Endpoint} (n : Status)
    (h : statusView b = viewStep (statusView a) n) : StatusReach a b := ⟨[n], by simpa using h⟩

theorem statusView_manageStatus (n : Status) (s : Endpoint) :
    statusView (manageStatus n s) = viewStep (statusView s) n := by
  by_cases h : s.status = some n <;>
    simp [statusView, viewStep, manageStatus_eq, statusEvents, List.filterMap_append, h]

theorem statusReach_closeConnection (done : Done) (s : Endpoint) :
    StatusReach s (closeConnection done s) := by
  apply statusReach_of_step .offline
  obtain ⟨oldValues, status, rip, rd, verbose, ctt, connected, cct, wip, wq, vars, td, conn,
    timers, ticks, pending, nextId, trace, lst⟩ := s
  cases conn <;> cases verbose <;>
    by_cases h : status = some .offline <;>
    simp [closeConnection, statusView, viewStep, manageStatus_eq, clearTimer_eq, driverCall,
      nextTick, Endpoint.effect, statusEvents_append, h] <;>
    simp [statusEvents]

theorem statusReach_connect (s : Endpoint) : StatusReach s (connect s) := by
  unfold connect
  split
  · exact statusReach_closeConnection _ s
  · exact statusReach_of_eq (by simp [statusView, nextTick, statusEvents_append]; simp [statusEvents])

theorem statusReach_doConnect (s : Endpoint) : StatusReach s (doConnect s) := by
  apply statusReach_of_step .connecting
  obtain ⟨oldValues, status, rip, rd, verbose, ctt, connected, cct, wip, wq, vars, td, conn,
    timers, ticks, pending, nextId, trace, lst⟩ := s
  cases verbose <;>
    by_cases h : status = some .connecting <;>
    simp [doConnect, statusView, viewStep, manageStatus_eq, driverCall,
      Endpoint.effect, statusEvents_append, h] <;>
    simp [statusEvents]

theorem statusReach_doCb (done : Done) (s : Endpoint) : StatusReach s (doCb done s) := by
  cases done
  · exact statusReach_trans (statusReach_of_eq (b := { s with conn := none }) rfl)
      (statusReach_doConnect _)
  · exact statusReach_of_eq (by
      simp [doCb, statusView, Endpoint.effect, statusEvents_append]; simp [statusEvents])
  · exact statusReach_of_eq rfl

theorem statusReach_doCycle (s : Endpoint) : StatusReach s (doCycle s).state := by
  unfold doCycle
  simp only []
  split
  · split
    · exact statusReach_refl s
    · exact statusReach_of_eq (by
        simp [statusView, driverCall, statusEvents_append]; simp [statusEvents])
  · split
    · refine statusReach_trans (statusReach_of_eq ?_) (statusReach_connect _)
      simp [statusView, Endpoint.effect, statusEvents_append]; simp [statusEvents]
    · exact statusReach_of_eq rfl

theorem statusView_writeNext (s : Endpoint) : statusView (writeNext s).state = statusView s := by
  obtain ⟨oldValues, status, rip, rd, verbose, ctt, connected, cct, wip, wq, vars, td, conn,
    timers, ticks, pending, nextId, trace, lst⟩ := s
  cases connected <;> cases wq <;> cases conn <;>
    simp [statusView, writeNext, driverCall, statusEvents, List.filterMap_append]

theorem statusView_updateCycleTime (parseInt : Value → JSNum) (interval : Value)
    (s : Endpoint) : statusView (updateCycleTime parseInt interval s).2 = statusView s := by
  unfold updateCycleTime
  simp only []
  split
  · rfl
  · split
    · simp [statusView, clearTimer_eq]
    · split <;>
        simp [statusView, clearTimer_eq, setInterval, Endpoint.effect, statusEvents,
          List.filterMap_append]

theorem statusReach_writeVar (obj : WriteObj) (s : Endpoint) :
    StatusReach s (writeVar obj s).state := by
  unfold writeVar
  simp only []
  split
  · exact statusReach_of_eq (by rw [statusView_writeNext]; rfl)
  · exact statusReach_of_eq rfl

theorem statusReach_onWritten (err : Bool) (s : Endpoint) :
    StatusReach s (onWritten err s).state := by
  unfold onWritten
  simp only []
  have h : statusView (writeNext { s with writeInProgress := false }).state = statusView s := by
    rw [statusView_writeNext]; rfl
  revert h
  cases writeNext { s with writeInProgress := false } with
  | ok s' =>
    intro h
    simp only [Outcome.andThen]
    split
    · refine statusReach_trans (b := manageStatus .badvalues s')
        (statusReach_of_step .badvalues ?_) (statusReach_of_eq ?_)
      · rw [statusView_manageStatus]; simp only [Outcome.state_ok] at h; rw [h]
      · simp [statusView, Endpoint.effect, statusEvents_append]; simp [statusEvents]
    · apply statusReach_of_step .online
      rw [Outcome.state_ok, statusView_manageStatus]; simp only [Outcome.state_ok] at h; rw [h]
  | threw s' => intro h; exact statusReach_of_eq h

theorem statusEvents_onlyValueEvents (t : List Effect) (h : onlyValueEvents t) :
    statusEvents t = [] := by
  induction t with
  | nil => rfl
  | cons e t ih =>
    obtain ⟨name, p, he, hp⟩ := h e (List.mem_cons_self _ _)
    have ht : statusEvents t = [] := ih (fun x hx => h x (List.mem_cons_of_mem _ hx))
    subst he
    have hcons : statusEvents (.emit name p :: t) = statusEvents [.emit name p] ++ statusEvents t :=
      statusEvents_append [.emit name p] t
    rw [hcons, ht]
    cases p with
    | status st => exact absurd rfl (hp st)
    | values v => rfl
    | value v => rfl
    | keyValue k v => rfl

theorem statusReach_cycleReport (err : Bool) (values : Obj) (s : Endpoint) :
    StatusReach s (cycleReport err values s).state := by
  obtain ⟨ov, extra, h, he⟩ := cycleReport_shape err values s
  refine statusReach_trans
    (statusReach_of_step (if err then .badvalues else .online) (statusView_manageStatus _ s))
    (statusReach_of_eq ?_)
  rw [h]
  have hx : statusEvents extra = [] := by
    rcases he with he | he
    · rw [he]; rfl
    · exact statusEvents_onlyValueEvents extra he
  simp [statusView, statusEvents_append, hx]

theorem statusReach_cycleCallback (err : Bool) (values : Obj) (s : Endpoint) :
    StatusReach s (cycleCallback err values s).state := by
  unfold cycleCallback
  simp only []
  have h0 : StatusReach s { s with readInProgress := false } := statusReach_of_eq rfl
  split
  · have h1 := statusReach_trans h0 (statusReach_doCycle { s with readInProgress := false })
    revert h1
    cases doCycle { s with readInProgress := false } with
    | ok s' =>
      intro h1
      exact statusReach_trans (statusReach_trans h1
        (statusReach_of_eq (b := { s' with readDeferred := 0 }) rfl))
        (statusReach_cycleReport _ _ _)
    | threw s' => intro h1; simpa [Outcome.andThen] using h1
  · exact statusReach_trans h0 (statusReach_cycleReport _ _ _)

theorem statusReach_onConnect (parseInt : Value → JSNum) (err : Option String) (s : Endpoint) :
    StatusReach s (onConnect parseInt err s).state := by
  unfold onConnect
  simp only []
  split
  · apply statusReach_of_step .offline
    by_cases h : s.status = some .offline <;>
      simp [statusView, viewStep, setTimeout, manageStatus_eq, clearTimer_eq, Endpoint.effect,
        statusEvents_append, h] <;>
    simp [statusEvents]
  · have h1 : statusView (manageStatus .online
        { clearTimer s.connectTimeoutTimer s with
          readInProgress := false, readDeferred := 0, connected := true })
        = viewStep (statusView s) .online := by
      rw [statusView_manageStatus]; simp [statusView, clearTimer_eq]
    split
    · apply statusReach_of_step .online
      rw [← h1]
      simp [statusView, Endpoint.effect, statusEvents_append]; simp [statusEvents]
    · split
      · exact statusReach_of_step .online h1
      · apply statusReach_of_step .online
        rw [statusView_writeNext, statusView_updateCycleTime, ← h1]
        simp [statusView, Endpoint.effect, statusEvents_append]; simp [statusEvents]

theorem statusReach_step (parseInt : Value → JSNum) (s : Endpoint) (e : Event) :
    StatusReach s (step parseInt s e).state := by
  cases e with
  | writeVar obj => exact statusReach_writeVar obj s
  | updateCycleTime interval => exact statusReach_of_eq (statusView_updateCycleTime _ _ _)
  | trigger => exact statusReach_doCycle s
  | close => exact statusReach_closeConnection .external s
  | connect => exact statusReach_connect s
  | timerFires id =>
    simp only [step]
    split
    · exact statusReach_trans
        (statusReach_of_eq (b := { s with timers := s.timers.filter (fun t => t.id != id) }) rfl)
        (statusReach_connect _)
    · exact statusReach_doCycle s
    · exact statusReach_refl s
  | tick =>
    simp only [step]
    split
    · exact statusReach_refl s
    · next rest _ =>
      exact statusReach_trans (statusReach_of_eq (b := { s with ticks := rest }) rfl)
        (statusReach_doConnect _)
    · next done rest _ =>
      exact statusReach_trans (statusReach_of_eq (b := { s with ticks := rest }) rfl)
        (statusReach_doCb _ _)
  | connectDone c err =>
    simp only [step, complete]
    split
    · exact statusReach_trans
        (statusReach_of_eq (b := { s with pending := s.pending.erase (.onConnect c) }) rfl)
        (statusReach_onConnect parseInt err _)
    · exact statusReach_refl s
  | readDone c err values =>
    simp only [step, complete]
    split
    · exact statusReach_trans
        (statusReach_of_eq (b := { s with pending := s.pending.erase (.cycleCallback c) }) rfl)
        (statusReach_cycleCallback err values _)
    · exact statusReach_refl s
  | written c err =>
    simp only [step, complete]
    split
    · exact statusReach_trans
        (statusReach_of_eq (b := { s with pending := s.pending.erase (.onWritten c) }) rfl)
        (statusReach_onWritten err _)
    · exact statusReach_refl s
  | dropDone c done =>
    simp only [step, complete]
    split
    · exact statusReach_trans
        (statusReach_of_eq (b := { s with pending := s.pending.erase (.doCb c done) }) rfl)
        (statusReach_doCb done _)
    · exact statusReach_refl s
  | addListener name =>
    simp only [step, Outcome.state_ok]
    split
    · exact statusReach_of_eq rfl
    · exact statusReach_refl s
  | removeListener name =>
    simp only [step, Outcome.state_ok]
    split
    · exact statusReach_of_eq rfl
    · exact statusReach_refl s

theorem statusReach_run (parseInt : Value → JSNum) (evs : List Event) (s : Endpoint) :
    StatusReach s (run parseInt s evs) := by
  induction evs generalizing s with
  | nil => exact statusReach_refl s
  | cons e es ih => exact statusReach_trans (statusReach_step parseInt s e) (ih _)

/-! ## Endpoints at rest -/

theorem connectCalls_append (a b : List Effect) :
    connectCalls (a ++ b) = connectCalls a + connectCalls b := by
  simp [connectCalls, List.countP_append]

theorem connectCalls_onlyValueEvents (t : List Effect) (h : onlyValueEvents t) :
    connectCalls t = 0 := by
  induction t with
  | nil => rfl
  | cons e t ih =>
    obtain ⟨name, p, he, -⟩ := h e (List.mem_cons_self _ _)
    have ht : connectCalls t = 0 := ih (fun x hx => h x (List.mem_cons_of_mem _ hx))
    subst he
    have hcons : connectCalls (.emit name p :: t) = connectCalls [.emit name p] + connectCalls t :=
      connectCalls_append [.emit name p] t
    rw [hcons, ht]
    rfl

theorem cycleReport_connectCalls (err : Bool) (values : Obj) (s : Endpoint) :
    connectCalls (cycleReport err values s).state.trace = connectCalls s.trace := by
  obtain ⟨ov, extra, h, he⟩ := cycleReport_shape err values s
  rw [h]
  have hx : connectCalls extra = 0 := by
    rcases he with he | he
    · rw [he]; rfl
    · exact connectCalls_onlyValueEvents extra he
  have hm : connectCalls (manageStatus (if err then .badvalues else .online) s).trace =
      connectCalls s.trace := by
    rw [manageStatus_eq]
    simp only [connectCalls_append]
    split <;> simp [connectCalls, isConnectCall]
  simp only [connectCalls_append, hx, hm, Nat.add_zero]

theorem all_erase {p : Pending → Bool} {l : List Pending} (a : Pending)
    (h : l.all p = true) : (l.erase a).all p = true := by
  rw [List.all_eq_true] at h ⊢
  exact fun x hx => h x (List.mem_of_mem_erase hx)

theorem quiescent_cycleCallback (err : Bool) (values : Obj) (s : Endpoint) (h : Quiescent s) :
    Quiescent (cycleCallback err values s).state ∧
      connectCalls (cycleCallback err values s).state.trace = connectCalls s.trace := by
  obtain ⟨ht, hc, hf⟩ := h
  have heq : cycleCallback err values s =
      cycleReport err values { s with readInProgress := false } := by
    simp [cycleCallback, hc, Outcome.andThen]
  rw [heq, cycleReport_connectCalls]
  obtain ⟨st, ov, tr, hfr⟩ := cycleReport_frame err values { s with readInProgress := false }
  rw [hfr]
  exact ⟨⟨ht, hc, hf⟩, rfl⟩

theorem quiescent_onWritten (err : Bool) (s : Endpoint) (h : Quiescent s) :
    Quiescent (onWritten err s).state ∧
      connectCalls (onWritten err s).state.trace = connectCalls s.trace := by
  obtain ⟨ht, hc, hf⟩ := h
  have hw : writeNext { s with writeInProgress := false } =
      .ok { s with writeInProgress := false } := by simp [writeNext, hc]
  unfold onWritten
  simp only []
  rw [hw]
  simp only [Outcome.andThen]
  split
  · rw [Outcome.state_ok, manageStatus_eq]
    refine ⟨⟨ht, hc, hf⟩, ?_⟩
    by_cases h1 : s.status = some .badvalues <;>
      simp [Endpoint.effect, connectCalls_append, h1, connectCalls, isConnectCall]
  · rw [Outcome.state_ok, manageStatus_eq]
    refine ⟨⟨ht, hc, hf⟩, ?_⟩
    by_cases h1 : s.status = some .online <;>
      simp [connectCalls_append, h1, connectCalls, isConnectCall]

theorem quiescent_doCb (done : Done) (s : Endpoint) (h : Quiescent s) (hd : done ≠ .doConnect) :
    Quiescent (doCb done s) ∧ connectCalls (doCb done s).trace = connectCalls s.trace := by
  obtain ⟨ht, hc, hf⟩ := h
  cases done with
  | doConnect => exact absurd rfl hd
  | external =>
    refine ⟨⟨ht, hc, hf⟩, ?_⟩
    simp [doCb, Endpoint.effect, connectCalls_append]; simp [connectCalls, isConnectCall]
  | absent => exact ⟨⟨ht, hc, hf⟩, rfl⟩

theorem quiescent_step (parseInt : Value → JSNum) (s : Endpoint) (e : Event) (h : Quiescent s)
    (he : e.autonomous = true) :
    Quiescent (step parseInt s e).state ∧
      connectCalls (step parseInt s e).state.trace = connectCalls s.trace := by
  have hp : s.pending.all (fun p => !p.leadsToConnect) = true := by
    have := h.2.2; simp only [noConnectInFlight, Bool.and_eq_true] at this; exact this.1
  have hk : s.ticks.all (fun t => !t.leadsToConnect) = true := by
    have := h.2.2; simp only [noConnectInFlight, Bool.and_eq_true] at this; exact this.2
  have herase : ∀ a, Quiescent { s with pending := s.pending.erase a } := fun a =>
    ⟨h.1, h.2.1, by simp only [noConnectInFlight, Bool.and_eq_true]; exact ⟨all_erase a hp, hk⟩⟩
  cases e with
  | timerFires id => simp [step, h.1]; exact h
  | tick =>
    simp only [step]
    split
    · exact ⟨h, rfl⟩
    · next rest heq =>
      rw [heq] at hk
      simp [Task.leadsToConnect] at hk
    · next done rest heq =>
      rw [heq] at hk
      have hd : done ≠ .doConnect := by
        intro e; subst e; simp [Task.leadsToConnect] at hk
      have hq : Quiescent { s with ticks := rest } := by
        refine ⟨h.1, h.2.1, ?_⟩
        simp only [noConnectInFlight, Bool.and_eq_true]
        refine ⟨hp, ?_⟩
        simp only [List.all_cons, Bool.and_eq_true] at hk
        exact hk.2
      exact quiescent_doCb done _ hq hd
  | connectDone c err =>
    simp only [step, complete]
    split
    · next hm =>
      rw [List.all_eq_true] at hp
      have := hp _ hm
      simp [Pending.leadsToConnect] at this
    · exact ⟨h, rfl⟩
  | readDone c err values =>
    simp only [step, complete]
    split
    · exact quiescent_cycleCallback err values _ (herase _)
    · exact ⟨h, rfl⟩
  | written c err =>
    simp only [step, complete]
    split
    · exact quiescent_onWritten err _ (herase _)
    · exact ⟨h, rfl⟩
  | dropDone c done =>
    simp only [step, complete]
    split
    · next hm =>
      have hd : done ≠ .doConnect := by
        intro e; subst e
        rw [List.all_eq_true] at hp
        have := hp _ hm
        simp [Pending.leadsToConnect] at this
      exact quiescent_doCb done _ (herase _) hd
    · exact ⟨h, rfl⟩
  | _ => simp [Event.autonomous] at he

theorem quiescent_run (parseInt : Value → JSNum) (evs : List Event) (s : Endpoint)
    (h : Quiescent s) (he : ∀ e ∈ evs, e.autonomous = true) :
    Quiescent (run parseInt s evs) ∧
      connectCalls (run parseInt s evs).trace = connectCalls s.trace := by
  induction evs generalizing s with
  | nil => exact ⟨h, rfl⟩
  | cons e es ih =>
    have h1 := quiescent_step parseInt s e h (he e (List.mem_cons_self _ _))
    have h2 := ih _ h1.1 (fun x hx => he x (List.mem_cons_of_mem _ hx))
    exact ⟨h2.1, h2.2.trans h1.2⟩
/-! ## The timer discipline -/

theorem timersSub_refl (s : Endpoint) : TimersSub s s := ⟨fun _ h => h, rfl, rfl⟩

theorem timersSub_trans {a b c : Endpoint} (h1 : TimersSub a b) (h2 : TimersSub b c) :
    TimersSub a c :=
  ⟨fun x hx => h1.1 x (h2.1 x hx), h2.2.1.trans h1.2.1, h2.2.2.trans h1.2.2⟩

theorem timersOK_of_sub {a b : Endpoint} (h : TimersSub a b) (ha : TimersOK a) : TimersOK b :=
  ⟨fun x hx hi => by rw [h.2.1]; exact ha.1 x (h.1 x hx) hi,
   fun x hx hi => by rw [h.2.2]; exact ha.2 x (h.1 x hx) hi⟩

theorem timersSub_clearTimer (h : Option Nat) (s : Endpoint) : TimersSub s (clearTimer h s) := by
  rw [clearTimer_eq]
  refine ⟨?_, rfl, rfl⟩
  cases h with
  | none => exact fun _ hx => hx
  | some id => exact fun x hx => (List.mem_filter.mp hx).1

theorem timersSub_closeConnection (done : Done) (s : Endpoint) :
    TimersSub s (closeConnection done s) := by
  obtain ⟨oldValues, status, rip, rd, verbose, ctt, connected, cct, wip, wq, vars, td, conn,
    timers, ticks, pending, nextId, trace, lst⟩ := s
  cases conn <;> cases verbose <;> cases ctt <;> cases td <;>
    simp [TimersSub, closeConnection, manageStatus_eq, clearTimer_eq, driverCall, nextTick,
      Endpoint.effect, List.filter_filter] <;>
    (intro x hx; simp_all)

theorem timersSub_connect (s : Endpoint) : TimersSub s (connect s) := by
  unfold connect
  split
  · exact timersSub_closeConnection _ s
  · exact ⟨fun _ h => h, rfl, rfl⟩

theorem timersSub_doConnect (s : Endpoint) : TimersSub s (doConnect s) := by
  obtain ⟨oldValues, status, rip, rd, verbose, ctt, connected, cct, wip, wq, vars, td, conn,
    timers, ticks, pending, nextId, trace, lst⟩ := s
  cases verbose <;>
    simp [TimersSub, doConnect, manageStatus_eq, driverCall, Endpoint.effect]

theorem timersSub_doCb (done : Done) (s : Endpoint) : TimersSub s (doCb done s) := by
  cases done
  · exact timersSub_trans (b := { s with conn := none }) ⟨fun _ h => h, rfl, rfl⟩
      (timersSub_doConnect _)
  · exact ⟨fun _ h => h, rfl, rfl⟩
  · exact ⟨fun _ h => h, rfl, rfl⟩

theorem timersSub_doCycle (s : Endpoint) : TimersSub s (doCycle s).state := by
  unfold doCycle
  simp only []
  split
  · split
    · exact timersSub_refl s
    · exact ⟨fun _ h => h, rfl, rfl⟩
  · split
    · exact timersSub_trans
        (b := Endpoint.effect (.warn .noresponse) { s with readDeferred := s.readDeferred + 1 })
        ⟨fun _ h => h, rfl, rfl⟩ (timersSub_connect _)
    · exact ⟨fun _ h => h, rfl, rfl⟩

theorem timersSub_writeNext (s : Endpoint) : TimersSub s (writeNext s).state := by
  obtain ⟨q, wip, pd, tr, h⟩ := writeNext_frame s
  rw [h]
  exact ⟨fun _ h => h, rfl, rfl⟩

theorem timersSub_writeVar (obj : WriteObj) (s : Endpoint) :
    TimersSub s (writeVar obj s).state := by
  unfold writeVar
  simp only []
  split
  · exact timersSub_trans (b := { s with writeQueue := s.writeQueue ++ [obj] })
      ⟨fun _ h => h, rfl, rfl⟩ (timersSub_writeNext _)
  · exact ⟨fun _ h => h, rfl, rfl⟩

theorem timersSub_onWritten (err : Bool) (s : Endpoint) :
    TimersSub s (onWritten err s).state := by
  unfold onWritten
  simp only []
  have h := timersSub_trans (b := { s with writeInProgress := false })
    ⟨fun _ h => h, rfl, rfl⟩ (timersSub_writeNext { s with writeInProgress := false })
  revert h
  cases writeNext { s with writeInProgress := false } with
  | ok s' =>
    intro h
    cases err <;>
      simpa [Outcome.andThen, TimersSub, manageStatus_eq, Endpoint.effect] using h
  | threw s' => intro h; simpa [Outcome.andThen] using h

theorem timersSub_cycleReport (err : Bool) (values : Obj) (s : Endpoint) :
    TimersSub s (cycleReport err values s).state := by
  obtain ⟨st, ov, tr, h⟩ := cycleReport_frame err values s
  rw [h]
  exact ⟨fun _ h => h, rfl, rfl⟩

theorem timersSub_cycleCallback (err : Bool) (values : Obj) (s : Endpoint) :
    TimersSub s (cycleCallback err values s).state := by
  unfold cycleCallback
  simp only []
  have h0 : TimersSub s { s with readInProgress := false } := ⟨fun _ h => h, rfl, rfl⟩
  split
  · have h1 := timersSub_trans h0 (timersSub_doCycle { s with readInProgress := false })
    revert h1
    cases doCycle { s with readInProgress := false } with
    | ok s' =>
      intro h1
      exact timersSub_trans (timersSub_trans h1
        (show TimersSub s' { s' with readDeferred := 0 } from ⟨fun _ h => h, rfl, rfl⟩))
        (timersSub_cycleReport _ _ _)
    | threw s' => intro h1; simpa [Outcome.andThen] using h1
  · exact timersSub_trans h0 (timersSub_cycleReport _ _ _)

theorem clearTimer_td_timers (s : Endpoint) (h : TimersOK s) :
    ∀ x ∈ (clearTimer s.td s).timers,
      x.isInterval = false ∧ s.connectTimeoutTimer = some x.id := by
  rw [clearTimer_eq]
  intro x hx
  have hmem : x ∈ s.timers ∧ s.td ≠ some x.id := by
    cases htd : s.td with
    | none => rw [htd] at hx; exact ⟨hx, by simp⟩
    | some id =>
      rw [htd] at hx
      have hf := List.mem_filter.mp hx
      refine ⟨hf.1, fun e => ?_⟩
      have e' : id = x.id := Option.some.inj e
      simp [e'] at hf
  have hi : x.isInterval = false := by
    cases hb : x.isInterval with
    | false => rfl
    | true => exact absurd (h.1 x hmem.1 hb) hmem.2
  exact ⟨hi, h.2 x hmem.1 hi⟩

theorem clearTimer_ctt_timers (s : Endpoint) (h : TimersOK s) :
    ∀ x ∈ (clearTimer s.connectTimeoutTimer s).timers,
      x.isInterval = true ∧ s.td = some x.id := by
  rw [clearTimer_eq]
  intro x hx
  have hmem : x ∈ s.timers ∧ s.connectTimeoutTimer ≠ some x.id := by
    cases htd : s.connectTimeoutTimer with
    | none => rw [htd] at hx; exact ⟨hx, by simp⟩
    | some id =>
      rw [htd] at hx
      have hf := List.mem_filter.mp hx
      refine ⟨hf.1, fun e => ?_⟩
      have e' : id = x.id := Option.some.inj e
      simp [e'] at hf
  have hi : x.isInterval = true := by
    cases hb : x.isInterval with
    | true => rfl
    | false => exact absurd (h.2 x hmem.1 hb) hmem.2
  exact ⟨hi, h.1 x hmem.1 hi⟩

theorem timersOK_updateCycleTime (parseInt : Value → JSNum) (interval : Value) (s : Endpoint)
    (h : TimersOK s) : TimersOK (updateCycleTime parseInt interval s).2 := by
  have hc := clearTimer_td_timers s h
  have hsub := timersSub_clearTimer s.td s
  unfold updateCycleTime
  simp only []
  generalize clearTimer s.td s = s1 at hc hsub
  have hs1 : TimersOK s1 :=
    ⟨fun x hx hi => by rw [(hc x hx).1] at hi; exact absurd hi (by simp),
     fun x hx _ => by rw [hsub.2.2]; exact (hc x hx).2⟩
  have key : ∀ (p : JSNum) (s2 : Endpoint), s2.timers = s1.timers →
      s2.connectTimeoutTimer = s1.connectTimeoutTimer →
      TimersOK { (setInterval p s2).2 with td := some (setInterval p s2).1 } := by
    intro p s2 ht hctt
    constructor
    · intro x hx hi
      simp only [setInterval, ht, List.mem_append, List.mem_singleton] at hx ⊢
      rcases hx with hx | hx
      · rw [(hc x hx).1] at hi; exact absurd hi (by simp)
      · rw [hx]; rfl
    · intro x hx hi
      simp only [setInterval, ht, List.mem_append, List.mem_singleton] at hx ⊢
      rcases hx with hx | hx
      · rw [hctt, hsub.2.2]; exact (hc x hx).2
      · rw [hx] at hi; exact absurd hi (by simp [Timer.isInterval])
  split
  · exact h
  · split
    · exact hs1
    · split
      · exact key _ _ rfl rfl
      · exact key _ _ rfl rfl

theorem timersOK_onConnect (parseInt : Value → JSNum) (err : Option String) (s : Endpoint)
    (h : TimersOK s) : TimersOK (onConnect parseInt err s).state := by
  have hc := clearTimer_ctt_timers s h
  have hsub := timersSub_clearTimer s.connectTimeoutTimer s
  unfold onConnect
  simp only []
  generalize clearTimer s.connectTimeoutTimer s = s1 at hc hsub
  have hs1 : TimersOK s1 :=
    ⟨fun x hx _ => by rw [hsub.2.1]; exact (hc x hx).2,
     fun x hx hi => by rw [(hc x hx).1] at hi; exact absurd hi (by simp)⟩
  split
  · constructor
    · intro x hx hi
      simp [setTimeout, manageStatus_eq, Endpoint.effect] at hx ⊢
      rcases hx with hx | hx
      · rw [hsub.2.1]; exact (hc x hx).2
      · rw [hx] at hi; exact absurd hi (by simp [Timer.isInterval])
    · intro x hx hi
      simp [setTimeout, manageStatus_eq, Endpoint.effect] at hx ⊢
      rcases hx with hx | hx
      · rw [(hc x hx).1] at hi; exact absurd hi (by simp)
      · rw [hx]; rfl
  · have h1 : TimersOK (manageStatus .online
        { s1 with readInProgress := false, readDeferred := 0, connected := true }) := by
      rw [manageStatus_eq]; exact hs1
    split
    · exact h1
    · split
      · exact h1
      · exact timersOK_of_sub (timersSub_writeNext _) (timersOK_updateCycleTime _ _ _ h1)

theorem timersOK_step (parseInt : Value → JSNum) (s : Endpoint) (e : Event) (h : TimersOK s) :
    TimersOK (step parseInt s e).state := by
  cases e with
  | writeVar obj => exact timersOK_of_sub (timersSub_writeVar obj s) h
  | updateCycleTime interval => exact timersOK_updateCycleTime parseInt interval s h
  | trigger => exact timersOK_of_sub (timersSub_doCycle s) h
  | close => exact timersOK_of_sub (timersSub_closeConnection .external s) h
  | connect => exact timersOK_of_sub (timersSub_connect s) h
  | timerFires id =>
    simp only [step]
    split
    · exact timersOK_of_sub (timersSub_trans
        (b := { s with timers := s.timers.filter (fun t => t.id != id) })
        ⟨fun x hx => (List.mem_filter.mp hx).1, rfl, rfl⟩ (timersSub_connect _)) h
    · exact timersOK_of_sub (timersSub_doCycle s) h
    · exact h
  | tick =>
    simp only [step]
    split
    · exact h
    · next rest _ =>
      exact timersOK_of_sub (timersSub_trans (b := { s with ticks := rest })
        ⟨fun _ hx => hx, rfl, rfl⟩ (timersSub_doConnect _)) h
    · next done rest _ =>
      exact timersOK_of_sub (timersSub_trans (b := { s with ticks := rest })
        ⟨fun _ hx => hx, rfl, rfl⟩ (timersSub_doCb _ _)) h
  | connectDone c err =>
    simp only [step, complete]
    split
    · exact timersOK_onConnect parseInt err _ h
    · exact h
  | readDone c err values =>
    simp only [step, complete]
    split
    · exact timersOK_of_sub (timersSub_trans
        (b := { s with pending := s.pending.erase (.cycleCallback c) })
        ⟨fun _ hx => hx, rfl, rfl⟩ (timersSub_cycleCallback err values _)) h
    · exact h
  | written c err =>
    simp only [step, complete]
    split
    · exact timersOK_of_sub (timersSub_trans
        (b := { s with pending := s.pending.erase (.onWritten c) })
        ⟨fun _ hx => hx, rfl, rfl⟩ (timersSub_onWritten err _)) h
    · exact h
  | dropDone c done =>
    simp only [step, complete]
    split
    · exact timersOK_of_sub (timersSub_trans
        (b := { s with pending := s.pending.erase (.doCb c done) })
        ⟨fun _ hx => hx, rfl, rfl⟩ (timersSub_doCb done _)) h
    · exact h
  | addListener name =>
    simp only [step, Outcome.state_ok]
    split <;> exact h
  | removeListener name =>
    simp only [step, Outcome.state_ok]
    split <;> exact h

/-- In every state a fresh endpoint reaches, the running timers are the ones
whose handles the endpoint holds. -/
theorem timersOK_run (parseInt : Value → JSNum) (evs : List Event) (s : Endpoint)
    (h : TimersOK s) : TimersOK (run parseInt s evs) := by
  induction evs generalizing s with
  | nil => exact h
  | cons e es ih => exact ih _ (timersOK_step parseInt s e h)

theorem timersOK_init (vars : List (String × String)) (cycletime : Value) (isVerbose : Bool) :
    TimersOK (Endpoint.init vars cycletime isVerbose) :=
  ⟨fun x hx => by simp [Endpoint.init] at hx, fun x hx => by simp [Endpoint.init] at hx⟩

/-! ## TSAP components -/

theorem char_le_iff (c d : Char) : c ≤ d ↔ c.toNat ≤ d.toNat := by
  show c.val ≤ d.val ↔ _
  rw [UInt32.le_def]
  rfl

theorem isHexDigit_bounds (c : Char) (h : isHexDigit c = true) :
    c.toNat < 65536 ∧ hexDigitValue c ≤ 15 := by
  have h0 : ('0' : Char).toNat = 48 := rfl
  have h9 : ('9' : Char).toNat = 57 := rfl
  have ha : ('a' : Char).toNat = 97 := rfl
  have hf : ('f' : Char).toNat = 102 := rfl
  have hA : ('A' : Char).toNat = 65 := rfl
  have hF : ('F' : Char).toNat = 70 := rfl
  simp only [isHexDigit, hexDigitValue, Bool.or_eq_true, Bool.and_eq_true, decide_eq_true_eq,
    char_le_iff, h0, h9, ha, hf, hA, hF] at h ⊢
  split_ifs <;> omega

theorem validateTSAP_of_two (c d : Char) (hc : isHexDigit c = true) (hd : isHexDigit d = true) :
    validateTSAP ⟨[c, d]⟩ = true ∧
      parseInt16 ⟨[c, d]⟩ = .ofInt ((16 * hexDigitValue c + hexDigitValue d : Nat) : Int) := by
  have bc := isHexDigit_bounds c hc
  have bd := isHexDigit_bounds d hd
  have hp : parseInt16 ⟨[c, d]⟩ =
      .ofInt ((16 * hexDigitValue c + hexDigitValue d : Nat) : Int) := by
    simp [parseInt16, hexRegexTest, hc, hd]
  refine ⟨?_, hp⟩
  have hlen : jsLength ⟨[c, d]⟩ = 2 := by
    simp [jsLength, bc.1, bd.1]
  have hlt : (JSNum.ofInt 0xff).lt
      (.ofInt ((16 * hexDigitValue c + hexDigitValue d : Nat) : Int)) = false := by
    rw [JSNum.lt_ofInt]
    simp
    omega
  have hneg : (JSNum.ofInt ((16 * hexDigitValue c + hexDigitValue d : Nat) : Int)).lt
      (.ofInt 0) = false := by
    rw [JSNum.lt_ofInt]
    simp
    omega
  simp only [validateTSAP, hlen, hp, hlt, hneg, JSNum.isNaN_ofInt]
  simp [hexRegexTest, hc, hd]

theorem jsLength_of_hex (l : List Char) (h : l.all isHexDigit = true) (n : Nat) :
    l.foldl (fun n c => n + if c.toNat < 65536 then 1 else 2) n = n + l.length := by
  induction l generalizing n with
  | nil => simp
  | cons c l ih =>
    simp only [List.all_cons, Bool.and_eq_true] at h
    have := (isHexDigit_bounds c h.1).1
    simp only [List.foldl_cons, this, if_true, List.length_cons]
    rw [ih h.2]
    omega

theorem validateTSAP_iff (s : String) : validateTSAP s = true ↔ twoHexDigits s := by
  constructor
  · intro h
    by_cases hl : jsLength s = 2
    · by_cases hr : hexRegexTest s = true
      · have hall : s.data.all isHexDigit = true := by
          simp only [hexRegexTest, Bool.and_eq_true] at hr
          exact hr.2
        have := jsLength_of_hex s.data hall 0
        have hlen : s.data.length = 2 := by
          unfold jsLength at hl
          omega
        obtain ⟨l⟩ := s
        match l, hlen, hall with
        | [c, d], _, hall =>
          simp only [List.all_cons, List.all_nil, Bool.and_true, Bool.and_eq_true] at hall
          exact ⟨c, d, rfl, hall.1, hall.2⟩
      · simp [validateTSAP, hl, hr] at h
    · simp [validateTSAP, hl] at h
  · rintro ⟨c, d, hs, hc, hd⟩
    obtain ⟨l⟩ := s
    simp only at hs
    subst hs
    exact (validateTSAP_of_two c d hc hd).1

theorem JSNum.toInt32_ofInt (n : Int) (h0 : 0 ≤ n) (h1 : n < 2 ^ 31) :
    (JSNum.ofInt n).toInt32 = n := by
  have hm : n % 2 ^ 32 = n := Int.emod_eq_of_lt h0 (by omega)
  simp only [JSNum.ofInt, JSNum.toInt32, Rat.intCast_num, Rat.intCast_den, Nat.cast_one,
    Int.tdiv_one, hm]
  rw [if_neg (by omega)]

theorem JSNum.shl_eight (n : Nat) (h : n ≤ 255) :
    (JSNum.ofInt (n : Int)).shl 8 = .ofInt ((256 * n : Nat) : Int) := by
  have hin : (JSNum.ofInt (n : Int)).toInt32 = n :=
    JSNum.toInt32_ofInt _ (by omega) (by omega)
  have hk : ((n : Int) * 2 ^ (8 % 32)) = ((256 * n : Nat) : Int) := by
    push_cast
    ring
  unfold JSNum.shl
  rw [hin, hk, JSNum.toInt32_ofInt _ (by omega) (by omega)]

theorem JSNum.add_ofInt (m n : Int) : (JSNum.ofInt m).add (.ofInt n) = .ofInt (m + n) := by
  simp [JSNum.ofInt, JSNum.add]

theorem hexByte_of_two (c d : Char) : hexByte ⟨[c, d]⟩ = 16 * hexDigitValue c + hexDigitValue d :=
  rfl

theorem tsap_pair (hi lo : String) (h1 : validateTSAP hi = true) (h2 : validateTSAP lo = true) :
    ((parseInt16 hi).shl 8).add (parseInt16 lo) = .ofInt ((256 * hexByte hi + hexByte lo : Nat) : Int) ∧
      hexByte hi ≤ 255 ∧ hexByte lo ≤ 255 := by
  obtain ⟨c, d, hs, hc, hd⟩ := (validateTSAP_iff hi).mp h1
  obtain ⟨c', d', hs', hc', hd'⟩ := (validateTSAP_iff lo).mp h2
  obtain ⟨l⟩ := hi
  obtain ⟨l'⟩ := lo
  simp only at hs hs'
  subst hs hs'
  have b1 := (isHexDigit_bounds c hc).2
  have b2 := (isHexDigit_bounds d hd).2
  have b3 := (isHexDigit_bounds c' hc').2
  have b4 := (isHexDigit_bounds d' hd').2
  rw [(validateTSAP_of_two c d hc hd).2, (validateTSAP_of_two c' d' hc' hd').2,
    JSNum.shl_eight _ (by omega), JSNum.add_ofInt, hexByte_of_two, hexByte_of_two]
  refine ⟨?_, by omega, by omega⟩
  congr 1

/-! ## Connect completions -/

theorem writeNext_dispatches (u : Endpoint) (c : Nat) (w : WriteObj) (rest : List WriteObj)
    (hc : u.connected = true) (hq : u.writeQueue = w :: rest) (hconn : u.conn = some c) :
    ∃ s', writeNext u = .ok s' ∧ s'.writeQueue = rest ∧
      s'.trace = u.trace ++ [.writeItems c w] ∧ s'.writeInProgress = true ∧
      s'.pending = u.pending ++ [.onWritten c] ∧ s'.timers = u.timers ∧
      s'.currentCycleTime = u.currentCycleTime := by
  have heq : writeNext u = .ok
      { driverCall (.writeItems c w) (.onWritten c) { u with writeQueue := rest } with
        writeInProgress := true } := by
    simp [writeNext, hc, hq, hconn]
  exact ⟨_, heq, rfl, rfl, rfl, rfl, rfl, rfl⟩

/-- A successful `onConnect` on an endpoint with variables and a connection
object comes down to `updateCycleTime(currentCycleTime)` followed by
`writeNext()`, run on a state `s1` that differs from the initial one in the
status, the retry timer, the cycle counters and the log. -/
theorem onConnect_success_eq (parseInt : Value → JSNum) (s : Endpoint) (c : Nat)
    (hconn : s.conn = some c) (hvars : s.vars ≠ []) :
    ∃ s1, onConnect parseInt none s =
        writeNext (updateCycleTime parseInt s.currentCycleTime s1).2 ∧
      s1.writeQueue = s.writeQueue ∧ s1.conn = some c ∧ s1.connected = true ∧
      dispatched s1.trace = dispatched s.trace ∧ s1.pending = s.pending ∧
      s1.timers = (clearTimer s.connectTimeoutTimer s).timers ∧ s1.td = s.td ∧
      s1.nextId = s.nextId ∧ s1.currentCycleTime = s.currentCycleTime := by
  obtain ⟨oldValues, status, rip, rd, verbose, ctt, connected, cct, wip, wq, vars, td, conn,
    timers, ticks, pending, nextId, trace, lst⟩ := s
  simp only at hconn hvars
  subst hconn
  have hv : (vars.map Prod.fst).isEmpty = false := by
    cases vars with
    | nil => exact absurd rfl hvars
    | cons a l => rfl
  simp only [onConnect, hv, manageStatus_eq, clearTimer_eq, Endpoint.effect]
  refine ⟨_, rfl, rfl, rfl, rfl, ?_, rfl, rfl, rfl, rfl, rfl⟩
  by_cases hs : status = some .online <;> simp [dispatched, List.filterMap_append, hs]

theorem updateCycleTime_dispatched (parseInt : Value → JSNum) (interval : Value) (s : Endpoint) :
    dispatched (updateCycleTime parseInt interval s).2.trace = dispatched s.trace := by
  have h := (updateCycleTime_sameRequests parseInt interval s).1
  obtain ⟨tm, td, ct, nid, tr, hf⟩ := updateCycleTime_frame parseInt interval s
  rw [hf] at h ⊢
  exact List.append_cancel_right h

/-! ## Bulk reads issued -/

theorem readsIssued_append (a b : List Effect) :
    readsIssued (a ++ b) = readsIssued a ++ readsIssued b := by
  simp [readsIssued, List.filterMap_append]

theorem readsIssued_onlyValueEvents (t : List Effect) (h : onlyValueEvents t) :
    readsIssued t = [] := by
  induction t with
  | nil => rfl
  | cons e t ih =>
    obtain ⟨name, p, he, -⟩ := h e (List.mem_cons_self _ _)
    have ht : readsIssued t = [] := ih (fun x hx => h x (List.mem_cons_of_mem _ hx))
    subst he
    have hcons : readsIssued (.emit name p :: t) = readsIssued [.emit name p] ++ readsIssued t :=
      readsIssued_append [.emit name p] t
    rw [hcons, ht]
    rfl

theorem cycleReport_readsIssued (err : Bool) (values : Obj) (s : Endpoint) :
    readsIssued (cycleReport err values s).state.trace = readsIssued s.trace := by
  obtain ⟨ov, extra, h, he⟩ := cycleReport_shape err values s
  rw [h]
  have hx : readsIssued extra = [] := by
    rcases he with he | he
    · rw [he]; rfl
    · exact readsIssued_onlyValueEvents extra he
  have hm : readsIssued (manageStatus (if err then .badvalues else .online) s).trace =
      readsIssued s.trace := by
    rw [manageStatus_eq]
    simp only [readsIssued_append]
    split <;> simp [readsIssued]
  simp only [readsIssued_append, hx, hm, List.append_nil]

/-! ## The snapshot after a cycle -/

theorem not_emitThrows_iff (values : Obj) (s : Endpoint) :
    ¬ emitThrows values s ↔
      (s.errorListeners = 0 →
        ∀ k ∈ objectKeys values, keyChanged s.oldValues values k = true → k ≠ "error") := by
  constructor
  · intro h h0 k hk hc he
    subst he
    exact h ⟨h0, hk, hc⟩
  · intro h ht
    exact h ht.1 "error" ht.2.1 ht.2.2 rfl

/-- The report of a successful cycle when no emit throws: it returns, the log
gains the status event (if the status changed) and the specified value events,
the status is `online`, and the snapshot holds the new value at the changed
keys and the previous one elsewhere. -/
theorem cycleReport_success (values : Obj) (s : Endpoint)
    (hkeys : (objectKeys values).Nodup) (hne : ¬ emitThrows values s) :
    ∃ s', cycleReport false values s = .ok s' ∧
      s'.trace = s.trace ++
        (if s.status = some .online then [] else [.emit "__STATUS__" (.status .online)]) ++
        expectedCycleEvents s.oldValues values ∧
      (∀ key, s'.oldValues key =
        if key ∈ objectKeys values ∧ keyChanged s.oldValues values key = true
        then getProp values key else s.oldValues key) ∧
      s'.status = some .online ∧
      (∃ ov tr, s' = { s with status := some .online, oldValues := ov, trace := tr }) := by
  have hne' := (not_emitThrows_iff values s).mp hne
  obtain ⟨s1, h1, h2, h3⟩ := cycleKeys_trace values (objectKeys values)
    ((manageStatus .online s).effect (.emit "__ALL__" (.values values)), false) hkeys
    (by simpa [manageStatus_eq, Endpoint.effect] using hne')
  obtain ⟨ov, extra, hfr, -⟩ := cycleKeys_frame values (objectKeys values)
    ((manageStatus .online s).effect (.emit "__ALL__" (.values values)), false)
  rw [h1] at hfr
  simp only [Outcome.state_ok] at hfr
  have ho : ((manageStatus .online s).effect (.emit "__ALL__" (.values values))).oldValues
      = s.oldValues := by simp [manageStatus_eq, Endpoint.effect]
  have ht : ((manageStatus .online s).effect (.emit "__ALL__" (.values values))).trace
      = s.trace ++
        (if s.status = some .online then [] else [.emit "__STATUS__" (.status .online)]) ++
        [.emit "__ALL__" (.values values)] := by simp [manageStatus_eq, Endpoint.effect]
  simp only [ho, ht, Bool.false_or] at h1 h2 h3
  by_cases ha : (objectKeys values).any (keyChanged s.oldValues values) = true
  · refine ⟨s1.effect (.emit "__ALL_CHANGED__" (.values values)), ?_, ?_, ?_, ?_, ?_⟩
    · simp [cycleReport, h1, ha, Outcome.andThen]
    · simp [Endpoint.effect, h2, expectedCycleEvents, ha]
    · exact h3
    · rw [hfr]
      simp [Endpoint.effect, manageStatus_eq]
    · rw [hfr]
      exact ⟨_, _, by simp [Endpoint.effect, manageStatus_eq]; exact ⟨rfl, rfl⟩⟩
  · refine ⟨s1, ?_, ?_, ?_, ?_, ?_⟩
    · simp [cycleReport, h1, ha, Outcome.andThen]
    · simp [h2, expectedCycleEvents, ha]
    · exact h3
    · rw [hfr]
      simp [Endpoint.effect, manageStatus_eq]
    · rw [hfr]
      exact ⟨_, _, by simp [Endpoint.effect, manageStatus_eq]; exact ⟨rfl, rfl⟩⟩

/-- A successful `cycleCallback` on an endpoint that holds its connection
object while connected continues with the report, run on a state with the same
snapshot and listeners that has no deferred cycle to catch up on. -/
theorem cycleCallback_success_eq (values : Obj) (s : Endpoint) (c : Nat)
    (hconn : s.connected = true → s.conn = some c) :
    ∃ s0, cycleCallback false values s = cycleReport false values s0 ∧
      s0.oldValues = s.oldValues ∧ (s0.readDeferred != 0 && s0.connected) = false ∧
      s0.connected = s.connected ∧ s0.conn = s.conn ∧
      s0.errorListeners = s.errorListeners ∧ s0.status = s.status ∧
      s0.trace = s.trace ++
        (if s.readDeferred ≠ 0 ∧ s.connected = true then [.readAllItems c] else []) := by
  by_cases hd : s.readDeferred ≠ 0 ∧ s.connected = true
  · have hc := hconn hd.2
    have heq : cycleCallback false values s = cycleReport false values
        { driverCall (.readAllItems c) (.cycleCallback c) { s with readInProgress := false } with
          readInProgress := true, readDeferred := 0 } := by
      simp [cycleCallback, hd.1, hd.2, doCycle, hc, Outcome.andThen]
    exact ⟨_, heq, rfl, rfl, rfl, rfl, rfl, rfl, by simp [driverCall, hd]⟩
  · have hb : (s.readDeferred != 0 && s.connected) = false := by
      rw [not_and_or] at hd
      rcases hd with hd | hd
      · simp at hd; simp [hd]
      · simp at hd; simp [hd]
    have heq : cycleCallback false values s = cycleReport false values
        { s with readInProgress := false } := by
      simp [cycleCallback, hb, Outcome.andThen]
    exact ⟨_, heq, rfl, hb, rfl, rfl, rfl, rfl, by simp [hd]⟩

/-! ## The stored cycle time -/

theorem closeConnection_cycleTime (done : Done) (s : Endpoint) :
    (closeConnection done s).currentCycleTime = s.currentCycleTime := by
  obtain ⟨oldValues, status, rip, rd, verbose, ctt, connected, cct, wip, wq, vars, td, conn,
    timers, ticks, pending, nextId, trace, lst⟩ := s
  cases conn <;> cases verbose <;>
    simp [closeConnection, manageStatus_eq, clearTimer_eq, driverCall, nextTick, Endpoint.effect]

theorem connect_cycleTime (s : Endpoint) : (connect s).currentCycleTime = s.currentCycleTime := by
  unfold connect
  split
  · exact closeConnection_cycleTime _ s
  · rfl

theorem doConnect_cycleTime (s : Endpoint) :
    (doConnect s).currentCycleTime = s.currentCycleTime := by
  obtain ⟨oldValues, status, rip, rd, verbose, ctt, connected, cct, wip, wq, vars, td, conn,
    timers, ticks, pending, nextId, trace, lst⟩ := s
  cases verbose <;> simp [doConnect, manageStatus_eq, driverCall, Endpoint.effect]

theorem doCb_cycleTime (done : Done) (s : Endpoint) :
    (doCb done s).currentCycleTime = s.currentCycleTime := by
  cases done
  · exact doConnect_cycleTime _
  · rfl
  · rfl

theorem doCycle_cycleTime (s : Endpoint) :
    (doCycle s).state.currentCycleTime = s.currentCycleTime := by
  unfold doCycle
  split
  · split <;> rfl
  · simp only []
    split
    · simp only [Outcome.state_ok]
      rw [connect_cycleTime]
      rfl
    · rfl

theorem writeNext_cycleTime (s : Endpoint) :
    (writeNext s).state.currentCycleTime = s.currentCycleTime := by
  obtain ⟨q, wip, pd, tr, h⟩ := writeNext_frame s
  rw [h]

theorem writeVar_cycleTime (obj : WriteObj) (s : Endpoint) :
    (writeVar obj s).state.currentCycleTime = s.currentCycleTime := by
  unfold writeVar
  simp only []
  split
  · rw [writeNext_cycleTime]
  · rfl

theorem onWritten_cycleTime (err : Bool) (s : Endpoint) :
    (onWritten err s).state.currentCycleTime = s.currentCycleTime := by
  unfold onWritten
  simp only []
  have h := writeNext_cycleTime { s with writeInProgress := false }
  revert h
  cases writeNext { s with writeInProgress := false } with
  | ok s' =>
    intro h
    cases err <;> simpa [Outcome.andThen, manageStatus_eq, Endpoint.effect] using h
  | threw s' => intro h; simpa [Outcome.andThen] using h

theorem cycleReport_cycleTime (err : Bool) (values : Obj) (s : Endpoint) :
    (cycleReport err values s).state.currentCycleTime = s.currentCycleTime := by
  obtain ⟨st, ov, tr, hf⟩ := cycleReport_frame err values s
  rw [hf]

theorem cycleCallback_cycleTime (err : Bool) (values : Obj) (s : Endpoint) :
    (cycleCallback err values s).state.currentCycleTime = s.currentCycleTime := by
  unfold cycleCallback
  simp only []
  split
  · have h := doCycle_cycleTime { s with readInProgress := false }
    revert h
    cases doCycle { s with readInProgress := false } with
    | ok s' =>
      intro h
      simp only [Outcome.andThen, cycleReport_cycleTime]
      simpa using h
    | threw s' => intro h; simpa [Outcome.andThen] using h
  · simp only [Outcome.andThen, cycleReport_cycleTime]

theorem onConnect_failure_cycleTime (parseInt : Value → JSNum) (e : String) (s : Endpoint) :
    (onConnect parseInt (some e) s).state.currentCycleTime = s.currentCycleTime := by
  simp [onConnect, manageStatus_eq, clearTimer_eq, Endpoint.effect, setTimeout]

theorem step_cycleTime (parseInt : Value → JSNum) (s : Endpoint) (e : Event)
    (he : e.keepsCycleTime = true) :
    (step parseInt s e).state.currentCycleTime = s.currentCycleTime := by
  cases e with
  | writeVar obj => exact writeVar_cycleTime obj s
  | updateCycleTime interval => simp [Event.keepsCycleTime] at he
  | trigger => exact doCycle_cycleTime s
  | close => exact closeConnection_cycleTime _ s
  | connect => exact connect_cycleTime s
  | timerFires id =>
    simp only [step]
    split
    · simp only [Outcome.state_ok]
      rw [connect_cycleTime]
    · exact doCycle_cycleTime s
    · rfl
  | tick =>
    simp only [step]
    split
    · rfl
    · simp only [Outcome.state_ok]
      rw [doConnect_cycleTime]
    · simp only [Outcome.state_ok]
      rw [doCb_cycleTime]
  | connectDone c err =>
    cases err with
    | none => simp [Event.keepsCycleTime] at he
    | some e =>
      simp only [step, complete]
      split
      · rw [onConnect_failure_cycleTime]
      · rfl
  | readDone c err values =>
    simp only [step, complete]
    split
    · rw [cycleCallback_cycleTime]
    · rfl
  | written c err =>
    simp only [step, complete]
    split
    · rw [onWritten_cycleTime]
    · rfl
  | dropDone c done =>
    simp only [step, complete]
    split
    · simp only [Outcome.state_ok]
      rw [doCb_cycleTime]
    · rfl
  | addListener name =>
    simp only [step, Outcome.state_ok]
    split <;> rfl
  | removeListener name =>
    simp only [step, Outcome.state_ok]
    split <;> rfl

theorem run_cycleTime (parseInt : Value → JSNum) (evs : List Event) (s : Endpoint)
    (he : evs.all Event.keepsCycleTime = true) :
    (run parseInt s evs).currentCycleTime = s.currentCycleTime := by
  induction evs generalizing s with
  | nil => rfl
  | cons e es ih =>
    simp only [List.all_cons, Bool.and_eq_true] at he
    rw [run, ih _ he.2, step_cycleTime parseInt s e he.1]

theorem writeNext_ok (s : Endpoint) (c : Nat) (h : s.conn = some c) :
    writeNext s = .ok (writeNext s).state := by
  obtain ⟨oldValues, status, rip, rd, verbose, ctt, connected, cct, wip, wq, vars, td, conn,
    timers, ticks, pending, nextId, trace, lst⟩ := s
  simp only at h
  subst h
  cases connected <;> cases wq <;> simp [writeNext]

theorem updateCycleTime_stores (parseInt : Value → JSNum) (interval : Value) (s : Endpoint)
    (t : Nat) (hparse : parseInt interval = .ofInt t) :
    (updateCycleTime parseInt interval s).2.currentCycleTime =
      if t = 0 then s.currentCycleTime else .num (.ofInt (max t MIN_CYCLE_TIME : Nat)) := by
  unfold updateCycleTime
  have hneg : ¬ ((t : Int) < 0) := by omega
  by_cases h0 : t = 0
  · subst h0
    simp [hparse, JSNum.isNaN_ofInt, JSNum.lt_ofInt, JSNum.truthy_ofInt, clearTimer_eq]
  · by_cases h50 : t < MIN_CYCLE_TIME
    · have hm : max t MIN_CYCLE_TIME = MIN_CYCLE_TIME := by omega
      simp [hparse, JSNum.isNaN_ofInt, JSNum.lt_ofInt, JSNum.truthy_ofInt, hneg, h0, h50, hm,
        setInterval, Endpoint.effect, clearTimer_eq]
    · have hm : max t MIN_CYCLE_TIME = t := by omega
      simp [hparse, JSNum.isNaN_ofInt, JSNum.lt_ofInt, JSNum.truthy_ofInt, hneg, h0, h50, hm,
        setInterval, clearTimer_eq]

/-! ## C1: write requests reach the driver in submission order -/

theorem three_writes_in_order (parseInt : Value → JSNum) (s : Endpoint) (c : Nat)
    (w1 w2 w3 : WriteObj) (e1 e2 : Bool)
    (hconn : s.conn = some c) (hc : s.connected = true) (hw : s.writeInProgress = false)
    (hq : s.writeQueue = []) :
    dispatched (run parseInt s [.writeVar w1, .writeVar w2, .writeVar w3]).trace
      = dispatched s.trace ++ [w1] ∧
    dispatched (run parseInt s [.writeVar w1, .writeVar w2, .writeVar w3,
        .written c e1, .written c e2]).trace
      = dispatched s.trace ++ [w1, w2, w3] := by
  obtain ⟨oldValues, status, rip, rd, verbose, ctt, connected, cct, wip, wq, vars, td, conn,
    timers, ticks, pending, nextId, trace, lst⟩ := s
  simp only at hconn hc hw hq
  subst hconn hc hw hq
  constructor
  · simp [run, step, writeVar, writeNext, driverCall, dispatched, List.filterMap_append]
  · cases e1 <;> cases e2 <;>
    simp [run, step, writeVar, writeNext, driverCall, dispatched, List.filterMap_append, complete,
      onWritten, Outcome.andThen, manageStatus_eq, Endpoint.effect]

/-- C1: at an endpoint holding a connection object, for every interleaving of
`writeVar` submissions, write completions and connect completions (success or
error), the requests handed to the driver followed by the requests still
queued are exactly the requests seen before followed by the submitted ones, in
order: nothing is dispatched twice, skipped or reordered, and the dispatched
requests are a prefix of the submitted ones when nothing was dispatched or
queued before.  In particular three writes submitted while connected and idle
dispatch the first at once and, after two completions, all three in order. -/
theorem writes_dispatched_in_submission_order (parseInt : Value → JSNum) (s : Endpoint)
    (c : Nat) (evs : List Event) (w1 w2 w3 : WriteObj) (e1 e2 : Bool)
    (hconn : s.conn = some c) (hevs : ∀ e ∈ evs, e.isWriteOrConnect = true) :
    (dispatched (run parseInt s evs).trace ++ (run parseInt s evs).writeQueue
      = dispatched s.trace ++ s.writeQueue ++ submitted evs) ∧
    (dispatched s.trace = [] → s.writeQueue = [] →
      dispatched (run parseInt s evs).trace <+: submitted evs) ∧
    (s.connected = true → s.writeInProgress = false → s.writeQueue = [] →
      dispatched (run parseInt s [.writeVar w1, .writeVar w2, .writeVar w3]).trace
        = dispatched s.trace ++ [w1] ∧
      dispatched (run parseInt s [.writeVar w1, .writeVar w2, .writeVar w3,
          .written c e1, .written c e2]).trace
        = dispatched s.trace ++ [w1, w2, w3]) := by
  have h := run_requests parseInt evs s c hconn hevs
  refine ⟨h, ?_, fun hc hw hq => three_writes_in_order parseInt s c w1 w2 w3 e1 e2 hconn hc hw hq⟩
  intro hd hq
  rw [hd, hq] at h
  exact ⟨_, by simpa using h⟩

/-- C1 at the sample connected endpoint: two writes, a failed completion, a
stray connect completion, a third write and a second completion. -/
theorem writes_dispatched_in_submission_order_witness :
    (sampleOnline.conn = some 0 ∧
      ∀ e ∈ [Event.writeVar (sampleWrite 1), .writeVar (sampleWrite 2), .written 0 true,
          .connectDone 0 none, .writeVar (sampleWrite 3), .written 0 false],
        e.isWriteOrConnect = true) ∧
    (dispatched (run sampleParseInt sampleOnline
          [.writeVar (sampleWrite 1), .writeVar (sampleWrite 2), .written 0 true,
            .connectDone 0 none, .writeVar (sampleWrite 3), .written 0 false]).trace ++
        (run sampleParseInt sampleOnline
          [.writeVar (sampleWrite 1), .writeVar (sampleWrite 2), .written 0 true,
            .connectDone 0 none, .writeVar (sampleWrite 3), .written 0 false]).writeQueue
      = dispatched sampleOnline.trace ++ sampleOnline.writeQueue ++
          submitted [.writeVar (sampleWrite 1), .writeVar (sampleWrite 2), .written 0 true,
            .connectDone 0 none, .writeVar (sampleWrite 3), .written 0 false]) ∧
    (dispatched (run sampleParseInt sampleOnline
        [.writeVar (sampleWrite 1), .writeVar (sampleWrite 2), .writeVar (sampleWrite 3)]).trace
        = dispatched sampleOnline.trace ++ [sampleWrite 1] ∧
      dispatched (run sampleParseInt sampleOnline
        [.writeVar (sampleWrite 1), .writeVar (sampleWrite 2), .writeVar (sampleWrite 3),
          .written 0 true, .written 0 false]).trace
        = dispatched sampleOnline.trace ++ [sampleWrite 1, sampleWrite 2, sampleWrite 3]) :=
  have h := writes_dispatched_in_submission_order sampleParseInt sampleOnline 0
    [.writeVar (sampleWrite 1), .writeVar (sampleWrite 2), .written 0 true,
      .connectDone 0 none, .writeVar (sampleWrite 3), .written 0 false]
    (sampleWrite 1) (sampleWrite 2) (sampleWrite 3) true false (by decide) (by decide)
  ⟨by decide, h.1, h.2.2 (by decide) (by decide) rfl⟩

/-! ## C2: the events of a successful cycle -/

theorem emitThrows_congr (values : Obj) (s s0 : Endpoint) (ho : s0.oldValues = s.oldValues)
    (hl : s0.errorListeners = s.errorListeners) :
    emitThrows values s0 ↔ emitThrows values s := by
  unfold emitThrows
  rw [ho, hl]

/-- C2, counterexample: the successful read result `{error: 1, A: 2}` at the
sample connected endpoint, on which nobody listens for `error`.  Both keys
changed, yet the callback throws at the per-key emit for `error`: the log
gains the all-values event and that emit only, so there is no `__CHANGED__`
event for `error`, no event at all for `A`, and no all-changed event. -/
theorem error_key_aborts_cycle :
    sampleOnline.errorListeners = 0 ∧
    keyChanged sampleOnline.oldValues [("error", .int 1), ("A", .int 2)] "error" = true ∧
    keyChanged sampleOnline.oldValues [("error", .int 1), ("A", .int 2)] "A" = true ∧
    (∃ s', cycleCallback false [("error", .int 1), ("A", .int 2)] sampleOnline = .threw s') ∧
    (cycleCallback false [("error", .int 1), ("A", .int 2)] sampleOnline).state.trace =
      sampleOnline.trace ++
        [.emit "__ALL__" (.values [("error", .int 1), ("A", .int 2)]),
         .emit "error" (.value (.int 1))] :=
  ⟨rfl, by decide, by decide, ⟨_, rfl⟩, rfl⟩

/-- C2, amended: for every endpoint state (a connected one holding its
connection object) and every successful read result `values` with distinct
keys, unless the per-key emit throws (`error` is a changed key of `values` and
no listener is registered for `error`), `cycleCallback(null, values)` returns
and appends to the log, after the catch-up read of a deferred cycle and the
status event of a status change if there are any, exactly the events
`expectedCycleEvents`: one `__ALL__` event carrying `values`; for each key
whose value is not `equals()` to the snapshot value one per-key value event
and one `__CHANGED__` event, and none for any other key; and one
`__ALL_CHANGED__` event carrying `values` exactly if some key changed. -/
theorem cycleCallback_events (values : Obj) (s : Endpoint) (c : Nat)
    (hkeys : (objectKeys values).Nodup) (hconn : s.connected = true → s.conn = some c)
    (hne : ¬ emitThrows values s) :
    ∃ s', cycleCallback false values s = .ok s' ∧
      s'.trace = s.trace ++
        (if s.readDeferred ≠ 0 ∧ s.connected = true then [.readAllItems c] else []) ++
        (if s.status = some .online then [] else [.emit "__STATUS__" (.status .online)]) ++
        expectedCycleEvents s.oldValues values := by
  obtain ⟨s0, h0, ho, -, -, -, hl, hst, htr⟩ := cycleCallback_success_eq values s c hconn
  have hne0 : ¬ emitThrows values s0 := fun h => hne ((emitThrows_congr values s s0 ho hl).mp h)
  obtain ⟨s', h1, h2, -⟩ := cycleReport_success values s0 hkeys hne0
  refine ⟨s', by rw [h0, h1], ?_⟩
  rw [h2, htr, hst, ho]

/-- C2 (amended) at the second of the cycles `{A: 1, B: 2}`, `{A: 1, B: 3}`:
one all-values event, the per-key and changed events of `B` only, and one
all-changed event. -/
theorem cycleCallback_events_witness :
    ((objectKeys [("A", Value.int 1), ("B", Value.int 3)]).Nodup ∧
      (sampleSecondCycle.connected = true → sampleSecondCycle.conn = some 0) ∧
      ¬ emitThrows [("A", Value.int 1), ("B", Value.int 3)] sampleSecondCycle) ∧
    (∃ s', cycleCallback false [("A", .int 1), ("B", .int 3)] sampleSecondCycle = .ok s' ∧
      s'.trace = sampleSecondCycle.trace ++
        (if sampleSecondCycle.readDeferred ≠ 0 ∧ sampleSecondCycle.connected = true
          then [.readAllItems 0] else []) ++
        (if sampleSecondCycle.status = some .online then []
          else [.emit "__STATUS__" (.status .online)]) ++
        expectedCycleEvents sampleSecondCycle.oldValues [("A", .int 1), ("B", .int 3)]) ∧
    expectedCycleEvents sampleSecondCycle.oldValues [("A", .int 1), ("B", .int 3)] =
      [.emit "__ALL__" (.values [("A", .int 1), ("B", .int 3)]),
       .emit "B" (.value (.int 3)),
       .emit "__CHANGED__" (.keyValue "B" (.int 3)),
       .emit "__ALL_CHANGED__" (.values [("A", .int 1), ("B", .int 3)])] :=
  ⟨⟨by decide, by decide, fun h => absurd h.2.1 (by decide)⟩,
    cycleCallback_events [("A", .int 1), ("B", .int 3)] sampleSecondCycle 0
      (by decide) (by decide) (fun h => absurd h.2.1 (by decide)),
    by rfl⟩

/-! ## C3: the stall detector -/

theorem cycles_succ (n : Nat) (s : Endpoint) :
    cycles (n + 1) s = (doCycle (cycles n s)).state := by
  induction n generalizing s with
  | zero => rfl
  | succ n ih => rw [cycles, ih (doCycle s).state]; rfl

theorem doCycle_defer (s : Endpoint) (hr : s.readInProgress = true) (hd : s.readDeferred < 10) :
    doCycle s = .ok { s with readDeferred := s.readDeferred + 1 } := by
  unfold doCycle
  have : ¬ (s.readDeferred + 1 > 10) := by omega
  simp [hr, this]

theorem cycles_defer (k : Nat) (s : Endpoint) (hr : s.readInProgress = true)
    (hd : s.readDeferred + k ≤ 10) :
    cycles k s = { s with readDeferred := s.readDeferred + k } := by
  induction k generalizing s with
  | zero => rfl
  | succ k ih =>
    have h := ih { s with readDeferred := s.readDeferred + 1 } hr (by simp only []; omega)
    rw [cycles, doCycle_defer s hr (by omega), Outcome.state_ok, h]
    simp only [Nat.add_assoc, Nat.add_comm 1 k]

theorem doCycle_issue (s : Endpoint) (c : Nat) (hc : s.connected = true)
    (hr : s.readInProgress = false) (hconn : s.conn = some c) :
    doCycle s = .ok { driverCall (.readAllItems c) (.cycleCallback c) s with
      readInProgress := true } := by
  unfold doCycle
  simp [hr, hc, hconn]

/-- C3, as stated, fails: on a connected endpoint with no read in flight and a
deferred counter of 0, eleven consecutive `doCycle()` calls call `connect()`
not once, and leave the in-flight flag set and the deferred counter at 10. -/
theorem eleven_cycles_no_reconnect :
    (sampleOnline.connected = true ∧ sampleOnline.readInProgress = false ∧
      sampleOnline.readDeferred = 0) ∧
    connectCalls (cycles 11 sampleOnline).trace = connectCalls sampleOnline.trace ∧
    (cycles 11 sampleOnline).readInProgress = true ∧
    (cycles 11 sampleOnline).readDeferred = 10 := by
  decide

/-- C3, amended: on a connected endpoint holding a connection object, with no
read in flight and a deferred counter of 0, eleven consecutive `doCycle()`
calls issue one read and defer ten times without any `connect()`; the twelfth
call raises the deferred counter to 11 and calls `connect()` exactly once.
`connect()` leaves the counters as they are (in-flight set, deferred 11);
a successful connect completion, in any state `s'`, sets both to zero. -/
theorem twelfth_cycle_forces_reconnect (parseInt : Value → JSNum) (s s' : Endpoint) (c : Nat)
    (hc : s.connected = true) (hr : s.readInProgress = false) (hd : s.readDeferred = 0)
    (hconn : s.conn = some c) :
    (connectCalls (cycles 11 s).trace = connectCalls s.trace ∧
      (cycles 11 s).readInProgress = true ∧ (cycles 11 s).readDeferred = 10) ∧
    (connectCalls (cycles 12 s).trace = connectCalls s.trace + 1 ∧
      (cycles 12 s).readInProgress = true ∧ (cycles 12 s).readDeferred = 11) ∧
    ((onConnect parseInt none s').state.readInProgress = false ∧
      (onConnect parseInt none s').state.readDeferred = 0) := by
  have h11 : cycles 11 s = { driverCall (.readAllItems c) (.cycleCallback c) s with
      readInProgress := true, readDeferred := 10 } := by
    rw [show (11 : Nat) = 10 + 1 from rfl, cycles, doCycle_issue s c hc hr hconn, Outcome.state_ok,
      cycles_defer 10 _ rfl (by simp [driverCall, hd])]
    simp [driverCall, hd]
  refine ⟨?_, ?_, onConnect_success_resets parseInt s'⟩
  · rw [h11]
    simp [driverCall, connectCalls, isConnectCall]
  · rw [show (12 : Nat) = 11 + 1 from rfl, cycles_succ, h11]
    obtain ⟨oldValues, status, rip, rd, verbose, ctt, connected, cct, wip, wq, vars, td, conn,
      timers, ticks, pending, nextId, trace, lst⟩ := s
    simp only at hconn
    subst hconn
    cases verbose <;> by_cases hs : status = some .offline <;>
      simp [doCycle, connect, closeConnection, driverCall, connectCalls, isConnectCall,
        manageStatus_eq, clearTimer_eq, Endpoint.effect, hs]

/-- The amended C3 at the sample connected endpoint; the connect completion is
the one that follows the forced reconnect. -/
theorem twelfth_cycle_forces_reconnect_witness :
    (sampleOnline.connected = true ∧ sampleOnline.readInProgress = false ∧
      sampleOnline.readDeferred = 0 ∧ sampleOnline.conn = some 0) ∧
    (connectCalls (cycles 11 sampleOnline).trace = connectCalls sampleOnline.trace ∧
      (cycles 11 sampleOnline).readInProgress = true ∧
      (cycles 11 sampleOnline).readDeferred = 10) ∧
    (connectCalls (cycles 12 sampleOnline).trace = connectCalls sampleOnline.trace + 1 ∧
      (cycles 12 sampleOnline).readInProgress = true ∧
      (cycles 12 sampleOnline).readDeferred = 11) ∧
    ((onConnect sampleParseInt none
        (doCb .doConnect (cycles 12 sampleOnline))).state.readInProgress = false ∧
      (onConnect sampleParseInt none
        (doCb .doConnect (cycles 12 sampleOnline))).state.readDeferred = 0) :=
  ⟨by decide,
    twelfth_cycle_forces_reconnect sampleParseInt sampleOnline
      (doCb .doConnect (cycles 12 sampleOnline)) 0
      (by decide) (by decide) (by decide) (by decide)⟩

/-! ## C4: `updateCycleTime` with a valid interval -/

theorem pollTimers_clearTimer_td (s : Endpoint)
    (htd : ∀ x ∈ s.timers, x.isInterval = true → s.td = some x.id) :
    pollTimers (clearTimer s.td s) = [] := by
  unfold pollTimers clearTimer
  cases h : s.td with
  | none =>
    simp only [List.filter_eq_nil_iff]
    intro x hx hi
    have := htd x hx hi
    simp [h] at this
  | some id =>
    simp only [List.filter_filter, List.filter_eq_nil_iff]
    intro x hx
    by_cases hi : x.isInterval = true
    · have := htd x hx hi
      simp [h] at this
      simp [hi, this]
    · simp [hi]

theorem updateCycleTime_valid_of_tracked (parseInt : Value → JSNum) (interval : Value)
    (s : Endpoint) (t : Nat) (hparse : parseInt interval = .ofInt t)
    (htd : ∀ x ∈ s.timers, x.isInterval = true → s.td = some x.id) :
    (updateCycleTime parseInt interval s).1 = none ∧
    pollTimers (updateCycleTime parseInt interval s).2 =
      (if t = 0 then []
       else [Timer.interval s.nextId (timerDelay (.ofInt (max t MIN_CYCLE_TIME : Nat)))]) ∧
    (updateCycleTime parseInt interval s).2.trace =
      s.trace ++ (if 0 < t ∧ t < MIN_CYCLE_TIME
                  then [.warn (.cycletimetooshort MIN_CYCLE_TIME)] else []) := by
  have hp := pollTimers_clearTimer_td s htd
  have hn : (clearTimer s.td s).nextId = s.nextId := by unfold clearTimer; split <;> rfl
  have ht : (clearTimer s.td s).trace = s.trace := by unfold clearTimer; split <;> rfl
  unfold pollTimers at hp ⊢
  unfold updateCycleTime
  simp only [hparse, JSNum.isNaN_ofInt, JSNum.lt_ofInt, JSNum.truthy_ofInt]
  have hneg : ¬ ((t : Int) < 0) := by omega
  by_cases h0 : t = 0
  · subst h0
    simp [hp, ht]
  · by_cases h50 : t < MIN_CYCLE_TIME
    · have hm : max t MIN_CYCLE_TIME = MIN_CYCLE_TIME := by omega
      simp [hneg, h0, h50, hm, setInterval, Endpoint.effect, hp, hn, ht, Timer.isInterval,
        Nat.pos_of_ne_zero h0]
    · have hm : max t MIN_CYCLE_TIME = t := by omega
      simp [hneg, h0, h50, hm, setInterval, Endpoint.effect, hp, hn, ht, Timer.isInterval]

/-- Within the range of the runtime's timers the poll timer runs as asked: in
every state `s` a fresh endpoint reaches, for every input whose integer parse
is a non-negative integer `t` with `max t 50` at most 2147483647,
`updateCycleTime` returns no error; afterwards no poll timer runs if `t = 0`,
and otherwise exactly one runs, the new one, with period `max t 50`; the only
visible action is the too-short warning, raised exactly when `0 < t < 50`. -/
theorem updateCycleTime_valid (parseInt : Value → JSNum) (vars : List (String × String))
    (cycletime : Value) (isVerbose : Bool) (evs : List Event) (s : Endpoint)
    (interval : Value) (t : Nat)
    (hs : s = run parseInt (Endpoint.init vars cycletime isVerbose) evs)
    (hparse : parseInt interval = .ofInt t) (hmax : max t MIN_CYCLE_TIME ≤ TIMEOUT_MAX) :
    (updateCycleTime parseInt interval s).1 = none ∧
    pollTimers (updateCycleTime parseInt interval s).2 =
      (if t = 0 then []
       else [Timer.interval s.nextId (.ofInt (max t MIN_CYCLE_TIME : Nat))]) ∧
    (updateCycleTime parseInt interval s).2.trace =
      s.trace ++ (if 0 < t ∧ t < MIN_CYCLE_TIME
                  then [.warn (.cycletimetooshort MIN_CYCLE_TIME)] else []) := by
  have h := updateCycleTime_valid_of_tracked parseInt interval s t hparse
    (hs ▸ (timersOK_run parseInt evs _ (timersOK_init vars cycletime isVerbose)).1)
  have hd : timerDelay (.ofInt (max t MIN_CYCLE_TIME : Nat)) =
      .ofInt (max t MIN_CYCLE_TIME : Nat) :=
    timerDelay_ofInt _ (by unfold MIN_CYCLE_TIME; omega) hmax
  rw [hd] at h
  exact h

/-- C4: at the sample connected endpoint (poll timer at 1000 ms),
`updateCycleTime(2147483648)` returns no error and stores 2147483648 as the
cycle time, and exactly one poll timer runs afterwards; but the runtime runs
it with a period of 1 ms, neither `max(t, 50)` nor at least 50 ms.  No warning
is logged. -/
theorem updateCycleTime_overflow :
    sampleParseInt (.int 2147483648) = .ofInt (2147483648 : Nat) ∧
    (updateCycleTime sampleParseInt (.int 2147483648) sampleOnline).1 = none ∧
    pollTimers (updateCycleTime sampleParseInt (.int 2147483648) sampleOnline).2 =
      [Timer.interval sampleOnline.nextId (.ofInt 1)] ∧
    (updateCycleTime sampleParseInt (.int 2147483648) sampleOnline).2.currentCycleTime =
      .int 2147483648 ∧
    (updateCycleTime sampleParseInt (.int 2147483648) sampleOnline).2.trace =
      sampleOnline.trace := by
  have hp : sampleParseInt (.int 2147483648) = .ofInt (2147483648 : Nat) := by decide
  have hok : TimersOK sampleOnline :=
    timersOK_run sampleParseInt [.connect, .tick, .connectDone 0 none] _
      (timersOK_init [("A", "DB1,INT0")] (.int 1000) false)
  have h := updateCycleTime_valid_of_tracked sampleParseInt (.int 2147483648) sampleOnline
    2147483648 hp hok.1
  have hd : timerDelay (.ofInt ((max 2147483648 MIN_CYCLE_TIME : Nat) : Int)) = .ofInt 1 :=
    timerDelay_large _ (by decide)
  rw [hd] at h
  have hc := updateCycleTime_stores sampleParseInt (.int 2147483648) sampleOnline 2147483648 hp
  rw [if_neg (by decide)] at hc
  exact ⟨hp, h.1, by simpa using h.2.1, hc, by simpa [MIN_CYCLE_TIME] using h.2.2⟩

/-! ## C5: `updateCycleTime` with an invalid interval -/

/-- C5: when the integer parse of the input is `NaN` or negative,
`updateCycleTime` returns the invalid-interval error as a value and leaves the
state of the endpoint exactly as it was before the call (timers, stored cycle
time and everything else). -/
theorem updateCycleTime_invalid (parseInt : Value → JSNum) (interval : Value) (s : Endpoint)
    (h : (parseInt interval).isNaN = true ∨ (parseInt interval).lt (.ofInt 0) = true) :
    updateCycleTime parseInt interval s = (some (.invalidtimeinterval interval), s) := by
  unfold updateCycleTime
  rcases h with h | h <;> simp [h]

/-- C5 at the inputs `-1` and `"x"`. -/
theorem updateCycleTime_invalid_witness :
    ((sampleParseInt (.int (-1))).lt (.ofInt 0) = true ∧
      (sampleParseInt (.str "x")).isNaN = true) ∧
    updateCycleTime sampleParseInt (.int (-1)) sampleOnline =
      (some (.invalidtimeinterval (.int (-1))), sampleOnline) ∧
    updateCycleTime sampleParseInt (.str "x") sampleOnline =
      (some (.invalidtimeinterval (.str "x")), sampleOnline) :=
  ⟨by decide,
    updateCycleTime_invalid sampleParseInt (.int (-1)) sampleOnline (Or.inr (by decide)),
    updateCycleTime_invalid sampleParseInt (.str "x") sampleOnline (Or.inl (by decide))⟩

/-! ## C6: outstanding writes -/

/-- C6, as stated, fails at a device that stops answering.  The first write
was handed to the driver and never completed, two more wait in the queue and
`writeInProgress` is set; the successful completion of the forced reconnect
runs `writeNext()` all the same and hands over the second write: two writes
are outstanding.  When the completion of the first write then arrives late,
the third write follows while the second has not completed: two writes are
outstanding on the new connection object. -/
theorem reconnect_dispatches_second_write :
    (outstandingWrites sampleStalled = 1 ∧ sampleStalled.writeInProgress = true ∧
      (dispatched sampleStalled.trace).length = 1 ∧ sampleStalled.writeQueue.length = 2) ∧
    (outstandingWrites (run sampleParseInt sampleStalled [.connectDone 2 none]) = 2 ∧
      (dispatched (run sampleParseInt sampleStalled [.connectDone 2 none]).trace).length = 2) ∧
    (run sampleParseInt sampleStalled [.connectDone 2 none, .written 0 true]).pending.count
      (.onWritten 2) = 2 := by
  decide

/-- C6, amended: along every interleaving of events of a fresh endpoint in
which each successful connect completion arrives while no write is
outstanding, at most one write is outstanding, and while one is outstanding
`writeInProgress` is set. -/
theorem at_most_one_write_outstanding (parseInt : Value → JSNum) (vars : List (String × String))
    (cycletime : Value) (isVerbose : Bool) (evs : List Event)
    (h : settledAtConnects parseInt outstandingWrites (Endpoint.init vars cycletime isVerbose) evs
      = true) :
    outstandingWrites (run parseInt (Endpoint.init vars cycletime isVerbose) evs) ≤ 1 ∧
    (outstandingWrites (run parseInt (Endpoint.init vars cycletime isVerbose) evs) = 1 →
      (run parseInt (Endpoint.init vars cycletime isVerbose) evs).writeInProgress = true) :=
  run_writeInv parseInt evs _
    (writeInv_of_none_outstanding (Endpoint.init vars cycletime isVerbose) rfl) h

/-- The amended C6 at the sample write run. -/
theorem at_most_one_write_outstanding_witness :
    settledAtConnects sampleParseInt outstandingWrites
        (Endpoint.init [("A", "DB1,INT0")] (.int 1000) false) sampleWriteRun = true ∧
    outstandingWrites (run sampleParseInt
        (Endpoint.init [("A", "DB1,INT0")] (.int 1000) false) sampleWriteRun) ≤ 1 ∧
    (outstandingWrites (run sampleParseInt
        (Endpoint.init [("A", "DB1,INT0")] (.int 1000) false) sampleWriteRun) = 1 →
      (run sampleParseInt
        (Endpoint.init [("A", "DB1,INT0")] (.int 1000) false) sampleWriteRun).writeInProgress
          = true) :=
  ⟨by decide,
    at_most_one_write_outstanding sampleParseInt [("A", "DB1,INT0")] (.int 1000) false
      sampleWriteRun (by decide)⟩

/-! ## C7: outstanding reads -/

/-- C7, as stated, fails at a device that stops answering.  The read issued
before the forced reconnect never completed; the successful completion of the
reconnect clears `readInProgress`, and the first tick of the new poll timer
issues a second read: two reads await their completion callback.  When the
completion of the first read then arrives late, the next tick issues a third
read while the second has not completed: two reads are outstanding on the new
connection object. -/
theorem reconnect_issues_second_read :
    outstandingReads sampleStalled = 1 ∧
    (run sampleParseInt sampleStalled [.connectDone 2 none]).readInProgress = false ∧
    outstandingReads (run sampleParseInt sampleStalled [.connectDone 2 none, .timerFires 3])
      = 2 ∧
    (run sampleParseInt sampleStalled
      [.connectDone 2 none, .timerFires 3, .readDone 0 true [], .timerFires 3]).pending.count
        (.cycleCallback 2) = 2 := by
  decide

/-- C7, amended: along every interleaving of events of a fresh endpoint in
which each successful connect completion arrives while no bulk read is
outstanding, at most one bulk read is outstanding, and while one is
outstanding `readInProgress` is set. -/
theorem at_most_one_read_outstanding (parseInt : Value → JSNum) (vars : List (String × String))
    (cycletime : Value) (isVerbose : Bool) (evs : List Event)
    (h : settledAtConnects parseInt outstandingReads (Endpoint.init vars cycletime isVerbose) evs
      = true) :
    outstandingReads (run parseInt (Endpoint.init vars cycletime isVerbose) evs) ≤ 1 ∧
    (outstandingReads (run parseInt (Endpoint.init vars cycletime isVerbose) evs) = 1 →
      (run parseInt (Endpoint.init vars cycletime isVerbose) evs).readInProgress = true) :=
  run_readInv parseInt evs _
    (readInv_of_none_outstanding (Endpoint.init vars cycletime isVerbose) rfl) h

/-- The amended C7 at the sample read run. -/
theorem at_most_one_read_outstanding_witness :
    settledAtConnects sampleParseInt outstandingReads
        (Endpoint.init [("A", "DB1,INT0")] (.int 1000) false) sampleReadRun = true ∧
    outstandingReads (run sampleParseInt
        (Endpoint.init [("A", "DB1,INT0")] (.int 1000) false) sampleReadRun) ≤ 1 ∧
    (outstandingReads (run sampleParseInt
        (Endpoint.init [("A", "DB1,INT0")] (.int 1000) false) sampleReadRun) = 1 →
      (run sampleParseInt
        (Endpoint.init [("A", "DB1,INT0")] (.int 1000) false) sampleReadRun).readInProgress
          = true) :=
  ⟨by decide,
    at_most_one_read_outstanding sampleParseInt [("A", "DB1,INT0")] (.int 1000) false
      sampleReadRun (by decide)⟩

/-! ## C8: status events -/

theorem statusCoupled_viewStep (v : Option Status × List Status) (n : Status)
    (h : StatusCoupled v) : StatusCoupled (viewStep v n) := by
  unfold viewStep
  split
  · exact h
  · next hne =>
    refine ⟨by simp, ?_⟩
    rw [List.chain'_append]
    refine ⟨h.2, List.chain'_singleton n, ?_⟩
    intro x hx y hy
    simp only [List.head?_cons, Option.mem_def, Option.some.injEq] at hy
    subst hy
    intro hxy
    apply hne
    have hl : v.2.getLast? = some x := hx
    rw [h.1, hl, hxy]

theorem statusCoupled_foldl (ns : List Status) (v : Option Status × List Status)
    (h : StatusCoupled v) : StatusCoupled (ns.foldl viewStep v) := by
  induction ns generalizing v with
  | nil => exact h
  | cons n ns ih => exact ih _ (statusCoupled_viewStep v n h)

theorem statusCoupled_of_reach {s s' : Endpoint} (h : StatusReach s s')
    (hs : StatusCoupled (statusView s)) : StatusCoupled (statusView s') := by
  obtain ⟨ns, e⟩ := h
  rw [e]
  exact statusCoupled_foldl ns _ hs

theorem statusCoupled_init (vars : List (String × String)) (cycletime : Value)
    (isVerbose : Bool) : StatusCoupled (statusView (Endpoint.init vars cycletime isVerbose)) := by
  simp [StatusCoupled, statusView, Endpoint.init, statusEvents]

theorem statusReach_calls (ns : List Status) (s : Endpoint) :
    StatusReach s (ns.foldl (fun s n => manageStatus n s) s) := by
  induction ns generalizing s with
  | nil => exact statusReach_refl s
  | cons n ns ih =>
    exact statusReach_trans (statusReach_of_step n (statusView_manageStatus n s)) (ih _)

/-- C8: a call `manageStatus(n)` emits a `__STATUS__` event exactly when `n`
differs from the current status, and `getStatus()` is `n` afterwards.  Hence,
after any sequence of `manageStatus` calls on a fresh endpoint, and after any
sequence of events of a fresh endpoint, no two consecutive `__STATUS__` events
carry the same status and `getStatus()` is the status of the last emitted
event (unset when none was emitted); a second transition to `online` right
after the first changes nothing. -/
theorem status_event_exactly_on_change (parseInt : Value → JSNum)
    (vars : List (String × String)) (cycletime : Value) (isVerbose : Bool)
    (calls : List Status) (evs : List Event) (n : Status) (s : Endpoint) :
    ((manageStatus n s).trace =
        s.trace ++ (if s.status = some n then [] else [.emit "__STATUS__" (.status n)]) ∧
      getStatus (manageStatus n s) = some n) ∧
    ((statusEvents (calls.foldl (fun s n => manageStatus n s)
          (Endpoint.init vars cycletime isVerbose)).trace).Chain' (· ≠ ·) ∧
      getStatus (calls.foldl (fun s n => manageStatus n s)
          (Endpoint.init vars cycletime isVerbose)) =
        (statusEvents (calls.foldl (fun s n => manageStatus n s)
          (Endpoint.init vars cycletime isVerbose)).trace).getLast?) ∧
    ((statusEvents (run parseInt (Endpoint.init vars cycletime isVerbose) evs).trace).Chain'
        (· ≠ ·) ∧
      getStatus (run parseInt (Endpoint.init vars cycletime isVerbose) evs) =
        (statusEvents (run parseInt (Endpoint.init vars cycletime isVerbose) evs).trace).getLast?) ∧
    manageStatus .online (manageStatus .online s) = manageStatus .online s := by
  have hc := statusCoupled_of_reach
    (statusReach_calls calls (Endpoint.init vars cycletime isVerbose))
    (statusCoupled_init vars cycletime isVerbose)
  have hr := statusCoupled_of_reach
    (statusReach_run parseInt evs (Endpoint.init vars cycletime isVerbose))
    (statusCoupled_init vars cycletime isVerbose)
  refine ⟨⟨?_, ?_⟩, ⟨hc.2, hc.1⟩, ⟨hr.2, hr.1⟩, ?_⟩
  · rw [manageStatus_eq]
  · rw [manageStatus_eq]; rfl
  · have : (manageStatus .online s).status = some .online := by rw [manageStatus_eq]
    rw [manageStatus, if_pos this]

/-! ## C9: close after a failed connect attempt -/

theorem Timer.id_timeout (id delay : Nat) : (Timer.timeout id delay).id = id := rfl

theorem timers_after_failure_and_close (parseInt : Value → JSNum) (e : String) (done : Done)
    (s : Endpoint) (ht : timersTracked s = true) :
    (closeConnection done (onConnect parseInt (some e) s).state).timers = [] := by
  obtain ⟨oldValues, status, rip, rd, verbose, ctt, connected, cct, wip, wq, vars, td, conn,
    timers, ticks, pending, nextId, trace, lst⟩ := s
  simp only [timersTracked, List.all_eq_true, Bool.or_eq_true, beq_iff_eq] at ht
  cases conn <;> cases verbose <;> cases ctt <;> cases td <;>
    simp [closeConnection, onConnect, setTimeout, manageStatus_eq, clearTimer_eq, driverCall,
      nextTick, Endpoint.effect, List.filter_filter, List.filter_eq_nil_iff, Timer.id_timeout]
      at ht ⊢ <;>
    (intro a ha; first | (specialize ht a ha; omega) | simp_all)

theorem quiescent_after_failure_and_close (parseInt : Value → JSNum) (e : String)
    (s : Endpoint) (ht : timersTracked s = true) (hf : noConnectInFlight s = true) :
    Quiescent (closeConnection .external (onConnect parseInt (some e) s).state) := by
  refine ⟨timers_after_failure_and_close parseInt e .external s ht, ?_, ?_⟩
  · unfold closeConnection
    simp only []
    split <;> rfl
  · obtain ⟨oldValues, status, rip, rd, verbose, ctt, connected, cct, wip, wq, vars, td, conn,
      timers, ticks, pending, nextId, trace, lst⟩ := s
    simp only [noConnectInFlight, Bool.and_eq_true] at hf
    cases conn <;> cases verbose <;>
      simp [closeConnection, onConnect, setTimeout, manageStatus_eq, clearTimer_eq, driverCall,
        nextTick, Endpoint.effect, noConnectInFlight, List.all_append, hf.1, hf.2,
        (show ∀ c, Pending.leadsToConnect (.doCb c .external) = false from fun _ => rfl),
        (show Task.leadsToConnect (.doCb .external) = false from rfl)]

theorem close_after_failure_quiet (parseInt : Value → JSNum) (e : String)
    (s : Endpoint) (evs : List Event)
    (ht : timersTracked s = true) (hf : noConnectInFlight s = true)
    (hevs : ∀ ev ∈ evs, ev.autonomous = true) :
    Timer.timeout s.nextId 5000 ∈ (onConnect parseInt (some e) s).state.timers ∧
    (closeConnection .external (onConnect parseInt (some e) s).state).timers = [] ∧
    (run parseInt (closeConnection .external (onConnect parseInt (some e) s).state) evs).timers
      = [] ∧
    connectCalls
        (run parseInt (closeConnection .external (onConnect parseInt (some e) s).state) evs).trace
      = connectCalls (closeConnection .external (onConnect parseInt (some e) s).state).trace := by
  have hq := quiescent_after_failure_and_close parseInt e s ht hf
  have hr := quiescent_run parseInt evs _ hq hevs
  refine ⟨?_, hq.1, hr.1.1, hr.2⟩
  simp [onConnect, setTimeout, manageStatus_eq, clearTimer_eq, Endpoint.effect]

theorem timersTracked_of_timersOK (s : Endpoint) (h : TimersOK s) : timersTracked s = true := by
  simp only [timersTracked, List.all_eq_true, Bool.or_eq_true, beq_iff_eq]
  intro x hx
  cases hi : x.isInterval with
  | true => exact Or.inr (h.1 x hx hi).symm
  | false => exact Or.inl (h.2 x hx hi).symm

/-- When the failing attempt is the only connect attempt in flight, the close
is final: let a fresh endpoint reach a state `s` in which one connect attempt
is in flight and no other, let that attempt fail (`onConnect` with an error)
and let `close` follow before the retry fires.  The failure schedules the
retry (5000 ms); after the close no timer is left, neither retry nor poll; and
whatever then happens by itself (timers, queued ticks, driver completions), no
timer appears and `connect()` is not called. -/
theorem close_after_failed_connect_is_final (parseInt : Value → JSNum)
    (vars : List (String × String)) (cycletime : Value) (isVerbose : Bool)
    (before after : List Event) (s : Endpoint) (c : Nat) (e : String)
    (hs : s = run parseInt (Endpoint.init vars cycletime isVerbose) before)
    (hf : onlyConnectInFlight c s = true)
    (ha : ∀ ev ∈ after, ev.autonomous = true) :
    Timer.timeout s.nextId 5000 ∈ (run parseInt s [.connectDone c (some e)]).timers ∧
    (run parseInt s [.connectDone c (some e), .close]).timers = [] ∧
    (run parseInt s (.connectDone c (some e) :: .close :: after)).timers = [] ∧
    connectCalls (run parseInt s (.connectDone c (some e) :: .close :: after)).trace
      = connectCalls (run parseInt s [.connectDone c (some e), .close]).trace := by
  simp only [onlyConnectInFlight, Bool.and_eq_true, decide_eq_true_eq] at hf
  have hok : TimersOK s := hs ▸ timersOK_run parseInt before _ (timersOK_init _ _ _)
  have ht : timersTracked { s with pending := s.pending.erase (.onConnect c) } = true :=
    timersTracked_of_timersOK _ ⟨hok.1, hok.2⟩
  have h := close_after_failure_quiet parseInt e
    { s with pending := s.pending.erase (.onConnect c) } after ht hf.2 ha
  simpa [run, step, complete, hf.1] using h

/-- The previous statement at a fresh endpoint whose first connect attempt
fails: after the close, the cancelled retry timer firing, the drop completing
and a tick change nothing. -/
theorem close_after_failed_connect_is_final_witness :
    (sampleConnecting = run sampleParseInt (Endpoint.init [("A", "DB1,INT0")] (.int 1000) false)
        [.connect, .tick] ∧
      onlyConnectInFlight 0 sampleConnecting = true ∧
      ∀ ev ∈ [Event.timerFires 1, .dropDone 0 .external, .tick], ev.autonomous = true) ∧
    Timer.timeout sampleConnecting.nextId 5000 ∈
      (run sampleParseInt sampleConnecting [.connectDone 0 (some "ECONNREFUSED")]).timers ∧
    (run sampleParseInt sampleConnecting
      [.connectDone 0 (some "ECONNREFUSED"), .close]).timers = [] ∧
    (run sampleParseInt sampleConnecting
      [.connectDone 0 (some "ECONNREFUSED"), .close, .timerFires 1, .dropDone 0 .external,
        .tick]).timers = [] ∧
    connectCalls (run sampleParseInt sampleConnecting
      [.connectDone 0 (some "ECONNREFUSED"), .close, .timerFires 1, .dropDone 0 .external,
        .tick]).trace
      = connectCalls (run sampleParseInt sampleConnecting
          [.connectDone 0 (some "ECONNREFUSED"), .close]).trace :=
  ⟨⟨rfl, by decide, by decide⟩,
    close_after_failed_connect_is_final sampleParseInt [("A", "DB1,INT0")] (.int 1000) false
      [.connect, .tick] [.timerFires 1, .dropDone 0 .external, .tick] sampleConnecting 0
      "ECONNREFUSED" rfl (by decide) (by decide)⟩

/-- C9: a close that races with a forced reconnect is not final.  After
`closeRaceEvents` (a connect attempt failed and scheduled its retry, then
`close` was invoked before the retry fired) no timer is left, neither retry
nor poll.  Yet the `doConnect` that the earlier `connect()` gave the driver as
continuation of the drop still runs: a new connect attempt is started after
the close, its failure schedules a retry timer (5000 ms), and when that fires
`connect()` is executed, without any explicit call. -/
theorem close_race_reconnects :
    retryTimers (run sampleParseInt (Endpoint.init [("A", "DB1,INT0")] (.int 1000) false)
      closeRaceEvents.dropLast) = [.timeout 1 5000] ∧
    (run sampleParseInt (Endpoint.init [("A", "DB1,INT0")] (.int 1000) false)
      closeRaceEvents).timers = [] ∧
    (∀ ev ∈ closeRaceAftermath, ev.autonomous = true) ∧
    Pending.onConnect 2 ∈ (run sampleParseInt
      (Endpoint.init [("A", "DB1,INT0")] (.int 1000) false)
      (closeRaceEvents ++ closeRaceAftermath.take 1)).pending ∧
    retryTimers (run sampleParseInt (Endpoint.init [("A", "DB1,INT0")] (.int 1000) false)
      (closeRaceEvents ++ closeRaceAftermath.take 2)) = [.timeout 3 5000] ∧
    connectCalls (run sampleParseInt (Endpoint.init [("A", "DB1,INT0")] (.int 1000) false)
      (closeRaceEvents ++ closeRaceAftermath)).trace =
      connectCalls (run sampleParseInt (Endpoint.init [("A", "DB1,INT0")] (.int 1000) false)
        closeRaceEvents).trace + 1 :=
  ⟨rfl, rfl, by decide, by decide, rfl, by decide⟩
/-! ## C10: reflexivity of `equals` -/

/-- C10, as stated, fails: `equals(NaN, NaN)` is `false`. -/
theorem equals_nan_nan : equals (.num .nan) (.num .nan) = false := by decide

/-- C10, amended: `equals(a, a)` is `true` for every value `a` other than the
number `NaN` (an array is equal to itself whatever it contains). -/
theorem equals_refl_of_ne_nan (a : Value) (h : a ≠ .num .nan) : equals a a = true := by
  simp [equals, Value.strictEq_self a h]

/-- The amended C10 at an array that contains `NaN`. -/
theorem equals_refl_of_ne_nan_witness :
    Value.arr 7 [.num .nan, .int 1] ≠ .num .nan ∧
      equals (.arr 7 [.num .nan, .int 1]) (.arr 7 [.num .nan, .int 1]) = true :=
  ⟨by simp, equals_refl_of_ne_nan _ (by simp)⟩

/-! ## C11: `equals` on two arrays -/

theorem equalsLoop_iff (xs ys : List Value) (hlen : xs.length = ys.length) :
    equalsLoop xs ys = true ↔
      ∀ i, i < xs.length → (elemAt xs i).strictEq (elemAt ys i) = true := by
  induction xs generalizing ys with
  | nil =>
    cases ys with
    | nil => simp [equalsLoop]
    | cons y ys => simp at hlen
  | cons x xs ih =>
    cases ys with
    | nil => simp at hlen
    | cons y ys =>
      have hlen' : xs.length = ys.length := by simpa using hlen
      constructor
      · intro h i hi
        by_cases hxy : x.strictEq y = true
        · have h' : equalsLoop xs ys = true := by simpa [equalsLoop, hxy] using h
          cases i with
          | zero => simpa [elemAt] using hxy
          | succ j =>
            have := (ih ys hlen').mp h' j (by simpa using hi)
            simpa [elemAt] using this
        · simp [equalsLoop, hxy] at h
      · intro h
        have h0 : x.strictEq y = true := by simpa [elemAt] using h 0 (by simp)
        have hrest : equalsLoop xs ys = true :=
          (ih ys hlen').mpr (fun j hj => by
            have := h (j + 1) (by simpa using hj)
            simpa [elemAt] using this)
        simp [equalsLoop, h0, hrest]

/-- C11: for two distinct arrays (different identities), `equals` is `true`
exactly if they have the same length and at every index the two elements are
identical (`===`).  The comparison does not recurse: when at some index the
two elements are distinct arrays, the result is `false` whatever they contain.
In particular `equals([1,2],[1,2])` is `true` and `equals([1,2],[1,2,3])` is
`false`; and an array is never equal to a value that is not an array. -/
theorem equals_arrays (r r' : Nat) (xs ys : List Value) (b : Value) (hne : r ≠ r') :
    (equals (.arr r xs) (.arr r' ys) = true ↔
      xs.length = ys.length ∧
        ∀ i, i < xs.length → (elemAt xs i).strictEq (elemAt ys i) = true) ∧
    (∀ i p q zs ws, elemAt xs i = .arr p zs → elemAt ys i = .arr q ws → i < xs.length → p ≠ q →
      equals (.arr r xs) (.arr r' ys) = false) ∧
    (equals (.arr r [.int 1, .int 2]) (.arr r' [.int 1, .int 2]) = true ∧
      equals (.arr r [.int 1, .int 2]) (.arr r' [.int 1, .int 2, .int 3]) = false) ∧
    (b.isArray = false → equals (.arr r xs) b = false ∧ equals b (.arr r xs) = false) := by
  have main : equals (.arr r xs) (.arr r' ys) = true ↔
      xs.length = ys.length ∧
        ∀ i, i < xs.length → (elemAt xs i).strictEq (elemAt ys i) = true := by
    by_cases hlen : xs.length = ys.length
    · simp [equals, Value.strictEq, Value.isNullish, hne, hlen, equalsLoop_iff xs ys hlen]
    · simp [equals, Value.strictEq, Value.isNullish, hne, hlen]
  refine ⟨main, ?_, ?_, ?_⟩
  · intro i p q zs ws hx hy hi hpq
    cases h : equals (.arr r xs) (.arr r' ys) with
    | false => rfl
    | true =>
      have := (main.mp h).2 i hi
      rw [hx, hy] at this
      simp [Value.strictEq, hpq] at this
  · constructor
    · simp [equals, Value.strictEq, Value.isNullish, hne, equalsLoop, Value.int, JSNum.ofInt,
        JSNum.strictEq]
    · simp [equals, Value.strictEq, Value.isNullish, hne]
  · intro hb
    cases b <;> simp [Value.isArray] at hb <;>
      simp [equals, Value.strictEq, Value.isNullish]

/-- C11 at the arrays `[[1], NaN]` and `[[1], NaN]` with four distinct
identities, compared with the number 5. -/
theorem equals_arrays_witness :
    (0 : Nat) ≠ 1 ∧
    (equals (.arr 0 [.arr 2 [.int 1], .num .nan]) (.arr 1 [.arr 3 [.int 1], .num .nan]) = true ↔
      [Value.arr 2 [.int 1], .num .nan].length = [Value.arr 3 [.int 1], .num .nan].length ∧
        ∀ i, i < [Value.arr 2 [.int 1], .num .nan].length →
          (elemAt [.arr 2 [.int 1], .num .nan] i).strictEq
            (elemAt [.arr 3 [.int 1], .num .nan] i) = true) ∧
    equals (.arr 0 [.arr 2 [.int 1], .num .nan]) (.arr 1 [.arr 3 [.int 1], .num .nan]) = false ∧
    (equals (.arr 0 [.int 1, .int 2]) (.arr 1 [.int 1, .int 2]) = true ∧
      equals (.arr 0 [.int 1, .int 2]) (.arr 1 [.int 1, .int 2, .int 3]) = false) ∧
    (equals (.arr 0 [.arr 2 [.int 1], .num .nan]) (.int 5) = false ∧
      equals (.int 5) (.arr 0 [.arr 2 [.int 1], .num .nan]) = false) :=
  have h := equals_arrays 0 1 [.arr 2 [.int 1], .num .nan] [.arr 3 [.int 1], .num .nan]
    (.int 5) (by decide)
  ⟨by decide, h.1, h.2.1 0 2 3 [.int 1] [.int 1] rfl rfl (by decide) (by decide), h.2.2.1,
    h.2.2.2 rfl⟩

/-! ## C12: `equals` on absent values -/

/-- C12, counterexample: `null` and `undefined` are both absent, yet
`equals(null, undefined)` and `equals(undefined, null)` are `false`: the
identity test fails and the absence test then answers `false`. -/
theorem equals_null_undefined :
    Value.null.isNullish = true ∧ Value.undefined.isNullish = true ∧
    equals .null .undefined = false ∧ equals .undefined .null = false := by
  simp [equals, Value.strictEq, Value.isNullish]

/-- C12, amended: when at least one of `a`, `b` is absent (`null` or
`undefined`), `equals(a, b)` is `true` exactly if both are `null` or both are
`undefined`.  In particular `equals(null, null)` is `true`, `equals(null, 0)`
is `false`, and an absent value is never equal to a present one. -/
theorem equals_absent (a b : Value) (h : a.isNullish = true ∨ b.isNullish = true) :
    (equals a b = true ↔ (a = .null ∧ b = .null) ∨ (a = .undefined ∧ b = .undefined)) ∧
    equals .null .null = true ∧ equals .null (.int 0) = false ∧
    (a.isNullish ≠ b.isNullish → equals a b = false) := by
  refine ⟨?_, by simp [equals, Value.strictEq], by simp [equals, Value.strictEq, Value.isNullish,
    Value.int], ?_⟩
  · cases a <;> cases b <;> simp [Value.isNullish] at h <;>
      simp [equals, Value.strictEq, Value.isNullish]
  · intro hne
    cases a <;> cases b <;> simp [Value.isNullish] at h hne <;>
      simp [equals, Value.strictEq, Value.isNullish]

/-- C12 (amended) at `undefined` against the empty array: not equal. -/
theorem equals_absent_witness :
    (Value.undefined.isNullish = true ∨ (Value.arr 0 []).isNullish = true) ∧
    (equals .undefined (.arr 0 []) = true ↔
      (Value.undefined = .null ∧ Value.arr 0 [] = .null) ∨
        (Value.undefined = .undefined ∧ Value.arr 0 [] = .undefined)) ∧
    equals .undefined (.arr 0 []) = false :=
  have h := equals_absent .undefined (.arr 0 []) (Or.inl rfl)
  ⟨Or.inl rfl, h.1, h.2.2.2 (by decide)⟩

/-! ## C13: TSAP validation -/

/-- C13: `validateTSAP(x)` on a string answers `true` exactly if the string is
two hexadecimal digits.  Consequently the construction of an endpoint in mode
`tsap` ends at the invalid-TSAP error, with no variable map and no call of
`connect()`, exactly if one of the four TSAP components is not two hexadecimal
digits; otherwise it builds the variable map and queues the connect. -/
theorem tsap_validation (settingsVerbose : Bool) (config : Config) (x : String)
    (hmode : config.connmode = some "tsap") :
    (validateTSAP x = true ↔ twoHexDigits x) ∧
    (OPCDAEndpoint settingsVerbose config = .invalidtsap ↔
      ¬ (twoHexDigits config.localtsaphi ∧ twoHexDigits config.localtsaplo ∧
          twoHexDigits config.remotetsaphi ∧ twoHexDigits config.remotetsaplo)) ∧
    ((OPCDAEndpoint settingsVerbose config).endpoint = none ↔
      OPCDAEndpoint settingsVerbose config = .invalidtsap) ∧
    ((twoHexDigits config.localtsaphi ∧ twoHexDigits config.localtsaplo ∧
          twoHexDigits config.remotetsaphi ∧ twoHexDigits config.remotetsaplo) →
      ∃ o e, OPCDAEndpoint settingsVerbose config = .built o e ∧
        e.vars = createTranslationTable config.vartable ∧ e.ticks = [.doConnect]) := by
  have hm1 : (config.connmode.getD "rack-slot" == "rack-slot") = false := by
    rw [hmode]
    decide
  have hm2 : (config.connmode.getD "rack-slot" == "tsap") = true := by
    rw [hmode]
    decide
  by_cases hv : validateTSAP config.localtsaphi = true ∧ validateTSAP config.localtsaplo = true ∧
      validateTSAP config.remotetsaphi = true ∧ validateTSAP config.remotetsaplo = true
  · have hv' := hv
    simp only [validateTSAP_iff] at hv'
    obtain ⟨h1, h2, h3, h4⟩ := hv
    have hb : ∃ o e, OPCDAEndpoint settingsVerbose config = .built o e ∧
        e.vars = createTranslationTable config.vartable ∧ e.ticks = [.doConnect] := by
      simp only [OPCDAEndpoint, hm1, hm2, h1, h2, h3, h4]
      exact ⟨_, _, rfl, rfl, rfl⟩
    obtain ⟨o, e, hoe, hvars, hticks⟩ := hb
    refine ⟨validateTSAP_iff x, ?_, ?_, fun _ => ⟨o, e, hoe, hvars, hticks⟩⟩
    · rw [hoe]
      simp [hv']
    · rw [hoe]
      simp [Construction.endpoint]
  · have hv' := hv
    simp only [validateTSAP_iff] at hv'
    have hf : OPCDAEndpoint settingsVerbose config = .invalidtsap := by
      simp only [OPCDAEndpoint, hm1, hm2]
      by_cases h1 : validateTSAP config.localtsaphi = true
      · by_cases h2 : validateTSAP config.localtsaplo = true
        · by_cases h3 : validateTSAP config.remotetsaphi = true
          · by_cases h4 : validateTSAP config.remotetsaplo = true
            · exact absurd ⟨h1, h2, h3, h4⟩ hv
            · simp [h1, h2, h3, h4]
          · simp [h1, h2, h3]
        · simp [h1, h2]
      · simp [h1]
    refine ⟨validateTSAP_iff x, ?_, ?_, fun h => absurd h hv'⟩
    · rw [hf]
      simp [hv']
    · rw [hf]
      simp [Construction.endpoint]

/-- C13 at the sample configuration with the low local component replaced by
the single digit `0`, and at the string `0g`: construction fails. -/
theorem tsap_validation_witness :
    ({ sampleTsapConfig with localtsaplo := "0" } : Config).connmode = some "tsap" ∧
    validateTSAP "0g" = false ∧ validateTSAP "0A" = true ∧
    OPCDAEndpoint false { sampleTsapConfig with localtsaplo := "0" } = .invalidtsap ∧
    (OPCDAEndpoint false { sampleTsapConfig with localtsaplo := "0" }).endpoint = none := by
  have h := tsap_validation false { sampleTsapConfig with localtsaplo := "0" } "0g" rfl
  have hs : ¬ twoHexDigits "0" := by
    rintro ⟨c, d, hcd, _⟩
    cases hcd
  have hg : ¬ twoHexDigits "0g" := by
    rintro ⟨c, d, hcd, hc, hd⟩
    cases hcd
    exact absurd hd (by decide)
  have hA : validateTSAP "0A" = true :=
    (tsap_validation false { sampleTsapConfig with localtsaplo := "0" } "0A" rfl).1.mpr
      ⟨_, _, rfl, by decide, by decide⟩
  have hinv := h.2.1.mpr (fun hall => hs hall.2.1)
  exact ⟨rfl, by simpa using mt h.1.mp hg, hA, hinv, h.2.2.1.mpr hinv⟩

/-! ## C14: TSAP combination -/

/-- C14: when the four TSAP components of a configuration in mode `tsap` pass
`validateTSAP`, the constructor runs to its end and the connection options
hold `localTSAP = 256 * hex(localtsaphi) + hex(localtsaplo)` and
`remoteTSAP = 256 * hex(remotetsaphi) + hex(remotetsaplo)`.  Both are integers
in 0..65535, and each pair of components is recovered from its value as the
quotient and the remainder of the division by 256. -/
theorem tsap_combination (settingsVerbose : Bool) (config : Config)
    (hmode : config.connmode = some "tsap")
    (h1 : validateTSAP config.localtsaphi = true) (h2 : validateTSAP config.localtsaplo = true)
    (h3 : validateTSAP config.remotetsaphi = true) (h4 : validateTSAP config.remotetsaplo = true) :
    ∃ o e loc rem, OPCDAEndpoint settingsVerbose config = .built o e ∧
      loc = 256 * hexByte config.localtsaphi + hexByte config.localtsaplo ∧
      rem = 256 * hexByte config.remotetsaphi + hexByte config.remotetsaplo ∧
      o.localTSAP = some (.ofInt (loc : Nat)) ∧ o.remoteTSAP = some (.ofInt (rem : Nat)) ∧
      loc ≤ 65535 ∧ rem ≤ 65535 ∧
      loc / 256 = hexByte config.localtsaphi ∧ loc % 256 = hexByte config.localtsaplo ∧
      rem / 256 = hexByte config.remotetsaphi ∧ rem % 256 = hexByte config.remotetsaplo := by
  have hm1 : (config.connmode.getD "rack-slot" == "rack-slot") = false := by
    rw [hmode]
    decide
  have hm2 : (config.connmode.getD "rack-slot" == "tsap") = true := by
    rw [hmode]
    decide
  obtain ⟨hl, bl1, bl2⟩ := tsap_pair _ _ h1 h2
  obtain ⟨hr, br1, br2⟩ := tsap_pair _ _ h3 h4
  have hb : ∃ o e, OPCDAEndpoint settingsVerbose config = .built o e ∧
      o.localTSAP = some (((parseInt16 config.localtsaphi).shl 8).add
        (parseInt16 config.localtsaplo)) ∧
      o.remoteTSAP = some (((parseInt16 config.remotetsaphi).shl 8).add
        (parseInt16 config.remotetsaplo)) := by
    simp only [OPCDAEndpoint, hm1, hm2, h1, h2, h3, h4]
    exact ⟨_, _, rfl, rfl, rfl⟩
  obtain ⟨o, e, hoe, ho1, ho2⟩ := hb
  rw [hl] at ho1
  rw [hr] at ho2
  exact ⟨o, e, _, _, hoe, rfl, rfl, ho1, ho2, by omega, by omega, by omega, by omega, by omega,
    by omega⟩

/-- C14 at the sample configuration: local TSAP `01 00` gives 256, remote TSAP
`03 0A` gives 778. -/
theorem tsap_combination_witness :
    sampleTsapConfig.connmode = some "tsap" ∧
    validateTSAP sampleTsapConfig.localtsaphi = true ∧
    validateTSAP sampleTsapConfig.localtsaplo = true ∧
    validateTSAP sampleTsapConfig.remotetsaphi = true ∧
    validateTSAP sampleTsapConfig.remotetsaplo = true ∧
    (OPCDAEndpoint false sampleTsapConfig).connOpts.bind ConnOpts.localTSAP =
      some (.ofInt 256) ∧
    (OPCDAEndpoint false sampleTsapConfig).connOpts.bind ConnOpts.remoteTSAP =
      some (.ofInt 778) := by
  have v1 : validateTSAP sampleTsapConfig.localtsaphi = true :=
    (validateTSAP_iff _).mpr ⟨_, _, rfl, by decide, by decide⟩
  have v2 : validateTSAP sampleTsapConfig.localtsaplo = true :=
    (validateTSAP_iff _).mpr ⟨_, _, rfl, by decide, by decide⟩
  have v3 : validateTSAP sampleTsapConfig.remotetsaphi = true :=
    (validateTSAP_iff _).mpr ⟨_, _, rfl, by decide, by decide⟩
  have v4 : validateTSAP sampleTsapConfig.remotetsaplo = true :=
    (validateTSAP_iff _).mpr ⟨_, _, rfl, by decide, by decide⟩
  obtain ⟨o, e, loc, rem, hoe, hloc, hrem, h5, h6, -⟩ :=
    tsap_combination false sampleTsapConfig rfl v1 v2 v3 v4
  have e1 : loc = 256 := by rw [hloc]; decide
  have e2 : rem = 778 := by rw [hrem]; decide
  subst e1 e2
  refine ⟨rfl, v1, v2, v3, v4, ?_, ?_⟩
  · rw [hoe]
    exact h5
  · rw [hoe]
    exact h6

/-! ## C15: the queue flush of a successful connect completion -/

/-- C15, counterexample: two successful connect completions that find the
write queue non-empty and dispatch nothing.  In the first run the variable map
is empty and `onConnect` returns after the warning; in the second the endpoint
was closed while the attempt was in flight, `node._conn` is `null` and
`onConnect` throws before it reaches `writeNext()`.  Both leave the endpoint
connected with the request still queued. -/
theorem connect_success_without_flush :
    ((run sampleParseInt (Endpoint.init [] (.int 1000) false)
        [.connect, .tick, .writeVar (sampleWrite 1)]).writeQueue = [sampleWrite 1] ∧
      Pending.onConnect 0 ∈ (run sampleParseInt (Endpoint.init [] (.int 1000) false)
        [.connect, .tick, .writeVar (sampleWrite 1)]).pending ∧
      (run sampleParseInt (Endpoint.init [] (.int 1000) false)
        [.connect, .tick, .writeVar (sampleWrite 1), .connectDone 0 none]).connected = true ∧
      (run sampleParseInt (Endpoint.init [] (.int 1000) false)
        [.connect, .tick, .writeVar (sampleWrite 1), .connectDone 0 none]).writeQueue =
          [sampleWrite 1] ∧
      dispatched (run sampleParseInt (Endpoint.init [] (.int 1000) false)
        [.connect, .tick, .writeVar (sampleWrite 1), .connectDone 0 none]).trace = []) ∧
    ((run sampleParseInt (Endpoint.init [("A", "DB1,INT0")] (.int 1000) false)
        [.connect, .tick, .writeVar (sampleWrite 1), .close, .dropDone 0 .external]).writeQueue =
          [sampleWrite 1] ∧
      Pending.onConnect 0 ∈ (run sampleParseInt (Endpoint.init [("A", "DB1,INT0")] (.int 1000) false)
        [.connect, .tick, .writeVar (sampleWrite 1), .close, .dropDone 0 .external]).pending ∧
      (run sampleParseInt (Endpoint.init [("A", "DB1,INT0")] (.int 1000) false)
        [.connect, .tick, .writeVar (sampleWrite 1), .close, .dropDone 0 .external,
          .connectDone 0 none]).connected = true ∧
      (run sampleParseInt (Endpoint.init [("A", "DB1,INT0")] (.int 1000) false)
        [.connect, .tick, .writeVar (sampleWrite 1), .close, .dropDone 0 .external,
          .connectDone 0 none]).writeQueue = [sampleWrite 1] ∧
      dispatched (run sampleParseInt (Endpoint.init [("A", "DB1,INT0")] (.int 1000) false)
        [.connect, .tick, .writeVar (sampleWrite 1), .close, .dropDone 0 .external,
          .connectDone 0 none]).trace = []) :=
  ⟨⟨rfl, by decide, rfl, rfl, rfl⟩, ⟨rfl, by decide, rfl, rfl, rfl⟩⟩

/-- C15, amended: when a successful connect completion arrives at an endpoint
that has a non-empty variable map and holds a connection object, and it finds
the write queue non-empty, the completion returns with the head request
removed from the queue and handed to the driver (the last write dispatched),
with `writeInProgress` set. -/
theorem connect_success_flushes_head (parseInt : Value → JSNum) (s : Endpoint) (c c' : Nat)
    (w : WriteObj) (rest : List WriteObj)
    (hpend : Pending.onConnect c ∈ s.pending) (hconn : s.conn = some c')
    (hvars : s.vars ≠ []) (hq : s.writeQueue = w :: rest) :
    ∃ s', step parseInt s (.connectDone c none) = .ok s' ∧ s'.writeQueue = rest ∧
      dispatched s'.trace = dispatched s.trace ++ [w] ∧ s'.writeInProgress = true ∧
      Pending.onWritten c' ∈ s'.pending := by
  have hstep : step parseInt s (.connectDone c none) =
      onConnect parseInt none { s with pending := s.pending.erase (.onConnect c) } := by
    simp [step, complete, hpend]
  obtain ⟨s1, h1, hq1, hc1, hconn1, hd1, -⟩ :=
    onConnect_success_eq parseInt { s with pending := s.pending.erase (.onConnect c) } c'
      hconn hvars
  obtain ⟨tm, td, ct, nid, tr, hf⟩ := updateCycleTime_frame parseInt s.currentCycleTime s1
  have hdu := updateCycleTime_dispatched parseInt s.currentCycleTime s1
  obtain ⟨s', hw, hq', ht', hwip, hp', -⟩ :=
    writeNext_dispatches (updateCycleTime parseInt s.currentCycleTime s1).2 c' w rest
      (by rw [hf]; exact hconn1) (by rw [hf]; exact hq1.trans hq) (by rw [hf]; exact hc1)
  refine ⟨s', by rw [hstep, h1]; exact hw, hq', ?_, hwip, ?_⟩
  · rw [ht', dispatched, List.filterMap_append, ← dispatched, hdu, hd1]
    rfl
  · rw [hp']
    simp

/-- C15 (amended) at an endpoint with one variable whose first connect attempt
completes with two writes queued: the first is dispatched, the second stays
queued. -/
theorem connect_success_flushes_head_witness :
    (Pending.onConnect 0 ∈ (run sampleParseInt sampleConnecting
        [.writeVar (sampleWrite 1), .writeVar (sampleWrite 2)]).pending ∧
      (run sampleParseInt sampleConnecting
        [.writeVar (sampleWrite 1), .writeVar (sampleWrite 2)]).conn = some 0 ∧
      (run sampleParseInt sampleConnecting
        [.writeVar (sampleWrite 1), .writeVar (sampleWrite 2)]).vars ≠ [] ∧
      (run sampleParseInt sampleConnecting
        [.writeVar (sampleWrite 1), .writeVar (sampleWrite 2)]).writeQueue =
          sampleWrite 1 :: [sampleWrite 2]) ∧
    ∃ s', step sampleParseInt (run sampleParseInt sampleConnecting
        [.writeVar (sampleWrite 1), .writeVar (sampleWrite 2)]) (.connectDone 0 none) = .ok s' ∧
      s'.writeQueue = [sampleWrite 2] ∧
      dispatched s'.trace = dispatched (run sampleParseInt sampleConnecting
        [.writeVar (sampleWrite 1), .writeVar (sampleWrite 2)]).trace ++ [sampleWrite 1] ∧
      s'.writeInProgress = true ∧ Pending.onWritten 0 ∈ s'.pending :=
  ⟨⟨by decide, rfl, by decide, rfl⟩,
    connect_success_flushes_head sampleParseInt _ 0 0 (sampleWrite 1) [sampleWrite 2]
      (by decide) rfl (by decide) rfl⟩

/-! ## C16: failed connect completions -/

theorem retryTimers_after_failure (s : Endpoint) (h : TimersOK s) (d : Nat)
    (st : Option Status) (tr : List Effect) (cn : Bool) :
    retryTimers
      ({ (setTimeout d { clearTimer s.connectTimeoutTimer s with
            status := st, trace := tr, connected := cn }).2 with
          connectTimeoutTimer := some s.nextId }) = [.timeout s.nextId d] := by
  have hc := clearTimer_ctt_timers s h
  have hnil : (clearTimer s.connectTimeoutTimer s).timers.filter (fun t => !t.isInterval) = [] := by
    rw [List.filter_eq_nil_iff]
    intro x hx
    simp [(hc x hx).1]
  have hn : (clearTimer s.connectTimeoutTimer s).nextId = s.nextId := by
    rw [clearTimer_eq]
  have ht : (Timer.timeout s.nextId d).isInterval = false := rfl
  simp [retryTimers, setTimeout, hnil, hn, ht]

/-- C16: in every state a fresh endpoint reaches, a failed connect completion
returns with the status `offline`, the endpoint not connected and the error
reported once (after the status event, if the status changed); the previous
retry timer is cancelled, and exactly one retry timer is pending afterwards,
the new one, with a delay of 5000 ms, whatever happened before. -/
theorem failed_connect_schedules_retry (parseInt : Value → JSNum)
    (vars : List (String × String)) (cycletime : Value) (isVerbose : Bool) (evs : List Event)
    (s : Endpoint) (c : Nat) (e : String)
    (hs : s = run parseInt (Endpoint.init vars cycletime isVerbose) evs)
    (hpend : Pending.onConnect c ∈ s.pending) :
    ∃ s', step parseInt s (.connectDone c (some e)) = .ok s' ∧
      s'.status = some .offline ∧ s'.connected = false ∧
      s'.trace = s.trace ++
        (if s.status = some .offline then [] else [.emit "__STATUS__" (.status .offline)]) ++
        [.error (.onconnect e)] ∧
      retryTimers s' = [.timeout s.nextId 5000] ∧ s'.connectTimeoutTimer = some s.nextId := by
  have hok : TimersOK s :=
    hs ▸ timersOK_run parseInt evs _ (timersOK_init vars cycletime isVerbose)
  have hok' : TimersOK { s with pending := s.pending.erase (.onConnect c) } := hok
  have hr := retryTimers_after_failure { s with pending := s.pending.erase (.onConnect c) } hok'
    5000 (some .offline)
    (s.trace ++ (if s.status = some .offline then []
      else [.emit "__STATUS__" (.status .offline)]) ++ [.error (.onconnect e)]) false
  have heq : step parseInt s (.connectDone c (some e)) = .ok
      ({ (setTimeout 5000 { clearTimer s.connectTimeoutTimer
            { s with pending := s.pending.erase (.onConnect c) } with
            status := some .offline,
            trace := s.trace ++ (if s.status = some .offline then []
              else [.emit "__STATUS__" (.status .offline)]) ++ [.error (.onconnect e)],
            connected := false }).2 with
          connectTimeoutTimer := some s.nextId }) := by
    simp [step, complete, hpend, onConnect, manageStatus_eq, clearTimer_eq, Endpoint.effect,
      setTimeout]
  exact ⟨_, heq, rfl, rfl, rfl, hr, rfl⟩

/-- C16 at the second failure in a row of an endpoint: the retry timer of the
first failure has fired, the connection was dropped and the second attempt
fails; one retry timer is pending, the new one. -/
theorem failed_connect_schedules_retry_witness :
    (run sampleParseInt sampleConnecting
        [.connectDone 0 (some "refused"), .timerFires 1, .dropDone 0 .doConnect] =
      run sampleParseInt (Endpoint.init [("A", "DB1,INT0")] (.int 1000) false)
        [.connect, .tick, .connectDone 0 (some "refused"), .timerFires 1,
          .dropDone 0 .doConnect] ∧
      Pending.onConnect 2 ∈ (run sampleParseInt sampleConnecting
        [.connectDone 0 (some "refused"), .timerFires 1, .dropDone 0 .doConnect]).pending) ∧
    ∃ s', step sampleParseInt (run sampleParseInt sampleConnecting
        [.connectDone 0 (some "refused"), .timerFires 1, .dropDone 0 .doConnect])
        (.connectDone 2 (some "refused")) = .ok s' ∧
      s'.status = some .offline ∧ s'.connected = false ∧
      s'.trace = (run sampleParseInt sampleConnecting
          [.connectDone 0 (some "refused"), .timerFires 1, .dropDone 0 .doConnect]).trace ++
        (if (run sampleParseInt sampleConnecting
          [.connectDone 0 (some "refused"), .timerFires 1, .dropDone 0 .doConnect]).status =
            some .offline then [] else [.emit "__STATUS__" (.status .offline)]) ++
        [.error (.onconnect "refused")] ∧
      retryTimers s' = [.timeout (run sampleParseInt sampleConnecting
        [.connectDone 0 (some "refused"), .timerFires 1, .dropDone 0 .doConnect]).nextId 5000] ∧
      s'.connectTimeoutTimer = some (run sampleParseInt sampleConnecting
        [.connectDone 0 (some "refused"), .timerFires 1, .dropDone 0 .doConnect]).nextId :=
  ⟨⟨rfl, by decide⟩,
    failed_connect_schedules_retry sampleParseInt [("A", "DB1,INT0")] (.int 1000) false
      [.connect, .tick, .connectDone 0 (some "refused"), .timerFires 1, .dropDone 0 .doConnect]
      _ 2 "refused" rfl (by decide)⟩
/-! ## C17: read completions with an error -/

/-- C17: a read completion with an error, arriving at an endpoint that holds
its connection object while connected, returns with the status `badvalues`
and the error reported (after the status event, if the status changed, and
after the catch-up read of a deferred cycle, if there is one).  The snapshot
is the same for every key, and no value event (all-values, per-key, changed,
all-changed) is emitted. -/
theorem failed_read_reports (parseInt : Value → JSNum) (s : Endpoint) (c c' : Nat)
    (values : Obj) (hpend : Pending.cycleCallback c ∈ s.pending)
    (hconn : s.connected = true → s.conn = some c') :
    ∃ s', step parseInt s (.readDone c true values) = .ok s' ∧
      s'.status = some .badvalues ∧ (∀ key, s'.oldValues key = s.oldValues key) ∧
      s'.trace = s.trace ++
        (if s.readDeferred ≠ 0 ∧ s.connected = true then [.readAllItems c'] else []) ++
        (if s.status = some .badvalues then []
          else [.emit "__STATUS__" (.status .badvalues)]) ++
        [.error .badvalues] ∧
      valueEvents s'.trace = valueEvents s.trace := by
  have hstep : step parseInt s (.readDone c true values) =
      cycleCallback true values { s with pending := s.pending.erase (.cycleCallback c) } := by
    simp [step, complete, hpend]
  have main : ∃ s', step parseInt s (.readDone c true values) = .ok s' ∧
      s'.status = some .badvalues ∧ s'.oldValues = s.oldValues ∧
      s'.trace = s.trace ++
        (if s.readDeferred ≠ 0 ∧ s.connected = true then [.readAllItems c'] else []) ++
        (if s.status = some .badvalues then []
          else [.emit "__STATUS__" (.status .badvalues)]) ++
        [.error .badvalues] := by
    rw [hstep]
    by_cases hd : s.readDeferred ≠ 0 ∧ s.connected = true
    · have hc := hconn hd.2
      have heq : cycleCallback true values
          { s with pending := s.pending.erase (.cycleCallback c) } =
          .ok ((manageStatus .badvalues
          { driverCall (.readAllItems c') (.cycleCallback c')
              { s with pending := s.pending.erase (.cycleCallback c), readInProgress := false } with
            readInProgress := true, readDeferred := 0 }).effect (.error .badvalues)) := by
        simp [cycleCallback, hd.1, hd.2, doCycle, hc, Outcome.andThen, cycleReport]
      refine ⟨_, heq, ?_, ?_, ?_⟩
      · simp [manageStatus_eq, Endpoint.effect]
      · simp [manageStatus_eq, Endpoint.effect, driverCall]
      · simp [manageStatus_eq, Endpoint.effect, driverCall, hd.1, hd.2]
    · have hb : (s.readDeferred != 0 && s.connected) = false := by
        rw [not_and_or] at hd
        rcases hd with hd | hd
        · simp at hd; simp [hd]
        · simp at hd; simp [hd]
      have heq : cycleCallback true values
          { s with pending := s.pending.erase (.cycleCallback c) } =
          .ok ((manageStatus .badvalues
          { s with pending := s.pending.erase (.cycleCallback c),
                   readInProgress := false }).effect (.error .badvalues)) := by
        simp [cycleCallback, hb, Outcome.andThen, cycleReport]
      refine ⟨_, heq, ?_, ?_, ?_⟩
      · simp [manageStatus_eq, Endpoint.effect]
      · simp [manageStatus_eq, Endpoint.effect]
      · simp [manageStatus_eq, Endpoint.effect, hd]
  obtain ⟨s', h1, h2, h3, h4⟩ := main
  refine ⟨s', h1, h2, fun key => by rw [h3], h4, ?_⟩
  rw [h4]
  by_cases hd : s.readDeferred ≠ 0 ∧ s.connected = true <;>
    by_cases hst : s.status = some .badvalues <;>
    simp [valueEvents, List.filter_append, hd, hst]

/-- C17 at the sample endpoint whose second cycle is in flight: the error sets
the status `badvalues`, and the snapshot `{A: 1, B: 2}` stays. -/
theorem failed_read_reports_witness :
    (Pending.cycleCallback 0 ∈ sampleSecondCycle.pending ∧
      (sampleSecondCycle.connected = true → sampleSecondCycle.conn = some 0)) ∧
    ∃ s', step sampleParseInt sampleSecondCycle (.readDone 0 true []) = .ok s' ∧
      s'.status = some .badvalues ∧
      (∀ key, s'.oldValues key = sampleSecondCycle.oldValues key) ∧
      s'.trace = sampleSecondCycle.trace ++
        (if sampleSecondCycle.readDeferred ≠ 0 ∧ sampleSecondCycle.connected = true
          then [.readAllItems 0] else []) ++
        (if sampleSecondCycle.status = some .badvalues then []
          else [.emit "__STATUS__" (.status .badvalues)]) ++
        [.error .badvalues] ∧
      valueEvents s'.trace = valueEvents sampleSecondCycle.trace :=
  ⟨⟨by decide, by decide⟩,
    failed_read_reports sampleParseInt sampleSecondCycle 0 0 [] (by decide) (by decide)⟩
/-! ## C18: the catch-up read of a read completion -/

theorem outcome_ok_or_threw (o : Outcome) : o = .ok o.state ∨ o = .threw o.state := by
  cases o
  · exact Or.inl rfl
  · exact Or.inr rfl

/-- C18: when a read completion (with or without error) arrives while the
connection is up and its connection object is held, the counter of deferred
cycles is 0 afterwards and `connect()` is not called.  If that counter was
greater than 0, exactly one new bulk read was handed to the driver and the
in-flight flag is set again; if it was 0, no read was issued and the in-flight
flag is clear.  The completion returns, except that a successful one throws
when the per-key emit does (a changed key `error` without listener), which is
after the counters were set; with an error, or with distinct keys and no such
emit, it returns. -/
theorem read_completion_catches_up (parseInt : Value → JSNum) (s : Endpoint) (c c' : Nat)
    (err : Bool) (values : Obj) (hpend : Pending.cycleCallback c ∈ s.pending)
    (hconnected : s.connected = true) (hconn : s.conn = some c') :
    ∃ s', (step parseInt s (.readDone c err values) = .ok s' ∨
        step parseInt s (.readDone c err values) = .threw s') ∧
      s'.readDeferred = 0 ∧ connectCalls s'.trace = connectCalls s.trace ∧
      (0 < s.readDeferred →
        readsIssued s'.trace = readsIssued s.trace ++ [c'] ∧ s'.readInProgress = true ∧
          Pending.cycleCallback c' ∈ s'.pending) ∧
      (s.readDeferred = 0 →
        readsIssued s'.trace = readsIssued s.trace ∧ s'.readInProgress = false) ∧
      (err = true → step parseInt s (.readDone c err values) = .ok s') ∧
      ((objectKeys values).Nodup → ¬ emitThrows values s →
        step parseInt s (.readDone c err values) = .ok s') := by
  have hstep : step parseInt s (.readDone c err values) =
      cycleCallback err values { s with pending := s.pending.erase (.cycleCallback c) } := by
    simp [step, complete, hpend]
  rw [hstep]
  have key : ∀ s0 : Endpoint,
      cycleCallback err values { s with pending := s.pending.erase (.cycleCallback c) } =
        cycleReport err values s0 →
      s0.oldValues = s.oldValues → s0.errorListeners = s.errorListeners →
      (cycleReport err values s0 = .ok (cycleReport err values s0).state ∨
        cycleReport err values s0 = .threw (cycleReport err values s0).state) ∧
      (err = true → cycleReport err values s0 = .ok (cycleReport err values s0).state) ∧
      ((objectKeys values).Nodup → ¬ emitThrows values s →
        cycleReport err values s0 = .ok (cycleReport err values s0).state) := by
    intro s0 _ ho hl
    refine ⟨outcome_ok_or_threw _, ?_, ?_⟩
    · intro he
      subst he
      simp [cycleReport]
    · intro hk hne
      cases err with
      | true => simp [cycleReport]
      | false =>
        have hne0 : ¬ emitThrows values s0 := fun h =>
          hne ((emitThrows_congr values s s0 ho hl).mp h)
        obtain ⟨s1, h1, -⟩ := cycleReport_success values s0 hk hne0
        rw [h1]
        rfl
  by_cases hd : s.readDeferred = 0
  · have heq : cycleCallback err values
        { s with pending := s.pending.erase (.cycleCallback c) } = cycleReport err values
        { s with pending := s.pending.erase (.cycleCallback c), readInProgress := false } := by
      simp [cycleCallback, hd, Outcome.andThen]
    obtain ⟨st, ov, tr, hf⟩ := cycleReport_frame err values
      { s with pending := s.pending.erase (.cycleCallback c), readInProgress := false }
    have hr := cycleReport_readsIssued err values
      { s with pending := s.pending.erase (.cycleCallback c), readInProgress := false }
    have hcc := cycleReport_connectCalls err values
      { s with pending := s.pending.erase (.cycleCallback c), readInProgress := false }
    obtain ⟨k1, k2, k3⟩ := key _ heq rfl rfl
    rw [heq]
    refine ⟨_, k1, ?_, hcc, fun h => absurd hd (by omega), fun _ => ⟨hr, ?_⟩, k2, k3⟩
    · rw [hf]; exact hd
    · rw [hf]
  · have heq : cycleCallback err values
        { s with pending := s.pending.erase (.cycleCallback c) } = cycleReport err values
        { driverCall (.readAllItems c') (.cycleCallback c')
            { s with pending := s.pending.erase (.cycleCallback c), readInProgress := false } with
          readInProgress := true, readDeferred := 0 } := by
      simp [cycleCallback, hd, hconnected, doCycle, hconn, Outcome.andThen]
    obtain ⟨st, ov, tr, hf⟩ := cycleReport_frame err values
      { driverCall (.readAllItems c') (.cycleCallback c')
          { s with pending := s.pending.erase (.cycleCallback c), readInProgress := false } with
        readInProgress := true, readDeferred := 0 }
    have hr := cycleReport_readsIssued err values
      { driverCall (.readAllItems c') (.cycleCallback c')
          { s with pending := s.pending.erase (.cycleCallback c), readInProgress := false } with
        readInProgress := true, readDeferred := 0 }
    have hcc := cycleReport_connectCalls err values
      { driverCall (.readAllItems c') (.cycleCallback c')
          { s with pending := s.pending.erase (.cycleCallback c), readInProgress := false } with
        readInProgress := true, readDeferred := 0 }
    obtain ⟨k1, k2, k3⟩ := key _ heq rfl rfl
    rw [heq]
    refine ⟨_, k1, ?_, ?_, fun _ => ⟨?_, ?_, ?_⟩, fun h => absurd h hd, k2, k3⟩
    · rw [hf]
    · rw [hcc]
      simp [driverCall, connectCalls_append]
      simp [connectCalls, isConnectCall]
    · rw [hr]
      simp [driverCall, readsIssued_append]
      simp [readsIssued]
    · rw [hf]
    · rw [hf]
      simp [driverCall]

/-- C18 at the sample endpoint whose second cycle is in flight, after the poll
timer fired once more (deferred counter 1): the completion issues the catch-up
read and returns. -/
theorem read_completion_catches_up_witness :
    (Pending.cycleCallback 0 ∈ (run sampleParseInt sampleSecondCycle [.trigger]).pending ∧
      (run sampleParseInt sampleSecondCycle [.trigger]).connected = true ∧
      (run sampleParseInt sampleSecondCycle [.trigger]).conn = some 0 ∧
      (run sampleParseInt sampleSecondCycle [.trigger]).readDeferred = 1) ∧
    ∃ s', step sampleParseInt (run sampleParseInt sampleSecondCycle [.trigger])
        (.readDone 0 false [("A", .int 1), ("B", .int 2)]) = .ok s' ∧
      s'.readDeferred = 0 ∧
      connectCalls s'.trace =
        connectCalls (run sampleParseInt sampleSecondCycle [.trigger]).trace ∧
      readsIssued s'.trace =
        readsIssued (run sampleParseInt sampleSecondCycle [.trigger]).trace ++ [0] ∧
      s'.readInProgress = true ∧ Pending.cycleCallback 0 ∈ s'.pending :=
  have h := read_completion_catches_up sampleParseInt
    (run sampleParseInt sampleSecondCycle [.trigger]) 0 0 false
    [("A", .int 1), ("B", .int 2)] (by decide) rfl rfl
  ⟨⟨by decide, rfl, rfl, rfl⟩,
    h.elim fun s' hs' =>
      ⟨s', hs'.2.2.2.2.2.2 (by decide) (fun ht => absurd ht.2.1 (by decide)), hs'.2.1,
        hs'.2.2.1, (hs'.2.2.2.1 (by decide)).1, (hs'.2.2.2.1 (by decide)).2.1,
        (hs'.2.2.2.1 (by decide)).2.2⟩⟩

/-! ## C19: processing the same read result twice -/

/-- C19, counterexample: two read results processed twice in a row by the
sample connected endpoint.  With `{A: NaN}` the second run emits the per-key
event, the changed event and the all-changed event again, and after the first
run the snapshot value of `A` is not `equals()` to `values.A`.  With
`{error: 1}`, on which nobody listens, the first run throws at the per-key
emit before the snapshot is updated, and so does the second run after emitting
the per-key event again. -/
theorem cycle_twice_not_idempotent :
    ((cycleCallback false [("A", .num .nan)]
        (cycleCallback false [("A", .num .nan)] sampleOnline).state).state.trace =
      (cycleCallback false [("A", .num .nan)] sampleOnline).state.trace ++
        [.emit "__ALL__" (.values [("A", .num .nan)]),
         .emit "A" (.value (.num .nan)),
         .emit "__CHANGED__" (.keyValue "A" (.num .nan)),
         .emit "__ALL_CHANGED__" (.values [("A", .num .nan)])] ∧
      equals ((cycleCallback false [("A", .num .nan)] sampleOnline).state.oldValues "A")
        (getProp [("A", .num .nan)] "A") = false) ∧
    (sampleOnline.errorListeners = 0 ∧
      (∃ s', cycleCallback false [("error", .int 1)] sampleOnline = .threw s') ∧
      equals ((cycleCallback false [("error", .int 1)] sampleOnline).state.oldValues "error")
        (getProp [("error", .int 1)] "error") = false ∧
      (cycleCallback false [("error", .int 1)]
        (cycleCallback false [("error", .int 1)] sampleOnline).state).state.trace =
      (cycleCallback false [("error", .int 1)] sampleOnline).state.trace ++
        [.emit "__ALL__" (.values [("error", .int 1)]),
         .emit "error" (.value (.int 1))]) :=
  ⟨⟨by rfl, by decide⟩, ⟨rfl, ⟨_, rfl⟩, by decide, by rfl⟩⟩

/-- C19, amended: for every snapshot and every successful read result with
distinct keys none of whose values is the number `NaN`, unless the per-key
emit throws (`error` is a changed key and no listener is registered for
`error`), at an endpoint that holds its connection object while connected:
both runs return; processing the result a second time right after the first
emits only the all-values event and leaves the snapshot as it is; after the
first run the snapshot holds, for every key of the result, a value that is
`equals()` to the value read, and every other key keeps its previous snapshot
value. -/
theorem cycle_twice_idempotent (values : Obj) (s : Endpoint) (c : Nat)
    (hkeys : (objectKeys values).Nodup) (hconn : s.connected = true → s.conn = some c)
    (hnan : ∀ key ∈ objectKeys values, getProp values key ≠ .num .nan)
    (hne : ¬ emitThrows values s) :
    ∃ s1 s2, cycleCallback false values s = .ok s1 ∧ cycleCallback false values s1 = .ok s2 ∧
      s2.trace = s1.trace ++ [.emit "__ALL__" (.values values)] ∧
      (∀ key, s2.oldValues key = s1.oldValues key) ∧
      (∀ key ∈ objectKeys values, equals (s1.oldValues key) (getProp values key) = true) ∧
      (∀ key, key ∉ objectKeys values → s1.oldValues key = s.oldValues key) := by
  obtain ⟨s0, h0, ho0, hd0, hcd0, hcn0, hl0, -, -⟩ := cycleCallback_success_eq values s c hconn
  have hne0 : ¬ emitThrows values s0 := fun h =>
    hne ((emitThrows_congr values s s0 ho0 hl0).mp h)
  obtain ⟨s1, h1, -, hold1, hst1, ov, tr, hf1⟩ := cycleReport_success values s0 hkeys hne0
  rw [ho0] at hold1
  have hsame : ∀ key ∈ objectKeys values,
      equals (s1.oldValues key) (getProp values key) = true := by
    intro key hk
    rw [hold1 key]
    by_cases hch : keyChanged s.oldValues values key = true
    · simp [hk, hch, equals, Value.strictEq_self _ (hnan key hk)]
    · rw [if_neg (fun h => hch h.2)]
      simpa [keyChanged] using hch
  have hno : ∀ key ∈ objectKeys values, keyChanged s1.oldValues values key = false := by
    intro key hk
    simp [keyChanged, hsame key hk]
  have hconn1 : s1.connected = true → s1.conn = some c := by
    rw [hf1]
    intro h
    have h' : s0.connected = true := h
    rw [hcd0] at h'
    exact hcn0.trans (hconn h')
  have hd1 : (s1.readDeferred != 0 && s1.connected) = false := by
    rw [hf1]
    exact hd0
  have hne1 : ¬ emitThrows values s1 := fun h => by
    have := hno "error" h.2.1
    rw [h.2.2] at this
    exact absurd this (by decide)
  obtain ⟨s0', h0', ho0', -, -, -, hl0', hst0', htr0'⟩ :=
    cycleCallback_success_eq values s1 c hconn1
  have hne0' : ¬ emitThrows values s0' := fun h =>
    hne1 ((emitThrows_congr values s1 s0' ho0' hl0').mp h)
  obtain ⟨s2, h2, htr2, hold2, -⟩ := cycleReport_success values s0' hkeys hne0'
  have hcatch : (if s1.readDeferred ≠ 0 ∧ s1.connected = true then [Effect.readAllItems c]
      else []) = [] := by
    have : ¬ (s1.readDeferred ≠ 0 ∧ s1.connected = true) := by
      intro h
      simp [h.1, h.2] at hd1
    rw [if_neg this]
  refine ⟨s1, s2, by rw [h0, h1], by rw [h0', h2], ?_, ?_, hsame, ?_⟩
  · have hfil : (objectKeys values).filter (keyChanged s1.oldValues values) = [] := by
      rw [List.filter_eq_nil_iff]
      intro key hk
      simp [hno key hk]
    have hany : (objectKeys values).any (keyChanged s1.oldValues values) = false := by
      rw [List.any_eq_false]
      intro key hk
      simp [hno key hk]
    rw [htr2, htr0', hst0', hst1, ho0', hcatch]
    simp [expectedCycleEvents, hfil, hany]
  · intro key
    rw [hold2 key, ho0']
    by_cases hk : key ∈ objectKeys values
    · simp [hno key hk]
    · simp [hk]
  · intro key hk
    rw [hold1 key]
    simp [hk]

/-- C19 (amended) at the sample connected endpoint and the read result
`{A: 1, B: [2, NaN]}`. -/
theorem cycle_twice_idempotent_witness :
    ((objectKeys [("A", Value.int 1), ("B", .arr 7 [.int 2, .num .nan])]).Nodup ∧
      (sampleOnline.connected = true → sampleOnline.conn = some 0) ∧
      (∀ key ∈ objectKeys [("A", Value.int 1), ("B", .arr 7 [.int 2, .num .nan])],
        getProp [("A", Value.int 1), ("B", .arr 7 [.int 2, .num .nan])] key ≠ .num .nan) ∧
      ¬ emitThrows [("A", Value.int 1), ("B", .arr 7 [.int 2, .num .nan])] sampleOnline) ∧
    ∃ s1 s2,
      cycleCallback false [("A", .int 1), ("B", .arr 7 [.int 2, .num .nan])] sampleOnline =
        .ok s1 ∧
      cycleCallback false [("A", .int 1), ("B", .arr 7 [.int 2, .num .nan])] s1 = .ok s2 ∧
      s2.trace = s1.trace ++
        [.emit "__ALL__" (.values [("A", .int 1), ("B", .arr 7 [.int 2, .num .nan])])] ∧
      (∀ key, s2.oldValues key = s1.oldValues key) ∧
      (∀ key ∈ objectKeys [("A", Value.int 1), ("B", .arr 7 [.int 2, .num .nan])],
        equals (s1.oldValues key)
          (getProp [("A", Value.int 1), ("B", .arr 7 [.int 2, .num .nan])] key) = true) ∧
      (∀ key, key ∉ objectKeys [("A", Value.int 1), ("B", .arr 7 [.int 2, .num .nan])] →
        s1.oldValues key = sampleOnline.oldValues key) :=
  have hn : ∀ key ∈ objectKeys [("A", Value.int 1), ("B", .arr 7 [.int 2, .num .nan])],
      getProp [("A", Value.int 1), ("B", .arr 7 [.int 2, .num .nan])] key ≠ .num .nan := by
    intro key hk
    simp only [objectKeys, List.map_cons, List.map_nil, List.mem_cons, List.mem_singleton,
      List.not_mem_nil, or_false] at hk
    rcases hk with rfl | rfl
    · simp [getProp, List.lookup, Value.int, JSNum.ofInt]
    · simp [getProp, List.lookup]
  ⟨⟨by decide, by decide, hn, fun h => absurd h.2.1 (by decide)⟩,
    cycle_twice_idempotent [("A", .int 1), ("B", .arr 7 [.int 2, .num .nan])] sampleOnline 0
      (by decide) (by decide) hn (fun h => absurd h.2.1 (by decide))⟩

/-! ## C20: disabling the polling does not survive a reconnect -/

/-- C20, counterexample: three endpoints with one variable on which
`updateCycleTime(0)` is called while the first connect attempt is in flight,
followed by the successful connect completion.  With a configured cycle time
of 0 no poll timer runs afterwards: polling stays disabled.  With a configured
cycle time of 20 the poll timer is started with period 50, not the stored 20.
With a configured cycle time of 2147483648 the poll timer runs with period
1. -/
theorem reconnect_after_disable_cases :
    (pollTimers (run sampleParseInt (Endpoint.init [("A", "DB1,INT0")] (.int 0) false)
      [.connect, .tick, .updateCycleTime (.int 0)]) = [] ∧
      (run sampleParseInt (Endpoint.init [("A", "DB1,INT0")] (.int 0) false)
        [.connect, .tick, .updateCycleTime (.int 0)]).currentCycleTime = .int 0 ∧
      (run sampleParseInt (Endpoint.init [("A", "DB1,INT0")] (.int 0) false)
        [.connect, .tick, .updateCycleTime (.int 0), .connectDone 0 none]).connected = true ∧
      pollTimers (run sampleParseInt (Endpoint.init [("A", "DB1,INT0")] (.int 0) false)
        [.connect, .tick, .updateCycleTime (.int 0), .connectDone 0 none]) = []) ∧
    ((run sampleParseInt (Endpoint.init [("A", "DB1,INT0")] (.int 20) false)
        [.connect, .tick, .updateCycleTime (.int 0)]).currentCycleTime = .int 20 ∧
      pollTimers (run sampleParseInt (Endpoint.init [("A", "DB1,INT0")] (.int 20) false)
        [.connect, .tick, .updateCycleTime (.int 0), .connectDone 0 none]) =
          [.interval 1 (.ofInt 50)]) ∧
    ((run sampleParseInt (Endpoint.init [("A", "DB1,INT0")] (.int 2147483648) false)
        [.connect, .tick, .updateCycleTime (.int 0)]).currentCycleTime = .int 2147483648 ∧
      pollTimers (run sampleParseInt (Endpoint.init [("A", "DB1,INT0")] (.int 2147483648) false)
        [.connect, .tick, .updateCycleTime (.int 0), .connectDone 0 none]) =
          [.interval 1 (.ofInt 1)]) :=
  ⟨⟨rfl, rfl, rfl, rfl⟩, ⟨rfl, by rfl⟩, ⟨rfl, by rfl⟩⟩

/-- C20, amended: in a state `s` a fresh endpoint reaches, `updateCycleTime`
with an input that parses to 0 stops the poll timer and leaves
`currentCycleTime` as it is, whereas an input that parses to a positive `t`
overwrites it with `max t 50`.  Hence, when the polling was disabled with
`updateCycleTime(0)` and the stored cycle time parses to a non-negative
integer `t'` with `max t' 50` at most 2147483647, the next successful connect
completion (whatever happened in between, at an endpoint with a non-empty
variable map that holds a connection object) returns and leaves polling
disabled if `t' = 0`; if `t'` is positive it starts exactly one poll timer
again, with period `max t' 50`, which is also the stored cycle time
afterwards. -/
theorem polling_resumes_after_disable (parseInt : Value → JSNum)
    (vars : List (String × String)) (cycletime : Value) (isVerbose : Bool)
    (evs0 evs : List Event) (s v : Endpoint) (i0 it : Value) (t t' c c' : Nat)
    (hs : s = run parseInt (Endpoint.init vars cycletime isVerbose) evs0)
    (h0 : parseInt i0 = .ofInt (0 : Nat)) (ht : parseInt it = .ofInt t) (htpos : 0 < t)
    (hstored : parseInt s.currentCycleTime = .ofInt t')
    (hmax : max t' MIN_CYCLE_TIME ≤ TIMEOUT_MAX)
    (hv : v = run parseInt (updateCycleTime parseInt i0 s).2 evs)
    (hevs : evs.all Event.keepsCycleTime = true)
    (hpend : Pending.onConnect c ∈ v.pending) (hconn : v.conn = some c')
    (hvars : v.vars ≠ []) :
    ((updateCycleTime parseInt i0 s).2.currentCycleTime = s.currentCycleTime ∧
      pollTimers (updateCycleTime parseInt i0 s).2 = []) ∧
    (updateCycleTime parseInt it s).2.currentCycleTime =
      .num (.ofInt (max t MIN_CYCLE_TIME : Nat)) ∧
    ∃ s', step parseInt v (.connectDone c none) = .ok s' ∧
      pollTimers s' =
        (if t' = 0 then []
         else [.interval v.nextId (.ofInt (max t' MIN_CYCLE_TIME : Nat))]) ∧
      s'.currentCycleTime =
        (if t' = 0 then s.currentCycleTime
         else .num (.ofInt (max t' MIN_CYCLE_TIME : Nat))) := by
  have hok : TimersOK s :=
    hs ▸ timersOK_run parseInt evs0 _ (timersOK_init vars cycletime isVerbose)
  have hA := updateCycleTime_valid_of_tracked parseInt i0 s 0 h0 hok.1
  have hA1 : (updateCycleTime parseInt i0 s).2.currentCycleTime = s.currentCycleTime := by
    rw [updateCycleTime_stores parseInt i0 s 0 h0, if_pos rfl]
  have hB : (updateCycleTime parseInt it s).2.currentCycleTime =
      .num (.ofInt (max t MIN_CYCLE_TIME : Nat)) := by
    rw [updateCycleTime_stores parseInt it s t ht, if_neg (by omega)]
  refine ⟨⟨hA1, by simpa using hA.2.1⟩, hB, ?_⟩
  have hokv : TimersOK v := by
    rw [hv]
    exact timersOK_run parseInt evs _ (timersOK_updateCycleTime parseInt i0 s hok)
  have hcv : v.currentCycleTime = s.currentCycleTime := by
    rw [hv, run_cycleTime parseInt evs _ hevs, hA1]
  have hstep : step parseInt v (.connectDone c none) =
      onConnect parseInt none { v with pending := v.pending.erase (.onConnect c) } := by
    simp [step, complete, hpend]
  have hokv' : TimersOK { v with pending := v.pending.erase (.onConnect c) } := hokv
  obtain ⟨s1, h1, -, hc1, -, -, -, htm1, htd1, hn1, hct1⟩ :=
    onConnect_success_eq parseInt { v with pending := v.pending.erase (.onConnect c) } c'
      hconn hvars
  have htr : ∀ x ∈ s1.timers, x.isInterval = true → s1.td = some x.id := by
    intro x hx _
    rw [htm1] at hx
    rw [htd1]
    exact (clearTimer_ctt_timers _ hokv' x hx).2
  have hst1 : parseInt v.currentCycleTime = .ofInt t' := by rw [hcv]; exact hstored
  have hU := updateCycleTime_valid_of_tracked parseInt v.currentCycleTime s1 t' hst1 htr
  have hdelay : timerDelay (.ofInt (max t' MIN_CYCLE_TIME : Nat)) =
      .ofInt (max t' MIN_CYCLE_TIME : Nat) :=
    timerDelay_ofInt _ (by unfold MIN_CYCLE_TIME; omega) hmax
  rw [hdelay] at hU
  have hUc := updateCycleTime_stores parseInt v.currentCycleTime s1 t' hst1
  obtain ⟨tm, td, ct, nid, tr, hf⟩ := updateCycleTime_frame parseInt v.currentCycleTime s1
  have hcu : (updateCycleTime parseInt v.currentCycleTime s1).2.conn = some c' := by
    rw [hf]; exact hc1
  obtain ⟨q, wip, pd, tr', hw⟩ :=
    writeNext_frame (updateCycleTime parseInt v.currentCycleTime s1).2
  refine ⟨(writeNext (updateCycleTime parseInt v.currentCycleTime s1).2).state, ?_, ?_, ?_⟩
  · rw [hstep, h1]
    exact writeNext_ok _ c' hcu
  · have hp : pollTimers (writeNext (updateCycleTime parseInt v.currentCycleTime s1).2).state =
        pollTimers (updateCycleTime parseInt v.currentCycleTime s1).2 := by
      rw [hw]
      rfl
    rw [hp, hU.2.1, hn1]
  · rw [writeNext_cycleTime, hUc, hct1]
    show (if t' = 0 then v.currentCycleTime else _) = _
    rw [hcv]

/-- C20 (amended) at the sample connected endpoint (cycle time 1000 ms): the
polling is disabled, twelve manual cycles without an answer force a reconnect,
and the successful connect completion starts the poll timer again at
1000 ms. -/
theorem polling_resumes_after_disable_witness :
    (sampleOnline = run sampleParseInt (Endpoint.init [("A", "DB1,INT0")] (.int 1000) false)
        [.connect, .tick, .connectDone 0 none] ∧
      sampleParseInt (.int 0) = .ofInt (0 : Nat) ∧
      sampleParseInt (.int 20) = .ofInt (20 : Nat) ∧ 0 < 20 ∧
      sampleParseInt sampleOnline.currentCycleTime = .ofInt (1000 : Nat) ∧
      max 1000 MIN_CYCLE_TIME ≤ TIMEOUT_MAX ∧
      sampleDisabled = run sampleParseInt
        (updateCycleTime sampleParseInt (.int 0) sampleOnline).2 sampleStallAfterDisable ∧
      sampleStallAfterDisable.all Event.keepsCycleTime = true ∧
      Pending.onConnect 2 ∈ sampleDisabled.pending ∧ sampleDisabled.conn = some 2 ∧
      sampleDisabled.vars ≠ [] ∧ pollTimers sampleDisabled = []) ∧
    ((updateCycleTime sampleParseInt (.int 0) sampleOnline).2.currentCycleTime =
        sampleOnline.currentCycleTime ∧
      pollTimers (updateCycleTime sampleParseInt (.int 0) sampleOnline).2 = []) ∧
    (updateCycleTime sampleParseInt (.int 20) sampleOnline).2.currentCycleTime =
      .num (.ofInt (max 20 MIN_CYCLE_TIME : Nat)) ∧
    ∃ s', step sampleParseInt sampleDisabled (.connectDone 2 none) = .ok s' ∧
      pollTimers s' =
        (if 1000 = 0 then []
         else [.interval sampleDisabled.nextId (.ofInt (max 1000 MIN_CYCLE_TIME : Nat))]) ∧
      s'.currentCycleTime =
        (if 1000 = 0 then sampleOnline.currentCycleTime
         else .num (.ofInt (max 1000 MIN_CYCLE_TIME : Nat))) :=
  have hp : Pending.onConnect 2 ∈ sampleDisabled.pending := by decide
  have hc : sampleDisabled.conn = some 2 := by decide
  have hv : sampleDisabled.vars ≠ [] := by decide
  ⟨⟨rfl, by decide, by decide, by decide, by decide, by decide, rfl, by decide, hp, hc, hv,
      rfl⟩,
    polling_resumes_after_disable sampleParseInt [("A", "DB1,INT0")] (.int 1000) false
      [.connect, .tick, .connectDone 0 none] sampleStallAfterDisable sampleOnline
      sampleDisabled (.int 0) (.int 20) 20 1000 2 2 rfl (by decide) (by decide) (by decide)
      (by decide) (by decide) rfl (by decide) hp hc hv⟩


end OpcDa
